import Mathlib

/-!
# whatsmeow `sqlstore`: a shallow embedding

The SQL-backed device store of `store/sqlstore/store.go`, together with the
schema created by `store/sqlstore/upgrade.go`.

## Model

* A table is the list of its rows, in insertion order.  The primary key of a
  table is the one its `CREATE TABLE` statement in `upgradeV1` declares; it is
  given as a "same primary key" test on rows.
* The statements are the MySQL statements of `store.go`:
  * `INSERT ... VALUES (...)` fails with a duplicate-key error when a row with
    the same primary key is stored, and appends the row otherwise;
  * `INSERT ... ON DUPLICATE KEY UPDATE c₁ = e₁, c₂ = e₂, ...` appends the row
    when no stored row has its primary key, and otherwise assigns to the
    conflicting row, the assignments being applied one after the other from
    left to right, so that a column read by a later assignment already has
    the value an earlier assignment gave it; `VALUES(c)` is the value the
    statement tried to insert;
  * `SELECT ... WHERE ...` read through `QueryRow(...).Scan` yields the first
    matching row, or `sql.ErrNoRows`.
* Byte slices are lists of bytes, Go arrays `[n]byte` are byte lists of
  length `n`, `uint32` is a natural number reduced modulo `2^32`, `int64`
  timestamps are integers.
* Every statement is sent for the device `s.JID`, whose row in
  `whatsmeow_device` exists (foreign keys are satisfied); the values bound to
  a statement fit their columns and are stored unchanged; text comparison in
  `WHERE` is equality.
* Key generation (`keys.NewPreKey`) draws a fresh 32-byte private key; the
  drawn keys are an argument of the generating methods.  The public half of a
  key pair is a function of the private half and is not represented.
* `insertPreKeyQuery` is the one plain `INSERT` whose rejection the prekey
  methods surface.  Which inserts are rejected depends on the primary key of
  `whatsmeow_pre_keys` alone, so the prekey methods take that key as the
  argument `pk`; `preKeysPK` is the key `upgradeV1` declares.
* The functions are defined on all row lists.  A table respects its primary
  key when no two of its rows have the same key (`List.Pairwise`); the
  statements preserve this.
* The bulk methods are modelled with the statements they compose: a `Stmt` is
  the query text and the bound values passed to `Exec`, the text being built
  with `fmt.Sprintf` and `strings.Join` as in `store.go`.  They run against a
  `Backend`, which decides for every statement whether it fails and what it
  does to the database; a transaction works on a copy of the database that
  `Commit` installs and `Rollback` (or a failed `Commit`) discards.  Every
  call of the backend is recorded in a `Call` log.
* A `types.JID` is represented by its string form, the form bound to
  statements and scanned from rows; `JID.ToNonAD` and `JID.IsEmpty` are
  arguments of the methods that use them.
* The contact methods take the error of their query and of their `Exec` as
  arguments (`none` when the call succeeds); a failed `Exec` changes nothing.
* `LIKE` is the operator of MySQL with its default escape character, the
  backslash; characters are compared by equality.
* A `CREATE TABLE` statement of `upgrade.go` is represented by the name of the
  table, its columns, the columns of its primary key and its foreign keys.
  The migrator runs against a `SchemaBackend`: the rows of `whatsmeow_version`
  are part of the database, every other statement of an upgrade function acts
  on a schema of any type through the backend, and the backend decides which
  statements fail.  An upgrade function is the list of the statements it
  executes, each followed by `if err != nil { return err }`.  The versions
  stored are natural numbers.  The line `c.log.Infof("Upgrading database to
  v%d", ...)` is recorded among the calls.
-/

namespace Sqlstore

/-! ## Values and errors -/

/-- A byte. -/
abbrev Byte := Fin 256

/-- A Go byte slice `[]byte`. -/
abbrev Bytes := List Byte

/-- The Go array type `[32]byte`. -/
abbrev Bytes32 := { b : Bytes // b.length = 32 }

/-- The Go array type `[128]byte`. -/
abbrev Bytes128 := { b : Bytes // b.length = 128 }

/-- Errors a store method returns.  `ErrInvalidLength` is the package variable
of that name; `backend` is an error of the database driver; `wrapped` is
`fmt.Errorf("<ctx>: %w", inner)`. -/
inductive Error where
  | ErrInvalidLength
  | backend (msg : String)
  | wrapped (ctx : String) (inner : Error)
  deriving DecidableEq, Repr

/-- Outcome of `QueryRow(...).Scan(...)`: the scanned row, `sql.ErrNoRows`, or
another error. -/
inductive ScanResult (α : Type) where
  | row (a : α)
  | noRows
  | failed (e : Error)
  deriving DecidableEq, Repr

/-! ## Tables -/

/-- `QueryRow` on `SELECT ... WHERE p`: the first row that satisfies `p`. -/
def queryRow {ρ : Type} (p : ρ → Bool) (t : List ρ) : ScanResult ρ :=
  match t.find? p with
  | some r => .row r
  | none => .noRows

/-- Plain `INSERT`: a duplicate-key error when a stored row has the primary key
of `new`, the table with `new` appended otherwise. -/
def insertRow {ρ : Type} (samePK : ρ → ρ → Bool) (new : ρ) (t : List ρ) :
    Except Error (List ρ) :=
  if t.any (samePK new) then .error (.backend "Duplicate entry for key PRIMARY")
  else .ok (t ++ [new])

/-- `INSERT ... ON DUPLICATE KEY UPDATE`: when a stored row has the primary key
of `new`, that row becomes `onDup row new`; otherwise `new` is appended. -/
def upsertRow {ρ : Type} (samePK : ρ → ρ → Bool) (onDup : ρ → ρ → ρ) (new : ρ)
    (t : List ρ) : List ρ :=
  if t.any (samePK new) then t.map (fun r => if samePK new r then onDup r new else r)
  else t ++ [new]

/-- `DELETE FROM ... WHERE p`. -/
def deleteWhere {ρ : Type} (p : ρ → Bool) (t : List ρ) : List ρ :=
  t.filter (fun r => !p r)

/-! ## Rows and primary keys (`upgradeV1`) -/

/-- A row of `whatsmeow_identity_keys (our_jid, their_id, identity)`. -/
structure IdentityRow where
  our_jid : String
  their_id : String
  identity : Bytes
  deriving DecidableEq, Repr

/-- Primary key of `whatsmeow_identity_keys`: `PRIMARY KEY (our_jid)`. -/
def identityKeysPK (a b : IdentityRow) : Bool :=
  a.our_jid == b.our_jid

/-- A row of `whatsmeow_sessions (our_jid, their_id, session)`. -/
structure SessionRow where
  our_jid : String
  their_id : String
  session : Bytes
  deriving DecidableEq, Repr

/-- Primary key of `whatsmeow_sessions`: `PRIMARY KEY (our_jid, their_id)`. -/
def sessionsPK (a b : SessionRow) : Bool :=
  a.our_jid == b.our_jid && a.their_id == b.their_id

/-- A row of `whatsmeow_sender_keys (our_jid, chat_id, sender_id, sender_key)`. -/
structure SenderKeyRow where
  our_jid : String
  chat_id : String
  sender_id : String
  sender_key : Bytes
  deriving DecidableEq, Repr

/-- Primary key of `whatsmeow_sender_keys`: `PRIMARY KEY (our_jid, sender_id)`. -/
def senderKeysPK (a b : SenderKeyRow) : Bool :=
  a.our_jid == b.our_jid && a.sender_id == b.sender_id

/-- A row of `whatsmeow_pre_keys (jid, key_id, key, uploaded)`; `key_id` is
`INT UNSIGNED`, `key` is `TEXT NULL` (a `NULL` scans as the empty slice). -/
structure PreKeyRow where
  jid : String
  key_id : Nat
  key : Bytes
  uploaded : Bool
  deriving DecidableEq, Repr

/-- Primary key of `whatsmeow_pre_keys`: `PRIMARY KEY (jid)`. -/
def preKeysPK (a b : PreKeyRow) : Bool :=
  a.jid == b.jid

/-- A row of `whatsmeow_app_state_sync_keys
(jid, key_id, key_data, timestamp, fingerprint)`. -/
structure SyncKeyRow where
  jid : String
  key_id : Bytes
  key_data : Bytes
  timestamp : Int
  fingerprint : Bytes
  deriving DecidableEq, Repr

/-- Primary key of `whatsmeow_app_state_sync_keys`: `PRIMARY KEY (jid)`. -/
def appStateSyncKeysPK (a b : SyncKeyRow) : Bool :=
  a.jid == b.jid

/-- A row of `whatsmeow_app_state_version (jid, name, version, hash)`. -/
structure VersionRow where
  jid : String
  name : String
  version : Nat
  hash : Bytes
  deriving DecidableEq, Repr

/-- Primary key of `whatsmeow_app_state_version`: `PRIMARY KEY (jid, name)`. -/
def appStateVersionPK (a b : VersionRow) : Bool :=
  a.jid == b.jid && a.name == b.name

/-- A row of `whatsmeow_app_state_mutation_macs
(jid, name, version, index_mac, value_mac)`. -/
structure MutationMACRow where
  jid : String
  name : String
  version : Nat
  index_mac : Bytes
  value_mac : Bytes
  deriving DecidableEq, Repr

/-- Primary key of `whatsmeow_app_state_mutation_macs`: `PRIMARY KEY (jid)`. -/
def appStateMutationMACsPK (a b : MutationMACRow) : Bool :=
  a.jid == b.jid

/-- A row of `whatsmeow_contacts
(our_jid, their_jid, first_name, full_name, push_name, business_name)`; the
name columns can be `NULL`. -/
structure ContactRow where
  our_jid : String
  their_jid : String
  first_name : Option String
  full_name : Option String
  push_name : Option String
  business_name : Option String
  deriving DecidableEq, Repr

/-- Primary key of `whatsmeow_contacts`: `PRIMARY KEY (our_jid)`. -/
def contactsPK (a b : ContactRow) : Bool :=
  a.our_jid == b.our_jid

/-- A row of `whatsmeow_message_secrets
(our_jid, chat_jid, sender_jid, message_id, key)` (`upgradeV3`). -/
structure MessageSecretRow where
  our_jid : String
  chat_jid : String
  sender_jid : String
  message_id : String
  key : Bytes
  deriving DecidableEq, Repr

/-- Primary key of `whatsmeow_message_secrets`: `PRIMARY KEY (our_jid)`. -/
def messageSecretsPK (a b : MessageSecretRow) : Bool :=
  a.our_jid == b.our_jid

/-- A row of `whatsmeow_privacy_tokens (our_jid, their_jid, token, timestamp)`
(`upgradeV4`). -/
structure PrivacyTokenRow where
  our_jid : String
  their_jid : String
  token : Bytes
  timestamp : Int
  deriving DecidableEq, Repr

/-- Primary key of `whatsmeow_privacy_tokens`: `PRIMARY KEY (our_jid)`. -/
def privacyTokensPK (a b : PrivacyTokenRow) : Bool :=
  a.our_jid == b.our_jid

/-- A `types.JID`, by its string form. -/
abbrev JID := String

/-- The type `types.ContactInfo`. -/
structure ContactInfo where
  Found : Bool
  FirstName : String
  FullName : String
  PushName : String
  BusinessName : String
  deriving DecidableEq, Repr

/-- The store: the device JID of the `SQLStore`, the tables of its database
and its `contactCache`, a map given by the list of its entries (no two with
the same JID). -/
structure SQLStore where
  JID : String
  identityKeys : List IdentityRow := []
  sessions : List SessionRow := []
  preKeys : List PreKeyRow := []
  senderKeys : List SenderKeyRow := []
  appStateSyncKeys : List SyncKeyRow := []
  appStateVersion : List VersionRow := []
  appStateMutationMACs : List MutationMACRow := []
  contacts : List ContactRow := []
  messageSecrets : List MessageSecretRow := []
  privacyTokens : List PrivacyTokenRow := []
  contactCache : List (Sqlstore.JID × ContactInfo) := []
  deriving DecidableEq, Repr

/-! ## Identity store -/

/-- The statement `putIdentityQuery`: on a duplicate key,
`identity = VALUES(identity)`. -/
def putIdentityQuery (new : IdentityRow) (t : List IdentityRow) : List IdentityRow :=
  upsertRow identityKeysPK (fun r v => { r with identity := v.identity }) new t

/-- The statement `getIdentityQuery`:
`SELECT identity ... WHERE our_jid=? AND their_id=?`. -/
def getIdentityQuery (jid address : String) (t : List IdentityRow) : ScanResult Bytes :=
  match queryRow (fun r => r.our_jid == jid && r.their_id == address) t with
  | .row r => .row r.identity
  | .noRows => .noRows
  | .failed e => .failed e

/-- `SQLStore.PutIdentity`. -/
def PutIdentity (s : SQLStore) (address : String) (key : Bytes32) : SQLStore × Option Error :=
  let new : IdentityRow := { our_jid := s.JID, their_id := address, identity := key.val }
  ({ s with identityKeys := putIdentityQuery new s.identityKeys }, none)

/-- The body of `SQLStore.IsTrustedIdentity` after the `Scan`. -/
def isTrustedIdentityScan (scan : ScanResult Bytes) (key : Bytes32) : Bool × Option Error :=
  match scan with
  | .noRows => (true, none)
  | .failed e => (false, some e)
  | .row existingIdentity =>
    if existingIdentity.length ≠ 32 then (false, some .ErrInvalidLength)
    else (decide (existingIdentity = key.val), none)

/-- `SQLStore.IsTrustedIdentity`. -/
def IsTrustedIdentity (s : SQLStore) (address : String) (key : Bytes32) : Bool × Option Error :=
  isTrustedIdentityScan (getIdentityQuery s.JID address s.identityKeys) key

/-! ## Session store -/

/-- The statement `putSessionQuery`: on a duplicate key,
`session = VALUES(session)`. -/
def putSessionQuery (new : SessionRow) (t : List SessionRow) : List SessionRow :=
  upsertRow sessionsPK (fun r v => { r with session := v.session }) new t

/-- The statement `getSessionQuery`:
`SELECT session ... WHERE our_jid=? AND their_id=?`. -/
def getSessionQuery (jid address : String) (t : List SessionRow) : ScanResult Bytes :=
  match queryRow (fun r => r.our_jid == jid && r.their_id == address) t with
  | .row r => .row r.session
  | .noRows => .noRows
  | .failed e => .failed e

/-- The `Scan` of one byte-slice column followed by
`if errors.Is(err, sql.ErrNoRows) { err = nil }`, as in `GetSession` and
`GetSenderKey`: no row gives a nil slice with a nil error. -/
def scanBytesOrNil (scan : ScanResult Bytes) : Option Bytes × Option Error :=
  match scan with
  | .row session => (some session, none)
  | .noRows => (none, none)
  | .failed e => (none, some e)

/-- `SQLStore.GetSession`. -/
def GetSession (s : SQLStore) (address : String) : Option Bytes × Option Error :=
  scanBytesOrNil (getSessionQuery s.JID address s.sessions)

/-- `SQLStore.PutSession`. -/
def PutSession (s : SQLStore) (address : String) (session : Bytes) : SQLStore × Option Error :=
  let new : SessionRow := { our_jid := s.JID, their_id := address, session := session }
  ({ s with sessions := putSessionQuery new s.sessions }, none)

/-! ## Sender key store -/

/-- The statement `putSenderKeyQuery`: on a duplicate key,
`sender_key = VALUES(sender_key)`. -/
def putSenderKeyQuery (new : SenderKeyRow) (t : List SenderKeyRow) : List SenderKeyRow :=
  upsertRow senderKeysPK (fun r v => { r with sender_key := v.sender_key }) new t

/-- The statement `getSenderKeyQuery`:
`SELECT sender_key ... WHERE our_jid=? AND chat_id=? AND sender_id=?`. -/
def getSenderKeyQuery (jid group user : String) (t : List SenderKeyRow) : ScanResult Bytes :=
  match queryRow (fun r => r.our_jid == jid && r.chat_id == group && r.sender_id == user) t with
  | .row r => .row r.sender_key
  | .noRows => .noRows
  | .failed e => .failed e

/-- `SQLStore.PutSenderKey`. -/
def PutSenderKey (s : SQLStore) (group user : String) (session : Bytes) :
    SQLStore × Option Error :=
  let new : SenderKeyRow :=
    { our_jid := s.JID, chat_id := group, sender_id := user, sender_key := session }
  ({ s with senderKeys := putSenderKeyQuery new s.senderKeys }, none)

/-- `SQLStore.GetSenderKey`: as `GetSession`, `sql.ErrNoRows` gives a nil key
with a nil error. -/
def GetSenderKey (s : SQLStore) (group user : String) : Option Bytes × Option Error :=
  scanBytesOrNil (getSenderKeyQuery s.JID group user s.senderKeys)

/-! ## Prekey store -/

/-- The type `keys.PreKey`: the key id and the private key of the pair. -/
structure PreKey where
  KeyID : Nat
  Priv : Bytes32
  deriving DecidableEq, Repr

/-- The function `keys.NewPreKey`, with the freshly drawn private key `priv`. -/
def NewPreKey (priv : Bytes32) (id : Nat) : PreKey :=
  { KeyID := id, Priv := priv }

/-- Rows of the device `jid` in `whatsmeow_pre_keys`. -/
def devicePreKeys (jid : String) (t : List PreKeyRow) : List PreKeyRow :=
  t.filter (fun r => r.jid == jid)

/-- The statement `getLastPreKeyIDQuery`: `SELECT MAX(key_id) ... WHERE jid=?`,
`NULL` (here `none`) when the device has no prekey. -/
def getLastPreKeyIDQuery (jid : String) (t : List PreKeyRow) : Option Nat :=
  match devicePreKeys jid t with
  | [] => none
  | r :: rs => some ((r :: rs).foldr (fun x m => max x.key_id m) 0)

/-- `Scan` into a `sql.NullInt32`: `NULL` leaves `Int32 = 0`, a value above
`math.MaxInt32` is a conversion error. -/
def scanNullInt32 (v : Option Nat) : Except Error Nat :=
  match v with
  | none => .ok 0
  | some n =>
    if n < 2 ^ 31 then .ok n
    else .error (.backend "converting driver.Value type to a int32: value out of range")

/-- `SQLStore.getNextPreKeyID`: `uint32(lastKeyID.Int32) + 1`. -/
def getNextPreKeyID (s : SQLStore) : Nat × Option Error :=
  match scanNullInt32 (getLastPreKeyIDQuery s.JID s.preKeys) with
  | .error e => (0, some (.wrapped "failed to query next prekey ID" e))
  | .ok lastKeyID => ((lastKeyID + 1) % 2 ^ 32, none)

/-- `SQLStore.genOnePreKey`: the statement `insertPreKeyQuery` is a plain
`INSERT`, rejected when a stored row has the primary key `pk` of the new row.
The key is returned also when the insert fails. -/
def genOnePreKey (pk : PreKeyRow → PreKeyRow → Bool) (s : SQLStore) (priv : Bytes32)
    (id : Nat) (markUploaded : Bool) : SQLStore × PreKey × Option Error :=
  let key := NewPreKey priv id
  let new : PreKeyRow :=
    { jid := s.JID, key_id := key.KeyID, key := key.Priv.val, uploaded := markUploaded }
  match insertRow pk new s.preKeys with
  | .ok t => ({ s with preKeys := t }, key, none)
  | .error e => (s, key, some e)

/-- `SQLStore.GenOnePreKey`. -/
def GenOnePreKey (pk : PreKeyRow → PreKeyRow → Bool) (s : SQLStore) (priv : Bytes32) :
    SQLStore × Option PreKey × Option Error :=
  match getNextPreKeyID s with
  | (_, some err) => (s, none, some err)
  | (nextKeyID, none) =>
    match genOnePreKey pk s priv nextKeyID true with
    | (s1, key, err) => (s1, some key, err)

/-- The function `scanPreKey`. -/
def scanPreKey (scan : ScanResult (Nat × Bytes)) : Option PreKey × Option Error :=
  match scan with
  | .noRows => (none, none)
  | .failed e => (none, some e)
  | .row (id, priv) =>
    if h : priv.length = 32 then (some { KeyID := id, Priv := ⟨priv, h⟩ }, none)
    else (none, some .ErrInvalidLength)

/-- The statement `getUnuploadedPreKeysQuery`:
`SELECT key_id, key ... WHERE jid=? AND uploaded=false ORDER BY key_id LIMIT ?`. -/
def getUnuploadedPreKeysQuery (jid : String) (limit : Nat) (t : List PreKeyRow) :
    List (Nat × Bytes) :=
  (((t.filter (fun r => r.jid == jid && r.uploaded == false)).insertionSort
    (fun a b => a.key_id ≤ b.key_id)).take limit).map (fun r => (r.key_id, r.key))

/-- The `for res.Next()` loop of `GetOrGenPreKeys`: every row is scanned with
`scanPreKey`, the first error ends the call, the keys fill `newKeys` from
index `0`. -/
def scanExistingPreKeys : List (Nat × Bytes) → Except Error (List PreKey)
  | [] => .ok []
  | r :: rs =>
    match scanPreKey (.row r) with
    | (_, some err) => .error err
    | (none, none) => scanExistingPreKeys rs
    | (some key, none) =>
      match scanExistingPreKeys rs with
      | .ok ks => .ok (key :: ks)
      | .error e => .error e

/-- The loop `for i := existingCount; i < count; i++` of `GetOrGenPreKeys`,
with `n` iterations to go: slot `i` gets a key generated with id `nextKeyID`,
then `nextKeyID++` (a `uint32`).  The first failing insert ends the call; the
rows inserted before it stay. -/
def genPreKeysLoop (pk : PreKeyRow → PreKeyRow → Bool) (rnd : Nat → Bytes32) :
    Nat → Nat → Nat → SQLStore → SQLStore × Except Error (List PreKey)
  | 0, _, _, s => (s, .ok [])
  | n + 1, i, nextKeyID, s =>
    match genOnePreKey pk s (rnd i) nextKeyID false with
    | (s1, _, some err) => (s1, .error (.wrapped "failed to generate prekey" err))
    | (s1, key, none) =>
      match genPreKeysLoop pk rnd n (i + 1) ((nextKeyID + 1) % 2 ^ 32) s1 with
      | (s2, .ok ks) => (s2, .ok (key :: ks))
      | (s2, .error e) => (s2, .error e)

/-- `SQLStore.GetOrGenPreKeys`; `rnd i` is the private key drawn for slot `i`
of `newKeys`. -/
def GetOrGenPreKeys (pk : PreKeyRow → PreKeyRow → Bool) (s : SQLStore) (count : Nat)
    (rnd : Nat → Bytes32) : SQLStore × Except Error (List PreKey) :=
  match scanExistingPreKeys (getUnuploadedPreKeysQuery s.JID count s.preKeys) with
  | .error err => (s, .error err)
  | .ok existing =>
    let existingCount := existing.length
    if existingCount < count then
      match getNextPreKeyID s with
      | (_, some err) => (s, .error err)
      | (nextKeyID, none) =>
        match genPreKeysLoop pk rnd (count - existingCount) existingCount nextKeyID s with
        | (s1, .ok fresh) => (s1, .ok (existing ++ fresh))
        | (s1, .error e) => (s1, .error e)
    else (s, .ok existing)

/-- `SQLStore.GetPreKey`. -/
def GetPreKey (s : SQLStore) (id : Nat) : Option PreKey × Option Error :=
  scanPreKey (match queryRow (fun r => r.jid == s.JID && r.key_id == id) s.preKeys with
    | .row r => .row (r.key_id, r.key)
    | .noRows => .noRows
    | .failed e => .failed e)

/-- `SQLStore.RemovePreKey`: `DELETE ... WHERE jid=? AND key_id=?`. -/
def RemovePreKey (s : SQLStore) (id : Nat) : SQLStore × Option Error :=
  ({ s with preKeys := deleteWhere (fun r => r.jid == s.JID && r.key_id == id) s.preKeys }, none)

/-- `SQLStore.MarkPreKeysAsUploaded`:
`UPDATE ... SET uploaded=true WHERE jid=? AND key_id<=?`. -/
def MarkPreKeysAsUploaded (s : SQLStore) (upToID : Nat) : SQLStore × Option Error :=
  ({ s with preKeys := s.preKeys.map (fun r =>
      if r.jid == s.JID && decide (r.key_id ≤ upToID) then { r with uploaded := true } else r) },
    none)

/-- `SQLStore.UploadedPreKeyCount`. -/
def UploadedPreKeyCount (s : SQLStore) : Nat × Option Error :=
  ((s.preKeys.filter (fun r => r.jid == s.JID && r.uploaded == true)).length, none)

/-! ## App state sync keys -/

/-- The type `store.AppStateSyncKey`. -/
structure AppStateSyncKey where
  Data : Bytes
  Fingerprint : Bytes
  Timestamp : Int
  deriving DecidableEq, Repr

/-- The `ON DUPLICATE KEY UPDATE` clause of `putAppStateSyncKeyQuery`, applied
to the stored row `r` with `v` the row of `VALUES(...)`: the three assignments
`key_data = CASE ...`, `timestamp = CASE ...`, `fingerprint = CASE ...` in the
order of the statement, each `CASE WHEN VALUES(timestamp) > timestamp` reading
the `timestamp` column as it is when the assignment is made. -/
def putAppStateSyncKeyOnDuplicate (r v : SyncKeyRow) : SyncKeyRow :=
  let r1 := { r with key_data := if v.timestamp > r.timestamp then v.key_data else r.key_data }
  let r2 := { r1 with
    timestamp := if v.timestamp > r1.timestamp then v.timestamp else r1.timestamp }
  let r3 := { r2 with
    fingerprint := if v.timestamp > r2.timestamp then v.fingerprint else r2.fingerprint }
  r3

/-- The statement `putAppStateSyncKeyQuery`. -/
def putAppStateSyncKeyQuery (new : SyncKeyRow) (t : List SyncKeyRow) : List SyncKeyRow :=
  upsertRow appStateSyncKeysPK putAppStateSyncKeyOnDuplicate new t

/-- The statement `getAppStateSyncKeyQuery`:
`SELECT key_data, timestamp, fingerprint ... WHERE jid=? AND key_id=?`. -/
def getAppStateSyncKeyQuery (jid : String) (id : Bytes) (t : List SyncKeyRow) :
    ScanResult (Bytes × Int × Bytes) :=
  match queryRow (fun r => r.jid == jid && r.key_id == id) t with
  | .row r => .row (r.key_data, r.timestamp, r.fingerprint)
  | .noRows => .noRows
  | .failed e => .failed e

/-- The row bound to `putAppStateSyncKeyQuery` by `PutAppStateSyncKey`:
`s.JID, id, key.Data, key.Timestamp, key.Fingerprint`. -/
def syncKeyRow (jid : String) (id : Bytes) (key : AppStateSyncKey) : SyncKeyRow :=
  { jid := jid, key_id := id, key_data := key.Data, timestamp := key.Timestamp,
    fingerprint := key.Fingerprint }

/-- `SQLStore.PutAppStateSyncKey`. -/
def PutAppStateSyncKey (s : SQLStore) (id : Bytes) (key : AppStateSyncKey) :
    SQLStore × Option Error :=
  ({ s with appStateSyncKeys :=
      putAppStateSyncKeyQuery (syncKeyRow s.JID id key) s.appStateSyncKeys }, none)

/-- `SQLStore.GetAppStateSyncKey`: nil without error when no row exists;
otherwise the key together with the error of the `Scan` (a failed `Scan`
leaves the zero key). -/
def GetAppStateSyncKey (s : SQLStore) (id : Bytes) : Option AppStateSyncKey × Option Error :=
  match getAppStateSyncKeyQuery s.JID id s.appStateSyncKeys with
  | .noRows => (none, none)
  | .failed e => (some { Data := [], Fingerprint := [], Timestamp := 0 }, some e)
  | .row (data, timestamp, fingerprint) =>
    (some { Data := data, Fingerprint := fingerprint, Timestamp := timestamp }, none)

/-! ## App state version -/

/-- The statement `putAppStateVersionQuery`: on a duplicate key,
`version = VALUES(version), hash = VALUES(hash)`. -/
def putAppStateVersionQuery (new : VersionRow) (t : List VersionRow) : List VersionRow :=
  upsertRow appStateVersionPK
    (fun r v =>
      let r1 := { r with version := v.version }
      { r1 with hash := v.hash })
    new t

/-- The statement `getAppStateVersionQuery`:
`SELECT version, hash ... WHERE jid=? AND name=?`. -/
def getAppStateVersionQuery (jid name : String) (t : List VersionRow) :
    ScanResult (Nat × Bytes) :=
  match queryRow (fun r => r.jid == jid && r.name == name) t with
  | .row r => .row (r.version, r.hash)
  | .noRows => .noRows
  | .failed e => .failed e

/-- The zero value of `[128]byte`. -/
def zeroHash : Bytes128 :=
  ⟨List.replicate 128 0, List.length_replicate 128 0⟩

/-- `SQLStore.PutAppStateVersion`. -/
def PutAppStateVersion (s : SQLStore) (name : String) (version : Nat) (hash : Bytes128) :
    SQLStore × Option Error :=
  let new : VersionRow := { jid := s.JID, name := name, version := version, hash := hash.val }
  ({ s with appStateVersion := putAppStateVersionQuery new s.appStateVersion }, none)

/-- `SQLStore.GetAppStateVersion`: the named results `version`, `hash`, `err`.
No row: version `0`, zero hash, nil error.  A stored hash whose length is not
`128`: the scanned version, the zero hash and `ErrInvalidLength`. -/
def GetAppStateVersion (s : SQLStore) (name : String) : Nat × Bytes128 × Option Error :=
  match getAppStateVersionQuery s.JID name s.appStateVersion with
  | .noRows => (0, zeroHash, none)
  | .failed e => (0, zeroHash, some e)
  | .row (version, uncheckedHash) =>
    if h : uncheckedHash.length = 128 then (version, ⟨uncheckedHash, h⟩, none)
    else (version, zeroHash, some .ErrInvalidLength)

/-! ## Sequences of prekey operations -/

/-- A call of one of the prekey methods, with the private keys it draws. -/
inductive PreKeyOp where
  | genOne (priv : Bytes32)
  | getOrGen (count : Nat) (rnd : Nat → Bytes32)
  | remove (id : Nat)
  | markUploaded (upToID : Nat)

/-- The store after the call `op`. -/
def PreKeyOp.run (pk : PreKeyRow → PreKeyRow → Bool) (s : SQLStore) : PreKeyOp → SQLStore
  | .genOne priv => (GenOnePreKey pk s priv).1
  | .getOrGen count rnd => (GetOrGenPreKeys pk s count rnd).1
  | .remove id => (RemovePreKey s id).1
  | .markUploaded upToID => (MarkPreKeysAsUploaded s upToID).1

/-- The store after the calls `ops`, made one after the other. -/
def runPreKeyOps (pk : PreKeyRow → PreKeyRow → Bool) (s : SQLStore) (ops : List PreKeyOp) :
    SQLStore :=
  ops.foldl (PreKeyOp.run pk) s

/-- Ids of the prekeys of the device, in the order of their rows. -/
def preKeyIDs (s : SQLStore) : List Nat :=
  (devicePreKeys s.JID s.preKeys).map (fun r => r.key_id)

/-- Largest prekey id of the device, `0` when it has no prekey. -/
def maxPreKeyID (s : SQLStore) : Nat :=
  (preKeyIDs s).foldr max 0

/-- The rows the loop of `GetOrGenPreKeys` inserts in `k` iterations that all
succeed, starting at slot `i` with the id `nextKeyID`: each row belongs to the
device, is not uploaded, and the id is incremented as a `uint32`. -/
def freshPreKeyRows (jid : String) (rnd : Nat → Bytes32) : Nat → Nat → Nat → List PreKeyRow
  | 0, _, _ => []
  | k + 1, i, nextKeyID =>
    { jid := jid, key_id := nextKeyID, key := (rnd i).val, uploaded := false } ::
      freshPreKeyRows jid rnd k (i + 1) ((nextKeyID + 1) % 2 ^ 32)

/-- Ids of the rows a generating call inserts: inserts append, so these are
the rows of the table after the call `s1` beyond those of the table before
it `s`. -/
def insertedIDs (s s1 : SQLStore) : List Nat :=
  (s1.preKeys.drop s.preKeys.length).map (fun r => r.key_id)

/-- Ids of the prekeys generated (inserted) by the call `op` on the store
`s`; removing and marking generate none. -/
def generatedBy (pk : PreKeyRow → PreKeyRow → Bool) (s : SQLStore) : PreKeyOp → List Nat
  | .genOne priv => insertedIDs s (PreKeyOp.run pk s (.genOne priv))
  | .getOrGen count rnd => insertedIDs s (PreKeyOp.run pk s (.getOrGen count rnd))
  | .remove _ => []
  | .markUploaded _ => []

/-- Ids of the prekeys generated (inserted) by the calls `ops`, in the order
of their generation. -/
def generatedIDs (pk : PreKeyRow → PreKeyRow → Bool) : SQLStore → List PreKeyOp → List Nat
  | _, [] => []
  | s, op :: ops => generatedBy pk s op ++ generatedIDs pk (PreKeyOp.run pk s op) ops

/-- Whether the call is a `RemovePreKey`. -/
def PreKeyOp.isRemove : PreKeyOp → Bool
  | .remove _ => true
  | _ => false

/-! ## Statements and backends -/

/-- A value bound to a statement. -/
inductive Value where
  | text (s : String)
  | blob (b : Bytes)
  | uint (n : Nat)
  | int (i : Int)
  | array (bs : List Bytes)
  | bool (b : Bool)
  deriving DecidableEq, Repr

/-- A statement as passed to `Exec`: the query text and the bound values. -/
structure Stmt where
  query : String
  args : List Value
  deriving DecidableEq, Repr

/-- A call of the backing store. -/
inductive Call where
  | begin
  | exec (st : Stmt)
  | commit
  | rollback
  deriving DecidableEq, Repr

/-- A backing store with database states `σ`: `exec` runs one statement, which
either fails and changes nothing or gives the next state; `beginErr` and
`commitErr` are the errors of `Begin` and of `Commit` (`none` on success). -/
structure Backend (σ : Type) where
  exec : σ → Stmt → Except Error σ
  beginErr : σ → Option Error
  commitErr : σ → Option Error

/-- An argument of `fmt.Sprintf`: an `int` (non-negative here) or a `string`. -/
inductive FmtArg where
  | int (n : Nat)
  | str (s : String)
  deriving DecidableEq, Repr

/-- The text `type=value` of one surplus argument of `fmt.Sprintf`. -/
def fmtExtraArg : FmtArg → List Char
  | .int n => "int=".toList ++ (Nat.repr n).toList
  | .str s => "string=".toList ++ s.toList

/-- The surplus arguments of `fmt.Sprintf`, separated by `", "`. -/
def fmtExtraArgs : List FmtArg → List Char
  | [] => []
  | [a] => fmtExtraArg a
  | a :: b :: rest => fmtExtraArg a ++ ", ".toList ++ fmtExtraArgs (b :: rest)

/-- The characters `fmt.Sprintf` writes for a format with the verbs `%d`, `%s`
and `%%`: a verb consumes the next argument (`%!d(MISSING)` when none is left,
`%!d(string=...)` or `%!s(int=...)` for an argument of the other type), and
arguments left over at the end of the format are reported as
`%!(EXTRA type=value, ...)`. -/
def sprintfChars : List Char → List FmtArg → List Char
  | [], [] => []
  | [], a :: rest => "%!(EXTRA ".toList ++ fmtExtraArgs (a :: rest) ++ [')']
  | '%' :: 'd' :: fmt, .int n :: rest => (Nat.repr n).toList ++ sprintfChars fmt rest
  | '%' :: 'd' :: fmt, .str s :: rest =>
    "%!d(string=".toList ++ s.toList ++ [')'] ++ sprintfChars fmt rest
  | '%' :: 'd' :: fmt, [] => "%!d(MISSING)".toList ++ sprintfChars fmt []
  | '%' :: 's' :: fmt, .str s :: rest => s.toList ++ sprintfChars fmt rest
  | '%' :: 's' :: fmt, .int n :: rest =>
    "%!s(int=".toList ++ (Nat.repr n).toList ++ [')'] ++ sprintfChars fmt rest
  | '%' :: 's' :: fmt, [] => "%!s(MISSING)".toList ++ sprintfChars fmt []
  | '%' :: '%' :: fmt, rest => '%' :: sprintfChars fmt rest
  | c :: fmt, rest => c :: sprintfChars fmt rest

/-- `fmt.Sprintf`. -/
def Sprintf (format : String) (args : List FmtArg) : String :=
  String.mk (sprintfChars format.toList args)

/-- `strings.Join`. -/
def Join (parts : List String) (sep : String) : String :=
  sep.intercalate parts

/-! ## Mutation MACs: composing the bulk insert -/

/-- The type `store.AppStateMutationMAC`. -/
structure AppStateMutationMAC where
  IndexMAC : Bytes
  ValueMAC : Bytes
  deriving DecidableEq, Repr

/-- The constant `putAppStateMutationMACsQuery`. -/
def putAppStateMutationMACsQuery : String :=
  "INSERT INTO whatsmeow_app_state_mutation_macs (jid, name, version, index_mac, value_mac) VALUES "

/-- The placeholder syntax `putAppStateMutationMACs` chooses for a dialect. -/
def mutationPlaceholderSyntax (dialect : String) : String :=
  if dialect == "sqlite3" then "(?1, ?2, ?3, ?%d, ?%d)" else "(?, ?, ?, ?, ?)"

/-- The `queryParts` of `putAppStateMutationMACs`, from the mutation of index
`i` on: `fmt.Sprintf(placeholderSyntax, baseIndex+1, baseIndex+2)` with
`baseIndex = 3 + i*2`. -/
def mutationQueryParts (placeholderSyntax : String) : Nat → List AppStateMutationMAC → List String
  | _, [] => []
  | i, _ :: rest =>
    Sprintf placeholderSyntax [.int (3 + i * 2 + 1), .int (3 + i * 2 + 2)] ::
      mutationQueryParts placeholderSyntax (i + 1) rest

/-- The `values` of `putAppStateMutationMACs`: the device JID, the name and the
version, then the index MAC and the value MAC of every mutation. -/
def mutationValues (jid name : String) (version : Nat) (mutations : List AppStateMutationMAC) :
    List Value :=
  [.text jid, .text name, .uint version] ++
    mutations.flatMap (fun m => [.blob m.IndexMAC, .blob m.ValueMAC])

/-- The statement `SQLStore.putAppStateMutationMACs` passes to `Exec`. -/
def putAppStateMutationMACs (dialect jid name : String) (version : Nat)
    (mutations : List AppStateMutationMAC) : Stmt :=
  { query := putAppStateMutationMACsQuery ++
      Join (mutationQueryParts (mutationPlaceholderSyntax dialect) 0 mutations) ",",
    args := mutationValues jid name version mutations }

/-- The placeholders of a statement text under the positional convention: the
number of `?`, the `k`-th of which is bound to the `k`-th value. -/
def positionalPlaceholders (query : String) : Nat :=
  query.toList.count '?'

/-- The number the leading decimal digits of `cs` spell after `acc`. -/
def leadingNat : List Char → Nat → Nat
  | [], acc => acc
  | c :: cs, acc => if c.isDigit then leadingNat cs (acc * 10 + (c.toNat - 48)) else acc

/-- The placeholders of a statement text under the numbered convention of
SQLite, in the order of the text: `?n` is bound to the `n`-th value (a `?`
without number is listed as `0`). -/
def numberedPlaceholdersOf : List Char → List Nat
  | [] => []
  | c :: cs => if c = '?' then leadingNat cs 0 :: numberedPlaceholdersOf cs
    else numberedPlaceholdersOf cs

/-- The numbered placeholders of a statement text. -/
def numberedPlaceholders (query : String) : List Nat :=
  numberedPlaceholdersOf query.toList

/-! ## Batches and transactions -/

/-- The slice a batch loop takes at index `i`:
`items[i : i+size]` when `len(items) > i+size`, else `items[i:]`. -/
def batchSlice {α : Type} (size i : Nat) (items : List α) : List α :=
  if items.length > i + size then (items.drop i).take size else items.drop i

/-- The loop `for i := 0; i < len(items); i += size` of `PutAppStateMutationMACs`
and of `PutAllContactNames`, on the transaction `tx`, from index `i` on, with
at most `fuel` iterations: the statement `mk slice` of every slice is
executed, and the first error ends the loop. -/
def execBatches {σ α : Type} (B : Backend σ) (mk : List α → Stmt) (size : Nat)
    (items : List α) : Nat → Nat → σ → Except Error σ × List Call
  | 0, _, tx => (.ok tx, [])
  | fuel + 1, i, tx =>
    if i < items.length then
      match B.exec tx (mk (batchSlice size i items)) with
      | .error err => (.error err, [.exec (mk (batchSlice size i items))])
      | .ok tx1 =>
        match execBatches B mk size items fuel (i + size) tx1 with
        | (r, log) => (r, .exec (mk (batchSlice size i items)) :: log)
    else (.ok tx, [])

/-- The constant `mutationBatchSize`. -/
def mutationBatchSize : Nat := 400

/-- `SQLStore.PutAppStateMutationMACs` on the database `db`: the database after
the call, the error returned and the calls of the backend.  The loop gets
`len(mutations)` as fuel, one unit for every index it can visit. -/
def PutAppStateMutationMACs {σ : Type} (B : Backend σ) (dialect jid : String) (db : σ)
    (name : String) (version : Nat) (mutations : List AppStateMutationMAC) :
    σ × Option Error × List Call :=
  if mutations.length > mutationBatchSize then
    match B.beginErr db with
    | some err => (db, some (.wrapped "failed to start transaction" err), [.begin])
    | none =>
      match execBatches B (putAppStateMutationMACs dialect jid name version) mutationBatchSize
          mutations mutations.length 0 db with
      | (.error err, log) => (db, some err, .begin :: log ++ [.rollback])
      | (.ok tx, log) =>
        match B.commitErr tx with
        | some err =>
          (db, some (.wrapped "failed to commit transaction" err), .begin :: log ++ [.commit])
        | none => (tx, none, .begin :: log ++ [.commit])
  else if mutations.length > 0 then
    match B.exec db (putAppStateMutationMACs dialect jid name version mutations) with
    | .error err =>
      (db, some err, [.exec (putAppStateMutationMACs dialect jid name version mutations)])
    | .ok db1 =>
      (db1, none, [.exec (putAppStateMutationMACs dialect jid name version mutations)])
  else (db, none, [])

/-- The constant `deleteAppStateMutationMACsQueryPostgres`. -/
def deleteAppStateMutationMACsQueryPostgres : String :=
  "DELETE FROM whatsmeow_app_state_mutation_macs WHERE jid=? AND name=? AND index_mac=ANY(?::bytea[])"

/-- The constant `deleteAppStateMutationMACsQueryGeneric`. -/
def deleteAppStateMutationMACsQueryGeneric : String :=
  "DELETE FROM whatsmeow_app_state_mutation_macs WHERE jid=? AND name=? AND index_mac IN "

/-- The `queryParts` of `DeleteAppStateMutationMACs`, from the item of index
`i` on: `fmt.Sprintf("$%d", i+3)`. -/
def deleteQueryParts : Nat → List Bytes → List String
  | _, [] => []
  | i, _ :: rest => Sprintf "$%d" [.int (i + 3)] :: deleteQueryParts (i + 1) rest

/-- The statement of `DeleteAppStateMutationMACs` for a non-empty list;
`PostgresArrayWrapper` is the package variable of that name, `none` for nil. -/
def deleteAppStateMutationMACsStmt (dialect jid : String)
    (PostgresArrayWrapper : Option (List Bytes → Value)) (name : String)
    (indexMACs : List Bytes) : Stmt :=
  match decide (dialect = "postgres"), PostgresArrayWrapper with
  | true, some wrap =>
    { query := deleteAppStateMutationMACsQueryPostgres,
      args := [.text jid, .text name, wrap indexMACs] }
  | _, _ =>
    { query := deleteAppStateMutationMACsQueryGeneric ++ "(" ++
        Join (deleteQueryParts 0 indexMACs) "," ++ ")",
      args := [.text jid, .text name] ++ indexMACs.map Value.blob }

/-- `SQLStore.DeleteAppStateMutationMACs`. -/
def DeleteAppStateMutationMACs {σ : Type} (B : Backend σ) (dialect jid : String)
    (PostgresArrayWrapper : Option (List Bytes → Value)) (db : σ) (name : String)
    (indexMACs : List Bytes) : σ × Option Error × List Call :=
  if indexMACs.length = 0 then (db, none, [])
  else
    match B.exec db
        (deleteAppStateMutationMACsStmt dialect jid PostgresArrayWrapper name indexMACs) with
    | .error err => (db, some err,
        [.exec (deleteAppStateMutationMACsStmt dialect jid PostgresArrayWrapper name indexMACs)])
    | .ok db1 => (db1, none,
        [.exec (deleteAppStateMutationMACsStmt dialect jid PostgresArrayWrapper name indexMACs)])

/-! ## Contacts: composing the bulk insert -/

/-- The type `store.ContactEntry`. -/
structure ContactEntry where
  JID : JID
  FirstName : String
  FullName : String
  deriving DecidableEq, Repr

/-- A warning `putContactNamesBatch` logs. -/
inductive Warning where
  | emptyContact (contact : ContactEntry)
  | duplicateContact (jid : JID)
  deriving DecidableEq, Repr

/-- The constant `putManyContactNamesQuery`. -/
def putManyContactNamesQuery : String :=
  "\n\t\tINSERT INTO whatsmeow_contacts (our_jid, their_jid, first_name, full_name)\n\t\tVALUES %s\n\t\tON DUPLICATE KEY UPDATE\n\t\t\tfirst_name = VALUES(first_name),\n\t\t\tfull_name = VALUES(full_name)"

/-- The placeholder syntax `putContactNamesBatch` chooses for a dialect. -/
def contactPlaceholderSyntax (dialect : String) : String :=
  if dialect == "sqlite3" then "(?1, ?%d, ?%d, ?%d)" else "(?, ?, ?, ?)"

/-- The variables of the loop of `putContactNamesBatch`. -/
structure ContactBatch where
  i : Nat
  handledContacts : List JID
  values : List Value
  queryParts : List String
  warnings : List Warning
  deriving DecidableEq, Repr

/-- One iteration of the loop of `putContactNamesBatch`: an empty JID and a JID
already handled are skipped with a warning; otherwise the contact is bound and
its placeholders, `fmt.Sprintf(placeholderSyntax, baseIndex+1, baseIndex+2,
baseIndex+3)` with `baseIndex = i*3 + 1`, are appended. -/
def contactBatchStep (IsEmpty : JID → Bool) (placeholderSyntax : String) (b : ContactBatch)
    (contact : ContactEntry) : ContactBatch :=
  if IsEmpty contact.JID then
    { b with warnings := b.warnings ++ [.emptyContact contact] }
  else if b.handledContacts.contains contact.JID then
    { b with warnings := b.warnings ++ [.duplicateContact contact.JID] }
  else
    { i := b.i + 1,
      handledContacts := contact.JID :: b.handledContacts,
      values := b.values ++
        [.text contact.JID, .text contact.FirstName, .text contact.FullName],
      queryParts := b.queryParts ++
        [Sprintf placeholderSyntax
          [.int (b.i * 3 + 1 + 1), .int (b.i * 3 + 1 + 2), .int (b.i * 3 + 1 + 3)]],
      warnings := b.warnings }

/-- The loop of `putContactNamesBatch` over the contacts. -/
def contactBatch (IsEmpty : JID → Bool) (dialect jid : String) (contacts : List ContactEntry) :
    ContactBatch :=
  contacts.foldl (contactBatchStep IsEmpty (contactPlaceholderSyntax dialect))
    { i := 0, handledContacts := [], values := [.text jid], queryParts := [], warnings := [] }

/-- The statement `SQLStore.putContactNamesBatch` passes to `Exec`. -/
def putContactNamesBatch (IsEmpty : JID → Bool) (dialect jid : String)
    (contacts : List ContactEntry) : Stmt :=
  { query := Sprintf putManyContactNamesQuery
      [.str (Join (contactBatch IsEmpty dialect jid contacts).queryParts ",")],
    args := (contactBatch IsEmpty dialect jid contacts).values }

/-- The constant `contactBatchSize`. -/
def contactBatchSize : Nat := 300

/-- `SQLStore.PutAllContactNames` on the database `db` and the contact cache
`cache`: the database and the cache after the call, the error returned and the
calls of the backend.  The cache is emptied when the call succeeds on a
non-empty list. -/
def PutAllContactNames {σ : Type} (B : Backend σ) (IsEmpty : JID → Bool)
    (dialect jid : String) (db : σ) (cache : List (JID × ContactInfo))
    (contacts : List ContactEntry) :
    σ × List (JID × ContactInfo) × Option Error × List Call :=
  if contacts.length > contactBatchSize then
    match B.beginErr db with
    | some err => (db, cache, some (.wrapped "failed to start transaction" err), [.begin])
    | none =>
      match execBatches B (putContactNamesBatch IsEmpty dialect jid) contactBatchSize
          contacts contacts.length 0 db with
      | (.error err, log) => (db, cache, some err, .begin :: log ++ [.rollback])
      | (.ok tx, log) =>
        match B.commitErr tx with
        | some err => (db, cache, some (.wrapped "failed to commit transaction" err),
            .begin :: log ++ [.commit])
        | none => (tx, [], none, .begin :: log ++ [.commit])
  else if contacts.length > 0 then
    match B.exec db (putContactNamesBatch IsEmpty dialect jid contacts) with
    | .error err =>
      (db, cache, some err, [.exec (putContactNamesBatch IsEmpty dialect jid contacts)])
    | .ok db1 =>
      (db1, [], none, [.exec (putContactNamesBatch IsEmpty dialect jid contacts)])
  else (db, cache, none, [])

/-! ## Message secrets: the transaction of `PutMessageSecrets` -/

/-- The type `store.MessageSecretInsert`. -/
structure MessageSecretInsert where
  Chat : JID
  Sender : JID
  ID : String
  Secret : Bytes
  deriving DecidableEq, Repr

/-- The constant `putMsgSecret`. -/
def putMsgSecret : String :=
  "INSERT IGNORE INTO whatsmeow_message_secrets (our_jid, chat_jid, sender_jid, message_id, key)\n\tVALUES (?, ?, ?, ?, ?)"

/-- The statement of one insert of `PutMessageSecrets`. -/
def putMsgSecretStmt (ToNonAD : JID → JID) (jid : String) (insert : MessageSecretInsert) :
    Stmt :=
  { query := putMsgSecret,
    args := [.text jid, .text (ToNonAD insert.Chat), .text (ToNonAD insert.Sender),
      .text insert.ID, .blob insert.Secret] }

/-- The loop of `PutMessageSecrets`: `_, err = tx.Exec(...)` for every insert,
the error of an insert being overwritten by the next assignment to `err`; a
statement that fails leaves the transaction as it was. -/
def putMessageSecretsLoop {σ : Type} (B : Backend σ) (ToNonAD : JID → JID) (jid : String) :
    List MessageSecretInsert → σ → σ × List Call
  | [], tx => (tx, [])
  | insert :: rest, tx =>
    match B.exec tx (putMsgSecretStmt ToNonAD jid insert) with
    | .error _ =>
      match putMessageSecretsLoop B ToNonAD jid rest tx with
      | (tx2, log) => (tx2, .exec (putMsgSecretStmt ToNonAD jid insert) :: log)
    | .ok tx1 =>
      match putMessageSecretsLoop B ToNonAD jid rest tx1 with
      | (tx2, log) => (tx2, .exec (putMsgSecretStmt ToNonAD jid insert) :: log)

/-- `SQLStore.PutMessageSecrets`. -/
def PutMessageSecrets {σ : Type} (B : Backend σ) (ToNonAD : JID → JID) (jid : String) (db : σ)
    (inserts : List MessageSecretInsert) : σ × Option Error × List Call :=
  match B.beginErr db with
  | some err => (db, some (.wrapped "failed to begin transaction" err), [.begin])
  | none =>
    match putMessageSecretsLoop B ToNonAD jid inserts db with
    | (tx, log) =>
      match B.commitErr tx with
      | some err =>
        (db, some (.wrapped "failed to commit transaction" err), .begin :: log ++ [.commit])
      | none => (tx, none, .begin :: log ++ [.commit])

/-! ## Batches: the slices and their statements -/

/-- The slices the batch loop visits from index `i` on, with at most `fuel`
iterations. -/
def batchSlicesFrom {α : Type} (size : Nat) (items : List α) : Nat → Nat → List (List α)
  | 0, _ => []
  | fuel + 1, i =>
    if i < items.length then batchSlice size i items :: batchSlicesFrom size items fuel (i + size)
    else []

/-- The slices `items[0:size]`, `items[size:2*size]`, ... of the batch loop. -/
def batchSlices {α : Type} (size : Nat) (items : List α) : List (List α) :=
  batchSlicesFrom size items items.length 0

/-- Statements executed one after the other on `db`; the first error ends the
run.  The result and the `Exec` calls made. -/
def execAll {σ : Type} (B : Backend σ) : List Stmt → σ → Except Error σ × List Call
  | [], db => (.ok db, [])
  | st :: rest, db =>
    match B.exec db st with
    | .error err => (.error err, [.exec st])
    | .ok db1 =>
      match execAll B rest db1 with
      | (r, log) => (r, .exec st :: log)

/-- The statements of the `Exec` calls of a log. -/
def execStmts : List Call → List Stmt
  | [] => []
  | .exec st :: rest => st :: execStmts rest
  | _ :: rest => execStmts rest

/-- `PutAppStateMutationMACs(name, version, ·)` called on the lists `chunks`
one after the other, as long as the calls succeed: the database after the last
call made and its error. -/
def putMutationMACsSeparately {σ : Type} (B : Backend σ) (dialect jid name : String)
    (version : Nat) : List (List AppStateMutationMAC) → σ → σ × Option Error
  | [], db => (db, none)
  | chunk :: rest, db =>
    match PutAppStateMutationMACs B dialect jid db name version chunk with
    | (db1, none, _) => putMutationMACsSeparately B dialect jid name version rest db1
    | (db1, some err, _) => (db1, some err)

/-- A backend whose database is the list of the statements applied: a
statement that `rejects` selects fails (say by a lock wait timeout), every
other statement is applied; `Begin` and `Commit` succeed. -/
def recordingBackend (rejects : Stmt → Bool) : Backend (List Stmt) :=
  { exec := fun db st =>
      if rejects st then .error (.backend "Lock wait timeout exceeded") else .ok (db ++ [st]),
    beginErr := fun _ => none,
    commitErr := fun _ => none }

/-! ## Lookups -/

/-- The statement `hasSessionQuery`:
`SELECT true ... WHERE our_jid=? AND their_id=?`. -/
def hasSessionQuery (jid address : String) (t : List SessionRow) : ScanResult Bool :=
  match queryRow (fun r => r.our_jid == jid && r.their_id == address) t with
  | .row _ => .row true
  | .noRows => .noRows
  | .failed e => .failed e

/-- `SQLStore.HasSession`: the named results `has`, `err`; `sql.ErrNoRows`
leaves `has` false and gives a nil error. -/
def HasSession (s : SQLStore) (address : String) : Bool × Option Error :=
  match hasSessionQuery s.JID address s.sessions with
  | .row has => (has, none)
  | .noRows => (false, none)
  | .failed e => (false, some e)

/-- `ORDER BY c DESC LIMIT 1`: a row with the largest `c`, the first stored
among the rows that have it; no row for an empty selection. -/
def firstByDesc {ρ : Type} (c : ρ → Int) : List ρ → Option ρ
  | [] => none
  | r :: rest =>
    match firstByDesc c rest with
    | none => some r
    | some b => if c r < c b then some b else some r

/-- The statement `getLatestAppStateSyncKeyIDQuery`:
`SELECT key_id ... WHERE jid=? ORDER BY timestamp DESC LIMIT 1`. -/
def getLatestAppStateSyncKeyIDQuery (jid : String) (t : List SyncKeyRow) : ScanResult Bytes :=
  match firstByDesc (fun r => r.timestamp) (t.filter (fun r => r.jid == jid)) with
  | some r => .row r.key_id
  | none => .noRows

/-- `SQLStore.GetLatestAppStateSyncKeyID`. -/
def GetLatestAppStateSyncKeyID (s : SQLStore) : Option Bytes × Option Error :=
  match getLatestAppStateSyncKeyIDQuery s.JID s.appStateSyncKeys with
  | .noRows => (none, none)
  | .row keyID => (some keyID, none)
  | .failed e => (none, some e)

/-- The statement `getAppStateMutationMACQuery`: `SELECT value_mac ...
WHERE jid=? AND name=? AND index_mac=? ORDER BY version DESC LIMIT 1`. -/
def getAppStateMutationMACQuery (jid name : String) (indexMAC : Bytes)
    (t : List MutationMACRow) : ScanResult Bytes :=
  match firstByDesc (fun r => (r.version : Int))
      (t.filter (fun r => r.jid == jid && r.name == name && r.index_mac == indexMAC)) with
  | some r => .row r.value_mac
  | none => .noRows

/-- `SQLStore.GetAppStateMutationMAC`. -/
def GetAppStateMutationMAC (s : SQLStore) (name : String) (indexMAC : Bytes) :
    Option Bytes × Option Error :=
  scanBytesOrNil (getAppStateMutationMACQuery s.JID name indexMAC s.appStateMutationMACs)

/-- The statement `getMsgSecret`: `SELECT key ...
WHERE our_jid=? AND chat_jid=? AND sender_jid=? AND message_id=?`. -/
def getMsgSecret (jid : String) (chat sender : JID) (id : String)
    (t : List MessageSecretRow) : ScanResult Bytes :=
  match queryRow (fun r => r.our_jid == jid && r.chat_jid == chat && r.sender_jid == sender &&
      r.message_id == id) t with
  | .row r => .row r.key
  | .noRows => .noRows
  | .failed e => .failed e

/-- `SQLStore.GetMessageSecret`. -/
def GetMessageSecret (s : SQLStore) (ToNonAD : JID → JID) (chat sender : JID) (id : String) :
    Option Bytes × Option Error :=
  scanBytesOrNil (getMsgSecret s.JID (ToNonAD chat) (ToNonAD sender) id s.messageSecrets)

/-- The type `store.PrivacyToken`; the timestamp in Unix seconds. -/
structure PrivacyToken where
  User : JID
  Token : Bytes
  Timestamp : Int
  deriving DecidableEq, Repr

/-- The statement `getPrivacyToken`:
`SELECT token, timestamp ... WHERE our_jid=? AND their_jid=?`. -/
def getPrivacyToken (jid : String) (user : JID) (t : List PrivacyTokenRow) :
    ScanResult (Bytes × Int) :=
  match queryRow (fun r => r.our_jid == jid && r.their_jid == user) t with
  | .row r => .row (r.token, r.timestamp)
  | .noRows => .noRows
  | .failed e => .failed e

/-- `SQLStore.GetPrivacyToken`. -/
def GetPrivacyToken (s : SQLStore) (ToNonAD : JID → JID) (user : JID) :
    Option PrivacyToken × Option Error :=
  match getPrivacyToken s.JID (ToNonAD user) s.privacyTokens with
  | .noRows => (none, none)
  | .failed e => (none, some e)
  | .row (token, ts) => (some { User := ToNonAD user, Token := token, Timestamp := ts }, none)

/-! ## Contacts: the cache and the single-name methods -/

/-- A call of the backing store made by a contact method. -/
inductive ContactCall where
  | query (user : JID)
  | queryAll
  | putPushName (user : JID) (pushName : String)
  | putBusinessName (user : JID) (businessName : String)
  | putContactName (user : JID) (firstName fullName : String)
  deriving DecidableEq, Repr

/-- Whether a call is an `Exec`, that is a write. -/
def ContactCall.isWrite : ContactCall → Bool
  | .query _ => false
  | .queryAll => false
  | _ => true

/-- The map assignment `cache[user] = info`. -/
def cacheInsert (user : JID) (info : ContactInfo) (cache : List (JID × ContactInfo)) :
    List (JID × ContactInfo) :=
  (user, info) :: cache.filter (fun e => e.1 != user)

/-- The field `String` of a `sql.NullString`: empty for `NULL`. -/
def nullString : Option String → String
  | some str => str
  | none => ""

/-- The statement `getContactQuery`: `SELECT first_name, full_name, push_name,
business_name ... WHERE our_jid=? AND their_jid=?`. -/
def getContactQuery (jid : String) (user : JID) (t : List ContactRow) : ScanResult ContactRow :=
  queryRow (fun r => r.our_jid == jid && r.their_jid == user) t

/-- The `ContactInfo` that `getContact` builds after the `Scan`: `Found` is
`err == nil`, and the names are those scanned, empty when no row was. -/
def contactInfoOfScan : ScanResult ContactRow → ContactInfo
  | .row r =>
    { Found := true, FirstName := nullString r.first_name, FullName := nullString r.full_name,
      PushName := nullString r.push_name, BusinessName := nullString r.business_name }
  | _ => { Found := false, FirstName := "", FullName := "", PushName := "", BusinessName := "" }

/-- `SQLStore.getContact`: the cached record when there is one; otherwise the
record read from the table, which is put into the cache.  `qerr` is the error
of the query. -/
def getContact (s : SQLStore) (qerr : Option Error) (user : JID) :
    SQLStore × Except Error ContactInfo × List ContactCall :=
  match s.contactCache.lookup user with
  | some cached => (s, .ok cached, [])
  | none =>
    match qerr with
    | some err => (s, .error err, [.query user])
    | none =>
      let info := contactInfoOfScan (getContactQuery s.JID user s.contacts)
      ({ s with contactCache := cacheInsert user info s.contactCache }, .ok info, [.query user])

/-- `SQLStore.GetContact`. -/
def GetContact (s : SQLStore) (qerr : Option Error) (user : JID) :
    SQLStore × ContactInfo × Option Error × List ContactCall :=
  match getContact s qerr user with
  | (s1, .error err, log) =>
    (s1, { Found := false, FirstName := "", FullName := "", PushName := "", BusinessName := "" },
      some err, log)
  | (s1, .ok info, log) => (s1, info, none, log)

/-- The statement `putPushNameQuery`: on a duplicate key,
`push_name = VALUES(push_name)`. -/
def putPushNameQuery (new : ContactRow) (t : List ContactRow) : List ContactRow :=
  upsertRow contactsPK (fun r v => { r with push_name := v.push_name }) new t

/-- The statement `putBusinessNameQuery`: on a duplicate key,
`business_name = VALUES(business_name)`. -/
def putBusinessNameQuery (new : ContactRow) (t : List ContactRow) : List ContactRow :=
  upsertRow contactsPK (fun r v => { r with business_name := v.business_name }) new t

/-- The statement `putContactNameQuery`: on a duplicate key,
`first_name = VALUES(first_name), full_name = VALUES(full_name)`. -/
def putContactNameQuery (new : ContactRow) (t : List ContactRow) : List ContactRow :=
  upsertRow contactsPK
    (fun r v =>
      let r1 := { r with first_name := v.first_name }
      { r1 with full_name := v.full_name })
    new t

/-- The row bound to `putPushNameQuery` by `PutPushName`:
`s.JID, user, pushName`; the other columns are `NULL`. -/
def pushNameRow (jid : String) (user : JID) (pushName : String) : ContactRow :=
  { our_jid := jid, their_jid := user, first_name := none, full_name := none,
    push_name := some pushName, business_name := none }

/-- The row bound to `putBusinessNameQuery` by `PutBusinessName`. -/
def businessNameRow (jid : String) (user : JID) (businessName : String) : ContactRow :=
  { our_jid := jid, their_jid := user, first_name := none, full_name := none,
    push_name := none, business_name := some businessName }

/-- The row bound to `putContactNameQuery` by `PutContactName`. -/
def contactNameRow (jid : String) (user : JID) (firstName fullName : String) : ContactRow :=
  { our_jid := jid, their_jid := user, first_name := some firstName,
    full_name := some fullName, push_name := none, business_name := none }

/-- `SQLStore.PutPushName`: the store after the call, the results
`(changed, previousName, err)` and the calls of the backing store.  `qerr` is
the error of the query of `getContact`, `xerr` the error of the `Exec`. -/
def PutPushName (s : SQLStore) (qerr xerr : Option Error) (user : JID) (pushName : String) :
    SQLStore × Bool × String × Option Error × List ContactCall :=
  match getContact s qerr user with
  | (s1, .error err, log) => (s1, false, "", some err, log)
  | (s1, .ok cached, log) =>
    if cached.PushName ≠ pushName then
      match xerr with
      | some err => (s1, false, "", some err, log ++ [.putPushName user pushName])
      | none =>
        let info := { cached with PushName := pushName, Found := true }
        ({ s1 with contacts := putPushNameQuery (pushNameRow s.JID user pushName) s1.contacts,
                   contactCache := cacheInsert user info s1.contactCache },
          true, cached.PushName, none, log ++ [.putPushName user pushName])
    else (s1, false, "", none, log)

/-- `SQLStore.PutBusinessName`. -/
def PutBusinessName (s : SQLStore) (qerr xerr : Option Error) (user : JID)
    (businessName : String) : SQLStore × Bool × String × Option Error × List ContactCall :=
  match getContact s qerr user with
  | (s1, .error err, log) => (s1, false, "", some err, log)
  | (s1, .ok cached, log) =>
    if cached.BusinessName ≠ businessName then
      match xerr with
      | some err => (s1, false, "", some err, log ++ [.putBusinessName user businessName])
      | none =>
        let info := { cached with BusinessName := businessName, Found := true }
        ({ s1 with contacts :=
                     putBusinessNameQuery (businessNameRow s.JID user businessName) s1.contacts,
                   contactCache := cacheInsert user info s1.contactCache },
          true, cached.BusinessName, none, log ++ [.putBusinessName user businessName])
    else (s1, false, "", none, log)

/-- `SQLStore.PutContactName`. -/
def PutContactName (s : SQLStore) (qerr xerr : Option Error) (user : JID)
    (firstName fullName : String) : SQLStore × Option Error × List ContactCall :=
  match getContact s qerr user with
  | (s1, .error err, log) => (s1, some err, log)
  | (s1, .ok cached, log) =>
    if cached.FirstName ≠ firstName ∨ cached.FullName ≠ fullName then
      match xerr with
      | some err => (s1, some err, log ++ [.putContactName user firstName fullName])
      | none =>
        let info := { cached with FirstName := firstName, FullName := fullName, Found := true }
        ({ s1 with contacts :=
                     putContactNameQuery (contactNameRow s.JID user firstName fullName)
                       s1.contacts,
                   contactCache := cacheInsert user info s1.contactCache },
          none, log ++ [.putContactName user firstName fullName])
    else (s1, none, log)

/-- The loop `for rows.Next()` of `GetAllContacts` over the rows of the
device: every row is put into the output map and into the cache with
`Found = true`. -/
def getAllContactsLoop : List ContactRow → List (JID × ContactInfo) × List (JID × ContactInfo) →
    List (JID × ContactInfo) × List (JID × ContactInfo)
  | [], acc => acc
  | r :: rest, (output, cache) =>
    getAllContactsLoop rest
      (cacheInsert r.their_jid (contactInfoOfScan (.row r)) output,
        cacheInsert r.their_jid (contactInfoOfScan (.row r)) cache)

/-- `SQLStore.GetAllContacts`: `getAllContactsQuery` selects the rows with
`our_jid=?`. -/
def GetAllContacts (s : SQLStore) (qerr : Option Error) :
    SQLStore × Option (List (JID × ContactInfo)) × Option Error × List ContactCall :=
  match qerr with
  | some err => (s, none, some err, [.queryAll])
  | none =>
    match getAllContactsLoop (s.contacts.filter (fun r => r.our_jid == s.JID))
        ([], s.contactCache) with
    | (output, cache) => ({ s with contactCache := cache }, some output, none, [.queryAll])

/-- The record the backing store holds for `(device, user)`: the one a query
for `user` yields, `Found = false` with empty names when no row exists. -/
def storedContact (s : SQLStore) (user : JID) : ContactInfo :=
  contactInfoOfScan (getContactQuery s.JID user s.contacts)

/-- The record `getContact` yields for `user`: the cached one, else the
stored one. -/
def contactBefore (s : SQLStore) (user : JID) : ContactInfo :=
  match s.contactCache.lookup user with
  | some cached => cached
  | none => storedContact s user

/-- Cache coherence: every record in the contact cache equals the record the
backing store holds for its JID. -/
def cacheCoherent (s : SQLStore) : Bool :=
  s.contactCache.all (fun e => decide (e.2 = storedContact s e.1))

/-! ## The schema: the tables of the upgrade steps (`upgrade.go`) -/

/-- A clause `FOREIGN KEY (columns) REFERENCES refTable(refColumns)` with its
`ON DELETE CASCADE` and `ON UPDATE CASCADE` options. -/
structure ForeignKey where
  columns : List String
  refTable : String
  refColumns : List String
  onDeleteCascade : Bool
  onUpdateCascade : Bool
  deriving DecidableEq, Repr

/-- A `CREATE TABLE` statement: the name of the table, its columns in order,
the columns of its `PRIMARY KEY` and its `FOREIGN KEY` clauses.  Column types,
defaults and `CHECK` constraints are not represented. -/
structure TableDecl where
  name : String
  columns : List String
  primaryKey : List String
  foreignKeys : List ForeignKey
  deriving DecidableEq, Repr

/-- The clause `FOREIGN KEY (column) REFERENCES whatsmeow_device(jid)
ON DELETE CASCADE ON UPDATE CASCADE`. -/
def deviceForeignKey (column : String) : ForeignKey :=
  { columns := [column], refTable := "whatsmeow_device", refColumns := ["jid"],
    onDeleteCascade := true, onUpdateCascade := true }

/-- The table `whatsmeow_device` of `upgradeV1`: `jid VARCHAR(255) PRIMARY KEY`. -/
def deviceTable : TableDecl :=
  { name := "whatsmeow_device",
    columns := ["jid", "registration_id", "noise_key", "identity_key", "signed_pre_key",
      "signed_pre_key_id", "signed_pre_key_sig", "adv_key", "adv_details", "adv_account_sig",
      "adv_device_sig", "platform", "business_name", "push_name"],
    primaryKey := ["jid"],
    foreignKeys := [] }

/-- The table `whatsmeow_identity_keys` of `upgradeV1`: `PRIMARY KEY (our_jid)`. -/
def identityKeysTable : TableDecl :=
  { name := "whatsmeow_identity_keys",
    columns := ["our_jid", "their_id", "identity"],
    primaryKey := ["our_jid"],
    foreignKeys := [deviceForeignKey "our_jid"] }

/-- The table `whatsmeow_pre_keys` of `upgradeV1`: `PRIMARY KEY (jid)`. -/
def preKeysTable : TableDecl :=
  { name := "whatsmeow_pre_keys",
    columns := ["jid", "key_id", "key", "uploaded"],
    primaryKey := ["jid"],
    foreignKeys := [deviceForeignKey "jid"] }

/-- The table `whatsmeow_sessions` of `upgradeV1`:
`PRIMARY KEY (our_jid, their_id)`. -/
def sessionsTable : TableDecl :=
  { name := "whatsmeow_sessions",
    columns := ["our_jid", "their_id", "session"],
    primaryKey := ["our_jid", "their_id"],
    foreignKeys := [deviceForeignKey "our_jid"] }

/-- The table `whatsmeow_sender_keys` of `upgradeV1`:
`PRIMARY KEY (our_jid, sender_id)`. -/
def senderKeysTable : TableDecl :=
  { name := "whatsmeow_sender_keys",
    columns := ["our_jid", "chat_id", "sender_id", "sender_key"],
    primaryKey := ["our_jid", "sender_id"],
    foreignKeys := [deviceForeignKey "our_jid"] }

/-- The table `whatsmeow_app_state_sync_keys` of `upgradeV1`:
`PRIMARY KEY (jid)`. -/
def appStateSyncKeysTable : TableDecl :=
  { name := "whatsmeow_app_state_sync_keys",
    columns := ["jid", "key_id", "key_data", "timestamp", "fingerprint"],
    primaryKey := ["jid"],
    foreignKeys := [deviceForeignKey "jid"] }

/-- The table `whatsmeow_app_state_version` of `upgradeV1`:
`PRIMARY KEY (jid, name)`. -/
def appStateVersionTable : TableDecl :=
  { name := "whatsmeow_app_state_version",
    columns := ["jid", "name", "version", "hash"],
    primaryKey := ["jid", "name"],
    foreignKeys := [deviceForeignKey "jid"] }

/-- The table `whatsmeow_app_state_mutation_macs` of `upgradeV1`:
`PRIMARY KEY (jid)` and `FOREIGN KEY (jid, name) REFERENCES
whatsmeow_app_state_version(jid, name) ON DELETE CASCADE ON UPDATE CASCADE`. -/
def appStateMutationMACsTable : TableDecl :=
  { name := "whatsmeow_app_state_mutation_macs",
    columns := ["jid", "name", "version", "index_mac", "value_mac"],
    primaryKey := ["jid"],
    foreignKeys := [{ columns := ["jid", "name"], refTable := "whatsmeow_app_state_version",
                      refColumns := ["jid", "name"], onDeleteCascade := true,
                      onUpdateCascade := true }] }

/-- The table `whatsmeow_contacts` of `upgradeV1`: `PRIMARY KEY (our_jid)`. -/
def contactsTable : TableDecl :=
  { name := "whatsmeow_contacts",
    columns := ["our_jid", "their_jid", "first_name", "full_name", "push_name", "business_name"],
    primaryKey := ["our_jid"],
    foreignKeys := [deviceForeignKey "our_jid"] }

/-- The table `whatsmeow_chat_settings` of `upgradeV1`: `PRIMARY KEY (our_jid)`. -/
def chatSettingsTable : TableDecl :=
  { name := "whatsmeow_chat_settings",
    columns := ["our_jid", "chat_jid", "muted_until", "pinned", "archived"],
    primaryKey := ["our_jid"],
    foreignKeys := [deviceForeignKey "our_jid"] }

/-- The table `whatsmeow_message_secrets` of `upgradeV3`:
`PRIMARY KEY (our_jid)`. -/
def messageSecretsTable : TableDecl :=
  { name := "whatsmeow_message_secrets",
    columns := ["our_jid", "chat_jid", "sender_jid", "message_id", "key"],
    primaryKey := ["our_jid"],
    foreignKeys := [deviceForeignKey "our_jid"] }

/-- The table `whatsmeow_privacy_tokens` of `upgradeV4`: `PRIMARY KEY (our_jid)`
and no `FOREIGN KEY` clause. -/
def privacyTokensTable : TableDecl :=
  { name := "whatsmeow_privacy_tokens",
    columns := ["our_jid", "their_jid", "token", "timestamp"],
    primaryKey := ["our_jid"],
    foreignKeys := [] }

/-! ## The migrator (`upgrade.go`) -/

/-- A statement the migrator executes. -/
inductive SchemaStmt where
  /-- The statement `CREATE TABLE IF NOT EXISTS whatsmeow_version (version INTEGER)`. -/
  | createVersionTable
  /-- The statement `DELETE FROM whatsmeow_version`. -/
  | deleteVersion
  /-- The statement `INSERT INTO whatsmeow_version (version) VALUES (?)`. -/
  | insertVersion (version : Nat)
  /-- A `CREATE TABLE` statement. -/
  | createTable (decl : TableDecl)
  /-- The statement `ALTER TABLE table ADD COLUMN column ...`. -/
  | addColumn (table column : String)
  /-- The statements `fillSigKeyPostgres`. -/
  | fillSigKeyPostgres
  /-- The statement `fillSigKeySQLite`. -/
  | fillSigKeySQLite
  /-- The statement `UPDATE whatsmeow_device SET jid=REPLACE(jid, '.0', '')`. -/
  | replaceDeviceJID
  deriving DecidableEq, Repr

/-- A call the migrator makes: of the database, or of its logger (`info v` is
`c.log.Infof("Upgrading database to v%d", v)`). -/
inductive SchemaCall where
  | pragmaForeignKeys
  | exec (st : SchemaStmt)
  | queryVersion
  | begin
  | info (version : Nat)
  | commit
  | rollback
  deriving DecidableEq, Repr

/-- The database the migrator works on: the schema and data that the
statements of the upgrade functions act on, of any type `σ`, and the rows of
`whatsmeow_version`, `none` as long as that table does not exist. -/
structure Database (σ : Type) where
  schema : σ
  version : Option (List Nat)
  deriving DecidableEq, Repr

/-- The backend of the migrator: `exec` is the effect of a statement of an
upgrade function, which fails or gives the next schema; `versionFault` is the
error with which a statement on `whatsmeow_version` fails for a reason of the
backend (`none`: the statement is executed); `foreignKeys` is the outcome of
`QueryRow("PRAGMA foreign_keys").Scan(...)`, a setting of the connection;
`beginErr` and `commitErr` are the errors of `Begin` and of `Commit`. -/
structure SchemaBackend (σ : Type) where
  exec : σ → SchemaStmt → Except Error σ
  versionFault : Database σ → SchemaStmt → Option Error
  foreignKeys : ScanResult Bool
  beginErr : Database σ → Option Error
  commitErr : Database σ → Option Error

/-- One `Exec` of the migrator.  The statements on `whatsmeow_version` act on
its rows: `CREATE TABLE IF NOT EXISTS` creates the empty table unless it
exists, `DELETE` empties it, `INSERT` appends a row, the last two failing when
the table does not exist.  Every other statement acts on the schema through
the backend. -/
def execStmt {σ : Type} (B : SchemaBackend σ) (db : Database σ) :
    SchemaStmt → Except Error (Database σ)
  | .createVersionTable =>
    match B.versionFault db .createVersionTable with
    | some err => .error err
    | none => .ok { db with version := some (db.version.getD []) }
  | .deleteVersion =>
    match B.versionFault db .deleteVersion with
    | some err => .error err
    | none =>
      match db.version with
      | none => .error (.backend "no such table: whatsmeow_version")
      | some _ => .ok { db with version := some [] }
  | .insertVersion version =>
    match B.versionFault db (.insertVersion version) with
    | some err => .error err
    | none =>
      match db.version with
      | none => .error (.backend "no such table: whatsmeow_version")
      | some rows => .ok { db with version := some (rows ++ [version]) }
  | st =>
    match B.exec db.schema st with
    | .error err => .error err
    | .ok schema => .ok { db with schema := schema }

/-- Statements executed one after the other, each followed by
`if err != nil { return err }`: the body of an upgrade function and of
`setVersion`.  The result and the `Exec` calls made. -/
def execSchemaAll {σ : Type} (B : SchemaBackend σ) :
    List SchemaStmt → Database σ → Except Error (Database σ) × List SchemaCall
  | [], db => (.ok db, [])
  | st :: rest, db =>
    match execStmt B db st with
    | .error err => (.error err, [.exec st])
    | .ok db1 =>
      match execSchemaAll B rest db1 with
      | (r, log) => (r, .exec st :: log)

/-- The statements of `upgradeV1`, in order. -/
def upgradeV1 : List SchemaStmt :=
  [.createTable deviceTable, .createTable identityKeysTable, .createTable preKeysTable,
    .createTable sessionsTable, .createTable senderKeysTable,
    .createTable appStateSyncKeysTable, .createTable appStateVersionTable,
    .createTable appStateMutationMACsTable, .createTable contactsTable,
    .createTable chatSettingsTable]

/-- The statements of `upgradeV2`: the new column, then the fill statement of
the dialect of the container. -/
def upgradeV2 (dialect : String) : List SchemaStmt :=
  [.addColumn "whatsmeow_device" "adv_account_sig_key",
    if dialect = "postgres" ∨ dialect = "pgx" then .fillSigKeyPostgres else .fillSigKeySQLite]

/-- The statement of `upgradeV3`. -/
def upgradeV3 : List SchemaStmt :=
  [.createTable messageSecretsTable]

/-- The statement of `upgradeV4`. -/
def upgradeV4 : List SchemaStmt :=
  [.createTable privacyTokensTable]

/-- The statement of `upgradeV5`. -/
def upgradeV5 : List SchemaStmt :=
  [.replaceDeviceJID]

/-- The statement of `upgradeV6`. -/
def upgradeV6 : List SchemaStmt :=
  [.addColumn "whatsmeow_device" "facebook_uuid"]

/-- The array `Upgrades`, every upgrade function given by the statements it
executes on a container of the dialect `dialect`. -/
def Upgrades (dialect : String) : List (List SchemaStmt) :=
  [upgradeV1, upgradeV2 dialect, upgradeV3, upgradeV4, upgradeV5, upgradeV6]

/-- The version `SELECT version FROM whatsmeow_version LIMIT 1` scans into
`version := 0`: the first row, and `0` when there is none (the error of the
`Scan` is dropped). -/
def scanVersion {σ : Type} (db : Database σ) : Nat :=
  match db.version with
  | some (version :: _) => version
  | _ => 0

/-- `Container.getVersion`: the database after the call, the results
`(version, err)` and the calls made. -/
def getVersion {σ : Type} (B : SchemaBackend σ) (db : Database σ) :
    Database σ × Int × Option Error × List SchemaCall :=
  match execStmt B db .createVersionTable with
  | .error err => (db, -1, some err, [.exec .createVersionTable])
  | .ok db1 => (db1, (scanVersion db1 : Nat), none, [.exec .createVersionTable, .queryVersion])

/-- `Container.setVersion` on the transaction `tx`. -/
def setVersion {σ : Type} (B : SchemaBackend σ) (tx : Database σ) (version : Nat) :
    Except Error (Database σ) × List SchemaCall :=
  execSchemaAll B [.deleteVersion, .insertVersion version] tx

/-- The loop `for ; version < len(Upgrades); version++` of `Upgrade`, over the
upgrade functions `Upgrades[version:]` that it visits.  A transaction works on
a copy `tx` of the database, which `Commit` installs; when the loop returns an
error the database is the one of the last `Commit`. -/
def upgradeSteps {σ : Type} (B : SchemaBackend σ) :
    List (List SchemaStmt) → Nat → Database σ → Database σ × Option Error × List SchemaCall
  | [], _, db => (db, none, [])
  | migrateFunc :: rest, version, db =>
    match B.beginErr db with
    | some err => (db, some err, [.begin])
    | none =>
      match execSchemaAll B migrateFunc db with
      | (.error err, log) => (db, some err, .begin :: .info (version + 1) :: log ++ [.rollback])
      | (.ok tx1, log) =>
        match setVersion B tx1 (version + 1) with
        | (.error err, log2) => (db, some err, .begin :: .info (version + 1) :: log ++ log2)
        | (.ok tx2, log2) =>
          match B.commitErr tx2 with
          | some err =>
            (db, some err, .begin :: .info (version + 1) :: log ++ log2 ++ [.commit])
          | none =>
            match upgradeSteps B rest (version + 1) tx2 with
            | (db1, err, log3) =>
              (db1, err, .begin :: .info (version + 1) :: log ++ log2 ++ [.commit] ++ log3)

/-- The error `fmt.Errorf("foreign keys are not enabled")`, by its message. -/
def errForeignKeysNotEnabled : Error :=
  .backend "foreign keys are not enabled"

/-- The error `sql.ErrNoRows`, by its message. -/
def errNoRows : Error :=
  .backend "sql: no rows in result set"

/-- The check at the head of `Upgrade`, made for the dialect `sqlite` only:
the error it returns, `none` when `Upgrade` goes on, and the calls made. -/
def foreignKeysCheck {σ : Type} (B : SchemaBackend σ) (dialect : String) :
    Option Error × List SchemaCall :=
  if dialect = "sqlite" then
    match B.foreignKeys with
    | .failed err =>
      (some (.wrapped "failed to check if foreign keys are enabled" err), [.pragmaForeignKeys])
    | .noRows =>
      (some (.wrapped "failed to check if foreign keys are enabled" errNoRows),
        [.pragmaForeignKeys])
    | .row false => (some errForeignKeysNotEnabled, [.pragmaForeignKeys])
    | .row true => (none, [.pragmaForeignKeys])
  else (none, [])

/-- `Container.Upgrade` for a container of the dialect `dialect`: the database
after the call, the error returned and the calls made. -/
def Upgrade {σ : Type} (B : SchemaBackend σ) (dialect : String) (db : Database σ) :
    Database σ × Option Error × List SchemaCall :=
  match foreignKeysCheck B dialect with
  | (some err, log) => (db, some err, log)
  | (none, log) =>
    match getVersion B db with
    | (db1, _, some err, log1) => (db1, some err, log ++ log1)
    | (db1, version, none, log1) =>
      match upgradeSteps B ((Upgrades dialect).drop version.toNat) version.toNat db1 with
      | (db2, err, log2) => (db2, err, log ++ log1 ++ log2)

/-- The versions of the `info` calls of a log: the upgrade functions that were
started, by the version they lead to. -/
def infoVersions : List SchemaCall → List Nat
  | [] => []
  | .info version :: rest => version :: infoVersions rest
  | _ :: rest => infoVersions rest

/-- The calls of one transition that succeeds: `Begin`, the log line, the
statements of the upgrade function, the two statements of `setVersion`, and
`Commit`. -/
def transitionCalls (migrateFunc : List SchemaStmt) (version : Nat) : List SchemaCall :=
  .begin :: .info (version + 1) :: migrateFunc.map SchemaCall.exec ++
    [.exec .deleteVersion, .exec (.insertVersion (version + 1)), .commit]

/-- The calls of the successful transitions for the upgrade functions `fs`,
from the version `version` on. -/
def upgradeCalls : List (List SchemaStmt) → Nat → List SchemaCall
  | [], _ => []
  | migrateFunc :: rest, version =>
    transitionCalls migrateFunc version ++ upgradeCalls rest (version + 1)

/-! ## The declared keys -/

/-- The tables that the `CREATE TABLE` statements of a list create. -/
def createdTables : List SchemaStmt → List TableDecl
  | [] => []
  | .createTable decl :: rest => decl :: createdTables rest
  | _ :: rest => createdTables rest

/-- The tables the upgrade functions create, in the order of their creation. -/
def schemaTables (dialect : String) : List TableDecl :=
  createdTables (Upgrades dialect).flatten

/-- The child tables: the tables created other than the root `whatsmeow_device`. -/
def childTables (dialect : String) : List TableDecl :=
  (schemaTables dialect).filter (fun t => t.name != "whatsmeow_device")

/-- Modelled from the spec: the columns that identify a record in the data
model, the owning-device column first, for every device-scoped table. -/
def dataModelKey : String → List String
  | "whatsmeow_identity_keys" => ["our_jid", "their_id"]
  | "whatsmeow_sessions" => ["our_jid", "their_id"]
  | "whatsmeow_pre_keys" => ["jid", "key_id"]
  | "whatsmeow_sender_keys" => ["our_jid", "chat_id", "sender_id"]
  | "whatsmeow_app_state_sync_keys" => ["jid", "key_id"]
  | "whatsmeow_app_state_version" => ["jid", "name"]
  | "whatsmeow_app_state_mutation_macs" => ["jid", "name", "index_mac"]
  | "whatsmeow_contacts" => ["our_jid", "their_jid"]
  | "whatsmeow_chat_settings" => ["our_jid", "chat_jid"]
  | "whatsmeow_message_secrets" => ["our_jid", "chat_jid", "sender_jid", "message_id"]
  | "whatsmeow_privacy_tokens" => ["our_jid", "their_jid"]
  | _ => []

/-- Whether the declared primary key of a table contains every column of its
key in the data model. -/
def keyCoversDataModel (t : TableDecl) : Bool :=
  (dataModelKey t.name).all (fun column => t.primaryKey.contains column)

/-- Whether deleting a row of the table `root` removes the rows of the table
`t` that depend on it: `t` has a foreign key with `ON DELETE CASCADE` that
references `root`, or a table of the schema for which this holds in turn
(chains of at most `fuel` foreign keys). -/
def cascadesFrom (schema : List TableDecl) (root : String) : Nat → TableDecl → Bool
  | 0, _ => false
  | fuel + 1, t =>
    t.foreignKeys.any (fun fk => fk.onDeleteCascade &&
      (fk.refTable == root ||
        schema.any (fun parent => parent.name == fk.refTable &&
          cascadesFrom schema root fuel parent)))

/-! ## Identity store: deletion -/

/-- The operator `LIKE` of MySQL on a pattern and a text, both as character
lists: `%` matches any sequence of characters, `_` any one character, a
backslash makes the next character of the pattern literal, and every other
character matches itself. -/
def likeMatch : List Char → List Char → Bool
  | [], text => text.isEmpty
  | c :: pattern, text =>
    if c = '%' then text.tails.any (fun rest => likeMatch pattern rest)
    else if c = '_' then
      match text with
      | [] => false
      | _ :: rest => likeMatch pattern rest
    else if c = '\\' then
      match text with
      | [] => false
      | d :: rest =>
        match pattern with
        | [] => d == '\\' && rest.isEmpty
        | e :: pattern1 => e == d && likeMatch pattern1 rest
    else
      match text with
      | [] => false
      | d :: rest => c == d && likeMatch pattern rest

/-- The statement `deleteAllIdentitiesQuery`:
`DELETE FROM whatsmeow_identity_keys WHERE our_jid=? AND their_id LIKE ?`. -/
def deleteAllIdentitiesQuery (jid pattern : String) (t : List IdentityRow) : List IdentityRow :=
  deleteWhere (fun r => r.our_jid == jid && likeMatch pattern.toList r.their_id.toList) t

/-- The statement `deleteIdentityQuery`:
`DELETE FROM whatsmeow_identity_keys WHERE our_jid=? AND their_id=?`. -/
def deleteIdentityQuery (jid address : String) (t : List IdentityRow) : List IdentityRow :=
  deleteWhere (fun r => r.our_jid == jid && r.their_id == address) t

/-- `SQLStore.DeleteAllIdentities`: the pattern is `phone + ":%"`. -/
def DeleteAllIdentities (s : SQLStore) (phone : String) : SQLStore × Option Error :=
  ({ s with identityKeys := deleteAllIdentitiesQuery s.JID (phone ++ ":%") s.identityKeys }, none)

/-- `SQLStore.DeleteIdentity`: it executes `deleteAllIdentitiesQuery`, with the
address as the pattern. -/
def DeleteIdentity (s : SQLStore) (address : String) : SQLStore × Option Error :=
  ({ s with identityKeys := deleteAllIdentitiesQuery s.JID address s.identityKeys }, none)

/-! ## Chat settings: the statement of `PutMutedUntil`, `PutPinned`, `PutArchived` -/

/-- The constant `putChatSettingQuery`. -/
def putChatSettingQuery : String :=
  "INSERT INTO whatsmeow_chat_settings (our_jid, chat_jid, column_name)\n\tVALUES (?, ?, ?)\n\tON DUPLICATE KEY UPDATE\n\t\tcolumn_name = CASE\n\t\t\tWHEN VALUES(column_name) IS NOT NULL THEN VALUES(column_name)\n\t\t\tELSE column_name\n\t\tEND"

/-- The statement `fmt.Sprintf(putChatSettingQuery, column)` with the values
bound to it. -/
def putChatSettingStmt (column jid : String) (chat : JID) (val : Value) : Stmt :=
  { query := Sprintf putChatSettingQuery [.str column],
    args := [.text jid, .text chat, val] }

/-- The value `PutMutedUntil` binds for the time `mutedUntil`, given in Unix
seconds, `none` being the zero time: `0` for the zero time. -/
def mutedUntilValue (mutedUntil : Option Int) : Value :=
  match mutedUntil with
  | none => .int 0
  | some unix => .int unix

/-- One `s.db.Exec(...)` whose error is returned: the database after the call,
the error and the call. -/
def execStatement {σ : Type} (B : Backend σ) (db : σ) (st : Stmt) : σ × Option Error × List Call :=
  match B.exec db st with
  | .error err => (db, some err, [.exec st])
  | .ok db1 => (db1, none, [.exec st])

/-- `SQLStore.PutMutedUntil`. -/
def PutMutedUntil {σ : Type} (B : Backend σ) (jid : String) (db : σ) (chat : JID)
    (mutedUntil : Option Int) : σ × Option Error × List Call :=
  execStatement B db (putChatSettingStmt "muted_until" jid chat (mutedUntilValue mutedUntil))

/-- `SQLStore.PutPinned`. -/
def PutPinned {σ : Type} (B : Backend σ) (jid : String) (db : σ) (chat : JID)
    (pinned : Bool) : σ × Option Error × List Call :=
  execStatement B db (putChatSettingStmt "pinned" jid chat (.bool pinned))

/-- `SQLStore.PutArchived`. -/
def PutArchived {σ : Type} (B : Backend σ) (jid : String) (db : σ) (chat : JID)
    (archived : Bool) : σ × Option Error × List Call :=
  execStatement B db (putChatSettingStmt "archived" jid chat (.bool archived))

/-! ## Contacts: the entries a bulk statement binds -/

/-- The entries of a chunk that the loop of `putContactNamesBatch` binds, the
JIDs in `handled` being handled already: an entry is skipped when its JID is
empty or handled. -/
def keptContacts (IsEmpty : JID → Bool) : List ContactEntry → List JID → List ContactEntry
  | [], _ => []
  | contact :: rest, handled =>
    if IsEmpty contact.JID || handled.contains contact.JID then keptContacts IsEmpty rest handled
    else contact :: keptContacts IsEmpty rest (contact.JID :: handled)

/-- The three values `putContactNamesBatch` binds for a contact. -/
def contactValues (contact : ContactEntry) : List Value :=
  [.text contact.JID, .text contact.FirstName, .text contact.FullName]

/-! ## Example values -/

/-- The 32-byte array whose bytes all are `b`. -/
def bytes32 (b : Byte) : Bytes32 :=
  ⟨List.replicate 32 b, List.length_replicate 32 b⟩

/-- The 128-byte array whose bytes all are `b`. -/
def bytes128 (b : Byte) : Bytes128 :=
  ⟨List.replicate 128 b, List.length_replicate 128 b⟩

/-- The store of the device `dev` after `PutIdentity("bob:0", 1, 1, ...)` on an
empty database: it holds the row `(dev, bob:0, 1, 1, ...)`. -/
def storeWithBobIdentity : SQLStore :=
  (PutIdentity { JID := "dev" } "bob:0" (bytes32 1)).1

/-- The store of the device `dev` after `PutSenderKey("group-1", "bob:0", [1])`
on an empty database: it holds the row `(dev, group-1, bob:0, [1])`. -/
def storeWithSenderKey : SQLStore :=
  (PutSenderKey { JID := "dev" } "group-1" "bob:0" [1]).1

/-- A store of the device `dev` whose version row of the state `regular` holds
a hash of 3 bytes (a row the `CHECK` of the column excludes). -/
def storeWithShortHash : SQLStore :=
  { JID := "dev",
    appStateVersion := [{ jid := "dev", name := "regular", version := 7, hash := [1, 2, 3] }] }

/-- The store of the device `dev` after `GetOrGenPreKeys(1)` on an empty
database, the key drawn being `5, 5, ...`: its only prekey, of id `1`, is not
yet uploaded. -/
def storeWithUnuploadedPreKey : SQLStore :=
  (GetOrGenPreKeys preKeysPK { JID := "dev" } 1 (fun _ => bytes32 5)).1

/-- A primary key on `(jid, key_id)`: a value of the parameter `pk` under which
a device can hold several prekeys. -/
def preKeysFullPK (a b : PreKeyRow) : Bool :=
  a.jid == b.jid && a.key_id == b.key_id

/-- A mutation MAC with index MAC `[1]` and value MAC `[2]`. -/
def exampleMutation : AppStateMutationMAC :=
  { IndexMAC := [1], ValueMAC := [2] }

/-- A second mutation MAC, with index MAC `[3]` and value MAC `[4]`. -/
def exampleMutation2 : AppStateMutationMAC :=
  { IndexMAC := [3], ValueMAC := [4] }

/-- The contact entry of Alice. -/
def exampleContact : ContactEntry :=
  { JID := "alice@s.whatsapp.net", FirstName := "Alice", FullName := "Alice A" }

/-- The contact entry of Bob. -/
def exampleContact2 : ContactEntry :=
  { JID := "bob@s.whatsapp.net", FirstName := "Bob", FullName := "Bob B" }

/-- `JID.IsEmpty` on the string form: the empty JID has the empty string form. -/
def jidIsEmpty (j : JID) : Bool :=
  j == ""

/-- A backend that applies every statement. -/
def acceptingBackend : Backend (List Stmt) :=
  recordingBackend (fun _ => false)

/-- A backend that fails on the statements binding exactly five values, such
as the bulk insert of a single mutation MAC. -/
def rejectFiveValues : Backend (List Stmt) :=
  recordingBackend (fun st => st.args.length == 5)

/-- A backend that fails on the statements binding exactly four values, such
as the bulk insert of a single contact. -/
def rejectFourValues : Backend (List Stmt) :=
  recordingBackend (fun st => st.args.length == 4)

/-- The secret of the message `msg-1`. -/
def exampleSecret1 : MessageSecretInsert :=
  { Chat := "chat@g.us", Sender := "bob@s.whatsapp.net", ID := "msg-1", Secret := [1] }

/-- The secret of the message `msg-2`. -/
def exampleSecret2 : MessageSecretInsert :=
  { Chat := "chat@g.us", Sender := "bob@s.whatsapp.net", ID := "msg-2", Secret := [2] }

/-- A backend that fails on the statements binding the message id `msg-1`. -/
def rejectFirstMessage : Backend (List Stmt) :=
  recordingBackend (fun st => st.args.contains (.text "msg-1"))

/-- A contact cache that holds the push name of Bob. -/
def cacheWithBob : List (JID × ContactInfo) :=
  [("bob@s.whatsapp.net",
    { Found := true, FirstName := "", FullName := "", PushName := "Bob", BusinessName := "" })]

/-- A store of the device `dev` that holds, in every table that is looked up
by key, one row of `bob:0` (of the state `regular`, of the message `msg-1`). -/
def storeWithBobRows : SQLStore :=
  { JID := "dev",
    sessions := [{ our_jid := "dev", their_id := "bob:0", session := [1] }],
    senderKeys := [{ our_jid := "dev", chat_id := "group-1", sender_id := "bob:0", sender_key := [1] }],
    preKeys := [{ jid := "dev", key_id := 1, key := List.replicate 32 5, uploaded := false }],
    appStateSyncKeys := [{ jid := "dev", key_id := [1], key_data := [2], timestamp := 10, fingerprint := [3] }],
    appStateVersion := [{ jid := "dev", name := "regular", version := 7, hash := List.replicate 128 1 }],
    appStateMutationMACs := [{ jid := "dev", name := "regular", version := 7, index_mac := [1], value_mac := [2] }],
    messageSecrets := [{ our_jid := "dev", chat_jid := "chat@g.us", sender_jid := "bob@s.whatsapp.net", message_id := "msg-1", key := [1] }],
    privacyTokens := [{ our_jid := "dev", their_jid := "bob@s.whatsapp.net", token := [1], timestamp := 10 }] }

/-- The JID of Alice. -/
def aliceJID : JID := "alice@s.whatsapp.net"

/-- The JID of Bob. -/
def bobJID : JID := "bob@s.whatsapp.net"

/-- The store of the device `dev` after `PutPushName(alice, "Alice")` on an
empty database with an empty cache. -/
def storeWithAlicePushName : SQLStore :=
  (PutPushName { JID := "dev" } none none aliceJID "Alice").1

/-- The store `storeWithAlicePushName` after `PutPushName(bob, "Bob")`. -/
def storeWithTwoPushNames : SQLStore :=
  (PutPushName storeWithAlicePushName none none bobJID "Bob").1

/-- The record of a contact of which only the push name is known. -/
def contactWithPushName (pushName : String) : ContactInfo :=
  { Found := true, FirstName := "", FullName := "", PushName := pushName, BusinessName := "" }

/-- The record of a contact without row: `Found = false` and empty names. -/
def contactNotFound : ContactInfo :=
  { Found := false, FirstName := "", FullName := "", PushName := "", BusinessName := "" }

/-- The rows of `storeWithBobRows` seen by another device, `dev2`, which has
no row in them. -/
def storeOfOtherDevice : SQLStore :=
  { storeWithBobRows with JID := "dev2" }

/-- Whether a schema, given by its tables, has the table `name`. -/
def hasTable (schema : List TableDecl) (name : String) : Bool :=
  schema.any (fun t => t.name == name)

/-- Whether the table `table` of a schema has the column `column`. -/
def hasColumn (schema : List TableDecl) (table column : String) : Bool :=
  schema.any (fun t => t.name == table && t.columns.contains column)

/-- The effect of a statement of an upgrade function on a schema given by its
tables: `CREATE TABLE` fails when the table exists and appends it otherwise;
`ADD COLUMN` needs the table and fails when it has the column; the statements
on the data need the tables and columns they name and leave the schema as it
is. -/
def execOnTables (schema : List TableDecl) : SchemaStmt → Except Error (List TableDecl)
  | .createTable decl =>
    if hasTable schema decl.name then .error (.backend "table already exists")
    else .ok (schema ++ [decl])
  | .addColumn table column =>
    if hasTable schema table && !hasColumn schema table column then
      .ok (schema.map (fun t =>
        if t.name == table then { t with columns := t.columns ++ [column] } else t))
    else .error (.backend "cannot add column")
  | .fillSigKeyPostgres =>
    if hasColumn schema "whatsmeow_device" "adv_account_sig_key" &&
        hasTable schema "whatsmeow_identity_keys" then .ok schema
    else .error (.backend "no such column")
  | .fillSigKeySQLite =>
    if hasColumn schema "whatsmeow_device" "adv_account_sig_key" &&
        hasTable schema "whatsmeow_identity_keys" then .ok schema
    else .error (.backend "no such column")
  | .replaceDeviceJID =>
    if hasTable schema "whatsmeow_device" then .ok schema
    else .error (.backend "no such table")
  | _ => .error (.backend "not a statement of an upgrade function")

/-- A backend on schemas given by their tables.  A statement for which `fault`
gives an error fails with it, and so does the `Commit` of a transaction for
which `commitFault` gives one; `Begin` succeeds. -/
def tableBackend (fault : SchemaStmt → Option Error)
    (commitFault : Database (List TableDecl) → Option Error) (foreignKeys : ScanResult Bool) :
    SchemaBackend (List TableDecl) :=
  { exec := fun schema st =>
      match fault st with
      | some err => .error err
      | none => execOnTables schema st,
    versionFault := fun _ st => fault st,
    foreignKeys := foreignKeys,
    beginErr := fun _ => none,
    commitErr := commitFault }

/-- The backend on tables without faults, foreign keys being enabled. -/
def soundBackend : SchemaBackend (List TableDecl) :=
  tableBackend (fun _ => none) (fun _ => none) (.row true)

/-- The database before the first `Upgrade`: no table at all. -/
def emptyDatabase : Database (List TableDecl) :=
  { schema := [], version := none }

/-- The database an `Upgrade` of the empty database reaches when it is
stopped after two committed transitions. -/
def databaseAfterTwoSteps : Database (List TableDecl) :=
  (upgradeSteps soundBackend ((Upgrades "mysql").take 2) 0 { schema := [], version := some [] }).1

/-- The error of a statement that runs into a lock wait timeout. -/
def errLockWait : Error :=
  .backend "Lock wait timeout exceeded"

/-- A backend on which the `INSERT` of the version `1` by `setVersion` fails. -/
def insertVersionFails : SchemaBackend (List TableDecl) :=
  tableBackend (fun st => if st = .insertVersion 1 then some errLockWait else none)
    (fun _ => none) (.row true)

/-- A backend on which the `CREATE TABLE` of `whatsmeow_contacts` in
`upgradeV1` fails. -/
def createContactsFails : SchemaBackend (List TableDecl) :=
  tableBackend (fun st => if st = .createTable contactsTable then some errLockWait else none)
    (fun _ => none) (.row true)

/-- A backend on which every `Commit` fails. -/
def commitFails : SchemaBackend (List TableDecl) :=
  tableBackend (fun _ => none) (fun _ => some errLockWait) (.row true)

/-- A second entry for Alice, with other names. -/
def exampleContactAgain : ContactEntry :=
  { JID := "alice@s.whatsapp.net", FirstName := "Alicia", FullName := "Alicia B" }

/-- An entry with the empty JID. -/
def exampleContactEmpty : ContactEntry :=
  { JID := "", FirstName := "Nobody", FullName := "Nobody N" }

/-- A backend that fails on the statements binding a single value, such as a
bulk insert of contacts without value tuple, with a syntax error. -/
def rejectOneValue : Backend (List Stmt) :=
  { exec := fun db st =>
      if st.args.length == 1 then .error (.backend "You have an error in your SQL syntax")
      else .ok (db ++ [st]),
    beginErr := fun _ => none,
    commitErr := fun _ => none }

/-! # Theorems -/

/-! ## Tables -/

theorem queryRow_eq_noRows {ρ : Type} (p : ρ → Bool) (t : List ρ)
    (h : ∀ r ∈ t, p r = false) : queryRow p t = .noRows := by
  have : t.find? p = none := by
    rw [List.find?_eq_none]
    intro r hr
    simp [h r hr]
  simp [queryRow, this]

theorem queryRow_eq_row_of_unique {ρ : Type} (p : ρ → Bool) (t : List ρ) (r : ρ)
    (hr : r ∈ t) (hp : p r = true) (huniq : ∀ x ∈ t, p x = true → x = r) :
    queryRow p t = .row r := by
  cases hf : t.find? p with
  | none =>
    rw [List.find?_eq_none] at hf
    exact absurd hp (hf r hr)
  | some x =>
    have hx : x = r := huniq x (List.mem_of_find?_eq_some hf) (List.find?_some hf)
    simp [queryRow, hf, hx]

theorem find?_congr_mem {ρ : Type} (p q : ρ → Bool) (l : List ρ)
    (h : ∀ r ∈ l, p r = q r) : l.find? p = l.find? q := by
  induction l with
  | nil => rfl
  | cons a l ih =>
    simp only [List.find?_cons, h a (List.mem_cons_self _ _)]
    rw [ih (fun r hr => h r (List.mem_cons_of_mem _ hr))]

theorem find?_upsertRow {ρ : Type} (samePK : ρ → ρ → Bool) (onDup : ρ → ρ → ρ) (new : ρ)
    (t : List ρ) (hnew : samePK new new = true)
    (hkeep : ∀ r, samePK new (onDup r new) = samePK new r) :
    ∃ x, (upsertRow samePK onDup new t).find? (samePK new) = some x ∧
      (x = new ∨ ∃ r ∈ t, samePK new r = true ∧ x = onDup r new) := by
  unfold upsertRow
  split
  · rename_i hany
    suffices h : ∀ l : List ρ, (∃ r ∈ l, samePK new r = true) →
        ∃ x, (l.map (fun r => if samePK new r then onDup r new else r)).find? (samePK new)
          = some x ∧ ∃ r ∈ l, samePK new r = true ∧ x = onDup r new by
      obtain ⟨x, hx, hr⟩ := h t (by simpa using hany)
      exact ⟨x, hx, Or.inr hr⟩
    intro l
    induction l with
    | nil => simp
    | cons a l ih =>
      intro hex
      by_cases ha : samePK new a = true
      · exact ⟨onDup a new, by simp [ha, hkeep], a, by simp, ha, rfl⟩
      · have hex2 : ∃ r ∈ l, samePK new r = true := by
          obtain ⟨r, hr, hpr⟩ := hex
          rcases List.mem_cons.mp hr with rfl | hr
          · exact absurd hpr ha
          · exact ⟨r, hr, hpr⟩
        obtain ⟨x, hx, r, hr, hpr, hxr⟩ := ih hex2
        refine ⟨x, ?_, r, List.mem_cons_of_mem _ hr, hpr, hxr⟩
        simp only [List.map_cons, ha, if_false, List.find?_cons]
        simpa [ha] using hx
  · rename_i hany
    refine ⟨new, ?_, Or.inl rfl⟩
    have hnone : t.find? (samePK new) = none := by
      rw [List.find?_eq_none]
      intro r hr
      simp only [List.any_eq_true, not_exists, not_and] at hany
      exact hany r hr
    simp [List.find?_append, hnone, hnew]

theorem upsertRow_pairwise {ρ : Type} (samePK : ρ → ρ → Bool) (onDup : ρ → ρ → ρ) (new : ρ)
    (t : List ρ) (hsymm : ∀ a b, samePK a b = samePK b a)
    (hkeepl : ∀ r x, samePK (onDup r new) x = samePK r x)
    (ht : t.Pairwise (fun a b => samePK a b = false)) :
    (upsertRow samePK onDup new t).Pairwise (fun a b => samePK a b = false) := by
  unfold upsertRow
  split
  · rw [List.pairwise_map]
    apply ht.imp
    intro a b hab
    have hkeepr : ∀ r x, samePK x (onDup r new) = samePK x r := by
      intro r x
      rw [hsymm, hkeepl, hsymm]
    by_cases ha : samePK new a = true <;> by_cases hb : samePK new b = true <;>
      simp [ha, hb, hkeepl, hkeepr, hab]
  · rename_i hany
    simp only [List.any_eq_true, not_exists, not_and, Bool.not_eq_true] at hany
    rw [List.pairwise_append]
    refine ⟨ht, List.pairwise_singleton _ _, ?_⟩
    intro a ha b hb
    rw [List.mem_singleton.mp hb, hsymm]
    exact hany a ha

/-! ## Identity store -/

theorem identityKeysPK_symm : Symmetric (fun a b : IdentityRow => identityKeysPK a b = false) := by
  intro a b h
  simp only [identityKeysPK, beq_eq_false_iff_ne, ne_eq] at h ⊢
  exact fun e => h e.symm

/-- C1. `IsTrustedIdentity(address, key)`: `(true, nil)` when no identity row
exists for (device, address); on a table that respects its primary key, when
the row for (device, address) holds exactly 32 bytes, `(row == key, nil)`, and
when its length is not 32, `(false, ErrInvalidLength)`; the latter differs from
the "not trusted" result `(false, nil)`. -/
theorem IsTrustedIdentity_spec (s : SQLStore) (address : String) (key : Bytes32) :
    ((∀ r ∈ s.identityKeys, ¬ (r.our_jid = s.JID ∧ r.their_id = address)) →
        IsTrustedIdentity s address key = (true, none)) ∧
    (s.identityKeys.Pairwise (fun a b => identityKeysPK a b = false) →
      ∀ r ∈ s.identityKeys, r.our_jid = s.JID → r.their_id = address →
        (r.identity.length = 32 →
          IsTrustedIdentity s address key = (decide (r.identity = key.val), none)) ∧
        (r.identity.length ≠ 32 →
          IsTrustedIdentity s address key = (false, some .ErrInvalidLength))) ∧
    ((false, some Error.ErrInvalidLength) ≠ ((false, none) : Bool × Option Error)) := by
  refine ⟨?_, ?_, by decide⟩
  · intro hnone
    have hq : queryRow (fun x : IdentityRow => x.our_jid == s.JID && x.their_id == address)
        s.identityKeys = .noRows := by
      apply queryRow_eq_noRows
      intro r hr
      have := hnone r hr
      by_contra hc
      simp only [Bool.not_eq_false, Bool.and_eq_true, beq_iff_eq] at hc
      exact this hc
    simp [IsTrustedIdentity, getIdentityQuery, hq, isTrustedIdentityScan]
  · intro hpk r hr hj ha
    have hrow : getIdentityQuery s.JID address s.identityKeys = .row r.identity := by
      have hq : queryRow (fun x : IdentityRow => x.our_jid == s.JID && x.their_id == address)
          s.identityKeys = .row r := by
        apply queryRow_eq_row_of_unique _ _ r hr (by simp [hj, ha])
        intro x hx hpx
        by_contra hne
        have hR := hpk.forall identityKeysPK_symm hx hr hne
        simp only [Bool.and_eq_true, beq_iff_eq] at hpx
        simp [identityKeysPK, hpx.1, hj] at hR
      simp [getIdentityQuery, hq]
    constructor
    · intro hlen
      simp [IsTrustedIdentity, hrow, isTrustedIdentityScan, hlen]
    · intro hlen
      simp [IsTrustedIdentity, hrow, isTrustedIdentityScan, hlen]

/-- Witness of `IsTrustedIdentity_spec`: the stored identity of `bob:0` is
trusted, another key is not, and an address without row is trusted. -/
theorem IsTrustedIdentity_spec_witness :
    IsTrustedIdentity storeWithBobIdentity "bob:0" (bytes32 1) = (true, none) ∧
    IsTrustedIdentity storeWithBobIdentity "bob:0" (bytes32 2) = (false, none) ∧
    IsTrustedIdentity storeWithBobIdentity "alice:0" (bytes32 2) = (true, none) :=
  ⟨by
    have h := ((IsTrustedIdentity_spec storeWithBobIdentity "bob:0" (bytes32 1)).2.1
      (by decide) { our_jid := "dev", their_id := "bob:0", identity := (bytes32 1).val }
      (by decide) rfl rfl).1 (by decide)
    simpa using h,
   by
    have h := ((IsTrustedIdentity_spec storeWithBobIdentity "bob:0" (bytes32 2)).2.1
      (by decide) { our_jid := "dev", their_id := "bob:0", identity := (bytes32 1).val }
      (by decide) rfl rfl).1 (by decide)
    rw [h]
    decide,
   (IsTrustedIdentity_spec storeWithBobIdentity "alice:0" (bytes32 2)).1 (by decide)⟩

theorem PutIdentity_pairwise (s : SQLStore) (address : String) (key : Bytes32)
    (hpk : s.identityKeys.Pairwise (fun a b => identityKeysPK a b = false)) :
    (PutIdentity s address key).1.identityKeys.Pairwise
      (fun a b => identityKeysPK a b = false) := by
  simp only [PutIdentity, putIdentityQuery]
  apply upsertRow_pairwise _ _ _ _ _ _ hpk
  · intro a b
    simp only [identityKeysPK]
    exact Bool.beq_comm
  · intro r x
    rfl

/-- The part of C2 that holds: when the device holds no identity of another
address, `PutIdentity(A, k)` is followed by `IsTrustedIdentity(A, k') = (k' == k)`. -/
theorem IsTrustedIdentity_PutIdentity_single (s : SQLStore) (address : String)
    (k k2 : Bytes32)
    (hsingle : ∀ r ∈ s.identityKeys, r.our_jid = s.JID → r.their_id = address) :
    IsTrustedIdentity (PutIdentity s address k).1 address k2 =
      (decide (k.val = k2.val), none) := by
  obtain ⟨x, hx, hcase⟩ := find?_upsertRow identityKeysPK
    (fun r v => { r with identity := v.identity })
    { our_jid := s.JID, their_id := address, identity := k.val } s.identityKeys
    (by simp [identityKeysPK]) (by intro r; simp [identityKeysPK])
  have hsame : ∀ r ∈ upsertRow identityKeysPK (fun r v => { r with identity := v.identity })
      { our_jid := s.JID, their_id := address, identity := k.val } s.identityKeys,
      (r.our_jid == s.JID && r.their_id == address) =
        identityKeysPK { our_jid := s.JID, their_id := address, identity := k.val } r := by
    intro r hr
    have hr2 : r.our_jid = s.JID → r.their_id = address := by
      intro hj
      unfold upsertRow at hr
      split at hr
      · obtain ⟨b, hb, hbr⟩ := List.mem_map.mp hr
        split at hbr
        · rw [← hbr] at hj ⊢
          exact hsingle b hb hj
        · rw [← hbr] at hj ⊢
          exact hsingle b hb hj
      · rcases List.mem_append.mp hr with h | h
        · exact hsingle r h hj
        · rw [List.mem_singleton.mp h]
    simp only [identityKeysPK]
    by_cases hj : r.our_jid = s.JID
    · have h1 : (r.our_jid == s.JID) = true := beq_iff_eq.mpr hj
      have h2 : (s.JID == r.our_jid) = true := beq_iff_eq.mpr hj.symm
      have h3 : (r.their_id == address) = true := beq_iff_eq.mpr (hr2 hj)
      rw [h1, h2, h3]
      rfl
    · have h1 : (r.our_jid == s.JID) = false := beq_eq_false_iff_ne.mpr hj
      have h2 : (s.JID == r.our_jid) = false := beq_eq_false_iff_ne.mpr (fun e => hj e.symm)
      rw [h1, h2]
      rfl
  have hfind : (upsertRow identityKeysPK (fun r v => { r with identity := v.identity })
      { our_jid := s.JID, their_id := address, identity := k.val } s.identityKeys).find?
      (fun r => r.our_jid == s.JID && r.their_id == address) = some x := by
    rw [← hx]
    exact find?_congr_mem _ _ _ hsame
  have hid : x.identity = k.val := by
    rcases hcase with rfl | ⟨r, _, _, rfl⟩ <;> rfl
  simp only [IsTrustedIdentity, PutIdentity, getIdentityQuery, queryRow, putIdentityQuery, hfind]
  simp [isTrustedIdentityScan, hid, k.property]

/-- C2, evaluated: the device holds the identity of `bob:0`, put on an empty
database; after `PutIdentity("alice:0", 2, 2, ...)` the key `3, 3, ...`, which
differs from the stored one, is reported trusted for `alice:0`, because the
upsert hit the row of `bob:0` (same `our_jid`, the whole primary key) and no
row for `alice:0` exists. -/
theorem PutIdentity_other_address_still_untracked :
    storeWithBobIdentity.identityKeys =
      [{ our_jid := "dev", their_id := "bob:0", identity := (bytes32 1).val }] ∧
    (PutIdentity storeWithBobIdentity "alice:0" (bytes32 2)).1.identityKeys =
      [{ our_jid := "dev", their_id := "bob:0", identity := (bytes32 2).val }] ∧
    (PutIdentity storeWithBobIdentity "alice:0" (bytes32 2)).2 = none ∧
    IsTrustedIdentity (PutIdentity storeWithBobIdentity "alice:0" (bytes32 2)).1 "alice:0"
      (bytes32 3) = (true, none) ∧
    bytes32 3 ≠ bytes32 2 := by
  decide

/-- C3, evaluated: the device holds a sender key of `bob:0` in `group-1`, put
on an empty database; after `PutSenderKey("group-2", "bob:0", [2])` the lookup
`GetSenderKey("group-2", "bob:0")` returns nil instead of `[2]`, because the
upsert hit the row of `group-1` (same `our_jid` and `sender_id`, the whole
primary key), whose key it replaced. -/
theorem PutSenderKey_other_group_lost :
    storeWithSenderKey.senderKeys =
      [{ our_jid := "dev", chat_id := "group-1", sender_id := "bob:0", sender_key := [1] }] ∧
    (PutSenderKey storeWithSenderKey "group-2" "bob:0" [2]).1.senderKeys =
      [{ our_jid := "dev", chat_id := "group-1", sender_id := "bob:0", sender_key := [2] }] ∧
    (PutSenderKey storeWithSenderKey "group-2" "bob:0" [2]).2 = none ∧
    GetSenderKey (PutSenderKey storeWithSenderKey "group-2" "bob:0" [2]).1 "group-2" "bob:0" =
      (none, none) := by
  decide

/-! ## Session store -/

/-- Round trip of the session store, whose primary key is the whole
(device, address) pair: `PutSession(A, v)` followed by `GetSession(A)` returns
`v` with no error, from every store state. -/
theorem GetSession_PutSession (s : SQLStore) (address : String) (v : Bytes) :
    (PutSession s address v).2 = none ∧
    GetSession (PutSession s address v).1 address = (some v, none) := by
  refine ⟨rfl, ?_⟩
  have hp : (fun r : SessionRow => r.our_jid == s.JID && r.their_id == address) =
      sessionsPK { our_jid := s.JID, their_id := address, session := v } := by
    funext r
    simp only [sessionsPK]
    rw [Bool.beq_comm (a := r.our_jid), Bool.beq_comm (a := r.their_id)]
  obtain ⟨x, hx, hcase⟩ := find?_upsertRow sessionsPK
    (fun r w => { r with session := w.session })
    { our_jid := s.JID, their_id := address, session := v } s.sessions
    (by simp [sessionsPK]) (by intro r; simp [sessionsPK])
  have hsess : x.session = v := by
    rcases hcase with rfl | ⟨r, _, _, rfl⟩ <;> rfl
  simp only [GetSession, PutSession, getSessionQuery, queryRow, putSessionQuery, hp, hx]
  simp [scanBytesOrNil, hsess]

/-! ## App state sync keys -/

theorem putAppStateSyncKeyOnDuplicate_stale (r v : SyncKeyRow)
    (h : v.timestamp ≤ r.timestamp) : putAppStateSyncKeyOnDuplicate r v = r := by
  have hn : ¬ v.timestamp > r.timestamp := not_lt.mpr h
  simp [putAppStateSyncKeyOnDuplicate, hn]

theorem putAppStateSyncKeyOnDuplicate_timestamp (r v : SyncKeyRow) :
    (putAppStateSyncKeyOnDuplicate r v).jid = r.jid ∧
    v.timestamp ≤ (putAppStateSyncKeyOnDuplicate r v).timestamp := by
  refine ⟨rfl, ?_⟩
  simp only [putAppStateSyncKeyOnDuplicate]
  split
  · exact le_refl _
  · rename_i hn
    exact not_lt.mp hn

/-- What the `ON DUPLICATE KEY UPDATE` clause of `putAppStateSyncKeyQuery` does
with a strictly newer timestamp: `key_data` and `timestamp` take the new
values, `fingerprint` keeps the stored one. -/
theorem putAppStateSyncKeyOnDuplicate_newer (r v : SyncKeyRow)
    (h : v.timestamp > r.timestamp) :
    putAppStateSyncKeyOnDuplicate r v =
      { r with key_data := v.key_data, timestamp := v.timestamp } := by
  simp [putAppStateSyncKeyOnDuplicate, h]

theorem putAppStateSyncKeyQuery_timestamp (new : SyncKeyRow) (t : List SyncKeyRow) :
    (∃ r ∈ putAppStateSyncKeyQuery new t, appStateSyncKeysPK new r = true) ∧
    ∀ r ∈ putAppStateSyncKeyQuery new t, appStateSyncKeysPK new r = true →
      new.timestamp ≤ r.timestamp := by
  unfold putAppStateSyncKeyQuery upsertRow
  split
  · rename_i hany
    simp only [List.any_eq_true] at hany
    obtain ⟨a, ha, hpa⟩ := hany
    constructor
    · refine ⟨putAppStateSyncKeyOnDuplicate a new, ?_, ?_⟩
      · exact List.mem_map.mpr ⟨a, ha, by simp [hpa]⟩
      · simpa [appStateSyncKeysPK, (putAppStateSyncKeyOnDuplicate_timestamp a new).1] using hpa
    · intro r hr hpr
      obtain ⟨b, _, hb⟩ := List.mem_map.mp hr
      by_cases hpb : appStateSyncKeysPK new b = true
      · rw [if_pos hpb] at hb
        rw [← hb]
        exact (putAppStateSyncKeyOnDuplicate_timestamp b new).2
      · rw [if_neg hpb] at hb
        rw [hb] at hpb
        exact absurd hpr hpb
  · rename_i hany
    simp only [List.any_eq_true, not_exists, not_and] at hany
    constructor
    · exact ⟨new, by simp, by simp [appStateSyncKeysPK]⟩
    · intro r hr hpr
      rcases List.mem_append.mp hr with hr | hr
      · exact absurd hpr (hany r hr)
      · rw [List.mem_singleton.mp hr]

/-- C8. A stale sync-key put changes nothing: after
`PutAppStateSyncKey(id, k1)`, a `PutAppStateSyncKey(id, k2)` whose timestamp is
not greater than that of `k1` leaves the whole store, hence the stored data,
timestamp and fingerprint, unchanged and returns no error;
`GetAppStateSyncKey(id)` returns what it returned before, so it still returns
`k1` when the first put stored `k1`. -/
theorem PutAppStateSyncKey_stale_unchanged (s : SQLStore) (id : Bytes)
    (k1 k2 : AppStateSyncKey) (h : k2.Timestamp ≤ k1.Timestamp) :
    (PutAppStateSyncKey (PutAppStateSyncKey s id k1).1 id k2).1 =
      (PutAppStateSyncKey s id k1).1 ∧
    (PutAppStateSyncKey (PutAppStateSyncKey s id k1).1 id k2).2 = none ∧
    GetAppStateSyncKey (PutAppStateSyncKey (PutAppStateSyncKey s id k1).1 id k2).1 id =
      GetAppStateSyncKey (PutAppStateSyncKey s id k1).1 id ∧
    (GetAppStateSyncKey (PutAppStateSyncKey s id k1).1 id = (some k1, none) →
      GetAppStateSyncKey (PutAppStateSyncKey (PutAppStateSyncKey s id k1).1 id k2).1 id =
        (some k1, none)) := by
  have hstate : (PutAppStateSyncKey (PutAppStateSyncKey s id k1).1 id k2).1 =
      (PutAppStateSyncKey s id k1).1 := by
    obtain ⟨⟨a, ha, hpa⟩, hts⟩ :=
      putAppStateSyncKeyQuery_timestamp (syncKeyRow s.JID id k1) s.appStateSyncKeys
    simp only [PutAppStateSyncKey]
    congr 1
    generalize putAppStateSyncKeyQuery (syncKeyRow s.JID id k1) s.appStateSyncKeys = t1
      at ha hts
    have hany : t1.any (appStateSyncKeysPK (syncKeyRow s.JID id k2)) = true := by
      rw [List.any_eq_true]
      exact ⟨a, ha, by simpa [appStateSyncKeysPK, syncKeyRow] using hpa⟩
    simp only [putAppStateSyncKeyQuery, upsertRow, hany, if_true]
    conv_rhs => rw [← List.map_id t1]
    apply List.map_congr_left
    intro r hr
    by_cases hpr : appStateSyncKeysPK (syncKeyRow s.JID id k2) r = true
    · rw [if_pos hpr]
      apply putAppStateSyncKeyOnDuplicate_stale
      have := hts r hr (by simpa [appStateSyncKeysPK, syncKeyRow] using hpr)
      exact le_trans h this
    · rw [if_neg hpr]; rfl
  refine ⟨hstate, rfl, by rw [hstate], ?_⟩
  intro hget
  rw [hstate]
  exact hget

/-- Witness of `PutAppStateSyncKey_stale_unchanged`: on an empty store, the key
of timestamp `5` survives a put of timestamp `5`. -/
theorem PutAppStateSyncKey_stale_unchanged_witness :
    GetAppStateSyncKey
      (PutAppStateSyncKey
        (PutAppStateSyncKey { JID := "dev" } [1]
          { Data := [10], Fingerprint := [11], Timestamp := 5 }).1
        [1] { Data := [20], Fingerprint := [21], Timestamp := 5 }).1 [1] =
      (some { Data := [10], Fingerprint := [11], Timestamp := 5 }, none) :=
  (PutAppStateSyncKey_stale_unchanged { JID := "dev" } [1]
    { Data := [10], Fingerprint := [11], Timestamp := 5 }
    { Data := [20], Fingerprint := [21], Timestamp := 5 } (by decide)).2.2.2 (by decide)

/-- C9, evaluated: on an empty store, `PutAppStateSyncKey(id, k1)` with
timestamp `1` followed by `PutAppStateSyncKey(id, k2)` with timestamp `2`
leaves `k2`'s data and timestamp with `k1`'s fingerprint: the assignment to
`timestamp` precedes the one to `fingerprint`, whose `CASE` then compares
`VALUES(timestamp)` with the timestamp just written. -/
theorem PutAppStateSyncKey_newer_keeps_old_fingerprint :
    GetAppStateSyncKey
      (PutAppStateSyncKey
        (PutAppStateSyncKey { JID := "dev" } [1]
          { Data := [10], Fingerprint := [11], Timestamp := 1 }).1
        [1] { Data := [20], Fingerprint := [21], Timestamp := 2 }).1 [1] =
      (some { Data := [20], Fingerprint := [11], Timestamp := 2 }, none) := by
  decide

/-! ## App state version -/

theorem appStateVersionPK_symm :
    Symmetric (fun a b : VersionRow => appStateVersionPK a b = false) := by
  intro a b h
  simp only [appStateVersionPK, Bool.and_eq_false_iff, beq_eq_false_iff_ne, ne_eq] at h ⊢
  rcases h with h | h
  · exact Or.inl fun e => h e.symm
  · exact Or.inr fun e => h e.symm

theorem GetAppStateVersion_PutAppStateVersion (s : SQLStore) (name : String) (v : Nat)
    (h : Bytes128) :
    GetAppStateVersion (PutAppStateVersion s name v h).1 name = (v, h, none) := by
  have hp : (fun r : VersionRow => r.jid == s.JID && r.name == name) =
      appStateVersionPK { jid := s.JID, name := name, version := v, hash := h.val } := by
    funext r
    simp only [appStateVersionPK]
    rw [Bool.beq_comm (a := r.jid), Bool.beq_comm (a := r.name)]
  obtain ⟨x, hx, hcase⟩ := find?_upsertRow appStateVersionPK
    (fun r w =>
      let r1 := { r with version := w.version }
      { r1 with hash := w.hash })
    { jid := s.JID, name := name, version := v, hash := h.val } s.appStateVersion
    (by simp [appStateVersionPK]) (by intro r; simp [appStateVersionPK])
  have hver : x.version = v ∧ x.hash = h.val := by
    rcases hcase with rfl | ⟨r, _, _, rfl⟩ <;> exact ⟨rfl, rfl⟩
  simp only [GetAppStateVersion, PutAppStateVersion, getAppStateVersionQuery, queryRow,
    putAppStateVersionQuery, hp, hx]
  simp [hver.1, hver.2, h.property]

theorem PutAppStateVersion_pairwise (s : SQLStore) (name : String) (v : Nat) (h : Bytes128)
    (hpk : s.appStateVersion.Pairwise (fun a b => appStateVersionPK a b = false)) :
    (PutAppStateVersion s name v h).1.appStateVersion.Pairwise
      (fun a b => appStateVersionPK a b = false) := by
  simp only [PutAppStateVersion, putAppStateVersionQuery]
  apply upsertRow_pairwise _ _ _ _ _ _ hpk
  · intro a b
    simp only [appStateVersionPK]
    rw [Bool.beq_comm (a := a.jid), Bool.beq_comm (a := a.name)]
  · intro r x
    rfl

/-- C10. State-hash round trip and length enforcement: from every store state,
`PutAppStateVersion(name, v, h)` returns no error and a following
`GetAppStateVersion(name)` returns `(v, h, nil)`; and on a version table that
respects its primary key, when the row stored for `name` holds a hash whose
length is not 128, `GetAppStateVersion(name)` returns `ErrInvalidLength` with
the all-zero hash. -/
theorem AppStateVersion_roundtrip_and_length (s : SQLStore) (name : String) :
    (∀ (v : Nat) (h : Bytes128),
      (PutAppStateVersion s name v h).2 = none ∧
      GetAppStateVersion (PutAppStateVersion s name v h).1 name = (v, h, none)) ∧
    (s.appStateVersion.Pairwise (fun a b => appStateVersionPK a b = false) →
      ∀ r ∈ s.appStateVersion, r.jid = s.JID → r.name = name → r.hash.length ≠ 128 →
        GetAppStateVersion s name = (r.version, zeroHash, some .ErrInvalidLength) ∧
        zeroHash.val = List.replicate 128 0) := by
  refine ⟨fun v h => ⟨rfl, GetAppStateVersion_PutAppStateVersion s name v h⟩, ?_⟩
  intro hpk r hr hj hn hlen
  have hq : queryRow (fun x : VersionRow => x.jid == s.JID && x.name == name)
      s.appStateVersion = .row r := by
    apply queryRow_eq_row_of_unique _ _ r hr (by simp [hj, hn])
    intro x hx hpx
    by_contra hne
    have hR := hpk.forall appStateVersionPK_symm hx hr hne
    simp only [Bool.and_eq_true, beq_iff_eq] at hpx
    simp [appStateVersionPK, hpx.1, hpx.2, hj, hn] at hR
  refine ⟨?_, rfl⟩
  simp [GetAppStateVersion, getAppStateVersionQuery, hq, hlen]

/-- Witness of `AppStateVersion_roundtrip_and_length`: the stored hash of 3
bytes is reported as `ErrInvalidLength` with the zero hash, and a put of a
128-byte hash is read back. -/
theorem AppStateVersion_roundtrip_and_length_witness :
    GetAppStateVersion (PutAppStateVersion storeWithShortHash "regular" 8 (bytes128 9)).1
      "regular" = (8, bytes128 9, none) ∧
    GetAppStateVersion storeWithShortHash "regular" =
      (7, zeroHash, some .ErrInvalidLength) :=
  ⟨((AppStateVersion_roundtrip_and_length storeWithShortHash "regular").1 8
      (bytes128 9)).2,
   ((AppStateVersion_roundtrip_and_length storeWithShortHash "regular").2 (by decide)
      { jid := "dev", name := "regular", version := 7, hash := [1, 2, 3] }
      (by decide) rfl rfl (by decide)).1⟩

/-! ## Prekey store -/

theorem le_foldr_max (l : List Nat) : ∀ x ∈ l, x ≤ l.foldr max 0 := by
  induction l with
  | nil => simp
  | cons a l ih =>
    intro x hx
    rcases List.mem_cons.mp hx with rfl | hx
    · exact le_max_left _ _
    · exact le_trans (ih x hx) (le_max_right _ _)

theorem foldr_max_append (l l' : List Nat) :
    (l ++ l').foldr max 0 = max (l.foldr max 0) (l'.foldr max 0) := by
  induction l with
  | nil => simp
  | cons a l ih => simp [ih, max_assoc]

theorem foldr_max_range' (a k : Nat) (hk : 0 < k) :
    (List.range' a k).foldr max 0 = a + k - 1 := by
  induction k generalizing a with
  | zero => omega
  | succ k ih =>
    rw [List.range'_succ, List.foldr_cons]
    rcases Nat.eq_zero_or_pos k with rfl | hpos
    · simp
    · rw [ih (a + 1) hpos]
      omega

theorem getLastPreKeyIDQuery_eq (s : SQLStore) :
    scanNullInt32 (getLastPreKeyIDQuery s.JID s.preKeys) =
      if maxPreKeyID s < 2 ^ 31 then .ok (maxPreKeyID s)
      else .error (.backend "converting driver.Value type to a int32: value out of range") := by
  unfold getLastPreKeyIDQuery maxPreKeyID preKeyIDs
  cases h : devicePreKeys s.JID s.preKeys with
  | nil => simp [scanNullInt32]
  | cons r rs => simp [scanNullInt32, List.foldr_map]

theorem getNextPreKeyID_eq (s : SQLStore) :
    getNextPreKeyID s =
      if maxPreKeyID s < 2 ^ 31 then (maxPreKeyID s + 1, none)
      else (0, some (.wrapped "failed to query next prekey ID"
        (.backend "converting driver.Value type to a int32: value out of range"))) := by
  unfold getNextPreKeyID
  rw [getLastPreKeyIDQuery_eq]
  by_cases h : maxPreKeyID s < 2 ^ 31
  · have : (maxPreKeyID s + 1) % 2 ^ 32 = maxPreKeyID s + 1 := by
      apply Nat.mod_eq_of_lt
      omega
    simp only [if_pos h, this]
  · simp only [if_neg h]

theorem freshPreKeyRows_length (jid : String) (rnd : Nat → Bytes32) (k i next : Nat) :
    (freshPreKeyRows jid rnd k i next).length = k := by
  induction k generalizing i next with
  | zero => rfl
  | succ k ih => simp [freshPreKeyRows, ih]

theorem freshPreKeyRows_mem (jid : String) (rnd : Nat → Bytes32) (k i next : Nat) :
    ∀ r ∈ freshPreKeyRows jid rnd k i next, r.jid = jid ∧ r.uploaded = false := by
  induction k generalizing i next with
  | zero => simp [freshPreKeyRows]
  | succ k ih =>
    intro r hr
    simp only [freshPreKeyRows, List.mem_cons] at hr
    rcases hr with rfl | hr
    · exact ⟨rfl, rfl⟩
    · exact ih _ _ r hr

theorem freshPreKeyRows_ids (jid : String) (rnd : Nat → Bytes32) (k i next : Nat)
    (h : next + k ≤ 2 ^ 32) :
    (freshPreKeyRows jid rnd k i next).map (fun r => r.key_id) = List.range' next k := by
  induction k generalizing i next with
  | zero => rfl
  | succ k ih =>
    simp only [freshPreKeyRows, List.map_cons, List.range'_succ]
    congr 1
    rcases Nat.eq_zero_or_pos k with rfl | hpos
    · rfl
    · have hmod : (next + 1) % 2 ^ 32 = next + 1 := Nat.mod_eq_of_lt (by omega)
      rw [hmod]
      exact ih (i + 1) (next + 1) (by omega)

theorem genOnePreKey_cases (pk : PreKeyRow → PreKeyRow → Bool) (s : SQLStore) (priv : Bytes32)
    (id : Nat) (up : Bool) :
    genOnePreKey pk s priv id up =
        ({ s with preKeys := s.preKeys ++
            [{ jid := s.JID, key_id := id, key := priv.val, uploaded := up }] },
          NewPreKey priv id, none) ∨
    ∃ e, genOnePreKey pk s priv id up = (s, NewPreKey priv id, some e) := by
  simp only [genOnePreKey, insertRow, NewPreKey]
  by_cases h : s.preKeys.any
      (pk { jid := s.JID, key_id := id, key := priv.val, uploaded := up }) = true
  · right
    exact ⟨.backend "Duplicate entry for key PRIMARY", by simp only [if_pos h]⟩
  · left
    simp only [if_neg h]

theorem genPreKeysLoop_spec (pk : PreKeyRow → PreKeyRow → Bool) (rnd : Nat → Bytes32)
    (n i next : Nat) (s : SQLStore) :
    ∃ k, k ≤ n ∧
      (genPreKeysLoop pk rnd n i next s).1 =
        { s with preKeys := s.preKeys ++ freshPreKeyRows s.JID rnd k i next } ∧
      ∀ ks, (genPreKeysLoop pk rnd n i next s).2 = .ok ks →
        k = n ∧ ks.map (fun key => (key.KeyID, key.Priv.val)) =
          (freshPreKeyRows s.JID rnd n i next).map (fun r => (r.key_id, r.key)) := by
  induction n generalizing i next s with
  | zero =>
    refine ⟨0, le_refl _, ?_, ?_⟩
    · simp [genPreKeysLoop, freshPreKeyRows]
    · intro ks hks
      simp only [genPreKeysLoop, Except.ok.injEq] at hks
      subst hks
      exact ⟨rfl, rfl⟩
  | succ n ih =>
    rcases genOnePreKey_cases pk s (rnd i) next false with hok | ⟨e, herr⟩
    · obtain ⟨k, hk, hst, hres⟩ := ih (i + 1) ((next + 1) % 2 ^ 32)
        { s with preKeys := s.preKeys ++
            [{ jid := s.JID, key_id := next, key := (rnd i).val, uploaded := false }] }
      refine ⟨k + 1, Nat.succ_le_succ hk, ?_, ?_⟩
      · simp only [genPreKeysLoop, hok]
        generalize hloop : genPreKeysLoop pk rnd n (i + 1) ((next + 1) % 2 ^ 32) _ = res at hst
        obtain ⟨s2, r2⟩ := res
        cases r2 <;> simp_all [freshPreKeyRows]
      · intro ks hks
        simp only [genPreKeysLoop, hok] at hks
        generalize hloop : genPreKeysLoop pk rnd n (i + 1) ((next + 1) % 2 ^ 32) _ = res
          at hst hres hks
        obtain ⟨s2, r2⟩ := res
        cases r2 with
        | error e => simp at hks
        | ok ks2 =>
          simp only [Except.ok.injEq] at hks
          subst hks
          obtain ⟨hkn, hmap⟩ := hres ks2 rfl
          refine ⟨by omega, ?_⟩
          simp only [List.map_cons, freshPreKeyRows, NewPreKey]
          rw [hmap]
    · refine ⟨0, Nat.zero_le _, ?_, ?_⟩
      · simp [genPreKeysLoop, herr, freshPreKeyRows]
      · intro ks hks
        simp [genPreKeysLoop, herr] at hks

/-- What a generating call does to the prekey table: it appends rows of the
device whose ids, as long as they stay below `2^32`, count up from the largest
id of the device plus one. -/
theorem GetOrGenPreKeys_appends (pk : PreKeyRow → PreKeyRow → Bool) (s : SQLStore)
    (count : Nat) (rnd : Nat → Bytes32) :
    ∃ rows : List PreKeyRow,
      (GetOrGenPreKeys pk s count rnd).1 = { s with preKeys := s.preKeys ++ rows } ∧
      (∀ r ∈ rows, r.jid = s.JID) ∧
      (maxPreKeyID s + rows.length < 2 ^ 32 →
        rows.map (fun r => r.key_id) = List.range' (maxPreKeyID s + 1) rows.length) := by
  have hnil : ∃ rows : List PreKeyRow,
      s = { s with preKeys := s.preKeys ++ rows } ∧ (∀ r ∈ rows, r.jid = s.JID) ∧
      (maxPreKeyID s + rows.length < 2 ^ 32 →
        rows.map (fun r => r.key_id) = List.range' (maxPreKeyID s + 1) rows.length) :=
    ⟨[], by simp, by simp, by simp⟩
  unfold GetOrGenPreKeys
  cases hscan : scanExistingPreKeys (getUnuploadedPreKeysQuery s.JID count s.preKeys) with
  | error e => exact hnil
  | ok existing =>
    simp only
    by_cases hlt : existing.length < count
    · rw [if_pos hlt, getNextPreKeyID_eq]
      by_cases hmax : maxPreKeyID s < 2 ^ 31
      · simp only [if_pos hmax]
        obtain ⟨k, _, hst, _⟩ := genPreKeysLoop_spec pk rnd (count - existing.length)
          existing.length (maxPreKeyID s + 1) s
        refine ⟨freshPreKeyRows s.JID rnd k existing.length (maxPreKeyID s + 1), ?_,
          fun r hr => (freshPreKeyRows_mem _ _ _ _ _ r hr).1, ?_⟩
        · rw [← hst]
          generalize genPreKeysLoop pk rnd (count - existing.length) existing.length
            (maxPreKeyID s + 1) s = res
          obtain ⟨s2, r2⟩ := res
          cases r2 <;> rfl
        · intro hno
          rw [freshPreKeyRows_length] at hno ⊢
          exact freshPreKeyRows_ids _ _ _ _ _ (by omega)
      · simp only [if_neg hmax]
        exact hnil
    · rw [if_neg hlt]
      exact hnil

theorem GenOnePreKey_appends (pk : PreKeyRow → PreKeyRow → Bool) (s : SQLStore)
    (priv : Bytes32) :
    ∃ rows : List PreKeyRow,
      (GenOnePreKey pk s priv).1 = { s with preKeys := s.preKeys ++ rows } ∧
      (∀ r ∈ rows, r.jid = s.JID) ∧
      (maxPreKeyID s + rows.length < 2 ^ 32 →
        rows.map (fun r => r.key_id) = List.range' (maxPreKeyID s + 1) rows.length) := by
  unfold GenOnePreKey
  rw [getNextPreKeyID_eq]
  by_cases hmax : maxPreKeyID s < 2 ^ 31
  · simp only [if_pos hmax]
    rcases genOnePreKey_cases pk s priv (maxPreKeyID s + 1) true with hok | ⟨e, herr⟩
    · rw [hok]
      exact ⟨[{ jid := s.JID, key_id := maxPreKeyID s + 1, key := priv.val, uploaded := true }],
        rfl, by simp, by simp⟩
    · rw [herr]
      exact ⟨[], by simp, by simp, by simp⟩
  · simp only [if_neg hmax]
    exact ⟨[], by simp, by simp, by simp⟩

theorem maxPreKeyID_append (s : SQLStore) (rows : List PreKeyRow)
    (hjid : ∀ r ∈ rows, r.jid = s.JID)
    (hids : rows.map (fun r => r.key_id) = List.range' (maxPreKeyID s + 1) rows.length) :
    maxPreKeyID { s with preKeys := s.preKeys ++ rows } = maxPreKeyID s + rows.length := by
  have hfilter : devicePreKeys s.JID rows = rows := by
    unfold devicePreKeys
    rw [List.filter_eq_self]
    intro r hr
    simp [hjid r hr]
  have hdev : devicePreKeys s.JID (s.preKeys ++ rows) = devicePreKeys s.JID s.preKeys ++ rows := by
    rw [← hfilter]
    simp [devicePreKeys, List.filter_append]
  unfold maxPreKeyID preKeyIDs
  simp only [hdev, List.map_append, foldr_max_append, hids]
  rcases Nat.eq_zero_or_pos rows.length with h0 | hpos
  · simp [h0]
  · rw [foldr_max_range' _ _ hpos]
    have : ((devicePreKeys s.JID s.preKeys).map (fun r => r.key_id)).foldr max 0
        = maxPreKeyID s := rfl
    rw [this]
    omega

theorem insertedIDs_append (s : SQLStore) (rows : List PreKeyRow) :
    insertedIDs s { s with preKeys := s.preKeys ++ rows } = rows.map (fun r => r.key_id) := by
  simp [insertedIDs]

theorem preKeyIDs_map (jid : String) (f : PreKeyRow → PreKeyRow) (t : List PreKeyRow)
    (hf : ∀ r, (f r).jid = r.jid ∧ (f r).key_id = r.key_id) :
    (devicePreKeys jid (t.map f)).map (fun r => r.key_id) =
      (devicePreKeys jid t).map (fun r => r.key_id) := by
  unfold devicePreKeys
  induction t with
  | nil => rfl
  | cons a t ih =>
    simp only [List.map_cons, List.filter_cons, (hf a).1]
    by_cases hj : (a.jid == jid) = true
    · simp only [hj, if_true, List.map_cons, ih, (hf a).2]
    · simp only [hj, if_false]
      exact ih

theorem preKeyIDs_MarkPreKeysAsUploaded (s : SQLStore) (upToID : Nat) :
    preKeyIDs (MarkPreKeysAsUploaded s upToID).1 = preKeyIDs s := by
  simp only [preKeyIDs, MarkPreKeysAsUploaded]
  apply preKeyIDs_map
  intro r
  split <;> exact ⟨rfl, rfl⟩

theorem generatedBy_step (pk : PreKeyRow → PreKeyRow → Bool) (s : SQLStore) (op : PreKeyOp)
    (hop : op.isRemove = false) :
    (PreKeyOp.run pk s op).JID = s.JID ∧
    (maxPreKeyID s + (generatedBy pk s op).length < 2 ^ 32 →
      generatedBy pk s op = List.range' (maxPreKeyID s + 1) (generatedBy pk s op).length ∧
      maxPreKeyID (PreKeyOp.run pk s op) = maxPreKeyID s + (generatedBy pk s op).length) := by
  cases op with
  | genOne priv =>
    obtain ⟨rows, hst, hjid, hids⟩ := GenOnePreKey_appends pk s priv
    simp only [PreKeyOp.run, generatedBy, hst, insertedIDs_append, List.length_map]
    exact ⟨trivial, fun hno => ⟨hids hno, maxPreKeyID_append s rows hjid (hids hno)⟩⟩
  | getOrGen count rnd =>
    obtain ⟨rows, hst, hjid, hids⟩ := GetOrGenPreKeys_appends pk s count rnd
    simp only [PreKeyOp.run, generatedBy, hst, insertedIDs_append, List.length_map]
    exact ⟨trivial, fun hno => ⟨hids hno, maxPreKeyID_append s rows hjid (hids hno)⟩⟩
  | remove id => simp [PreKeyOp.isRemove] at hop
  | markUploaded upToID =>
    refine ⟨rfl, fun _ => ⟨rfl, ?_⟩⟩
    simp only [PreKeyOp.run, generatedBy, List.length_nil, Nat.add_zero]
    unfold maxPreKeyID
    rw [preKeyIDs_MarkPreKeysAsUploaded]

theorem genOnePreKey_declared (s : SQLStore) (priv : Bytes32) (id : Nat) (up : Bool) :
    genOnePreKey preKeysPK s priv id up = (s, NewPreKey priv id,
      some (.backend "Duplicate entry for key PRIMARY")) ∨
    (devicePreKeys s.JID s.preKeys = [] ∧
      genOnePreKey preKeysPK s priv id up =
        ({ s with preKeys := s.preKeys ++
            [{ jid := s.JID, key_id := id, key := priv.val, uploaded := up }] },
          NewPreKey priv id, none)) := by
  simp only [genOnePreKey, insertRow, NewPreKey]
  by_cases h : s.preKeys.any
      (preKeysPK { jid := s.JID, key_id := id, key := priv.val, uploaded := up }) = true
  · left
    simp only [if_pos h]
  · right
    refine ⟨?_, by simp only [if_neg h]⟩
    simp only [List.any_eq_true, not_exists, not_and, preKeysPK, beq_iff_eq] at h
    simp only [devicePreKeys, List.filter_eq_nil_iff, beq_iff_eq]
    intro r hr hj
    exact h r hr hj.symm

theorem genPreKeysLoop_declared (rnd : Nat → Bytes32) (n i next : Nat) (s : SQLStore) :
    (genPreKeysLoop preKeysPK rnd n i next s).1 = s ∨
    (devicePreKeys s.JID s.preKeys = [] ∧
      (genPreKeysLoop preKeysPK rnd n i next s).1 =
        { s with preKeys := s.preKeys ++
            [{ jid := s.JID, key_id := next, key := (rnd i).val, uploaded := false }] }) := by
  cases n with
  | zero => left; rfl
  | succ n =>
    rcases genOnePreKey_declared s (rnd i) next false with herr | ⟨hdev, hok⟩
    · left
      simp [genPreKeysLoop, herr]
    · right
      refine ⟨hdev, ?_⟩
      simp only [genPreKeysLoop, hok]
      have hinner : (genPreKeysLoop preKeysPK rnd n (i + 1) ((next + 1) % 2 ^ 32)
          { s with preKeys := s.preKeys ++
              [{ jid := s.JID, key_id := next, key := (rnd i).val, uploaded := false }] }).1 =
          { s with preKeys := s.preKeys ++
              [{ jid := s.JID, key_id := next, key := (rnd i).val, uploaded := false }] } := by
        cases n with
        | zero => rfl
        | succ n =>
          rcases genOnePreKey_declared
            { s with preKeys := s.preKeys ++
                [{ jid := s.JID, key_id := next, key := (rnd i).val, uploaded := false }] }
            (rnd (i + 1)) ((next + 1) % 2 ^ 32) false with herr2 | ⟨hdev2, _⟩
          · simp only [genPreKeysLoop, herr2]
          · simp [devicePreKeys, List.filter_append] at hdev2
      generalize genPreKeysLoop preKeysPK rnd n (i + 1) ((next + 1) % 2 ^ 32) _ = res at hinner
      obtain ⟨s2, r2⟩ := res
      cases r2 <;> exact hinner

theorem maxPreKeyID_of_no_rows (s : SQLStore) (h : devicePreKeys s.JID s.preKeys = []) :
    maxPreKeyID s = 0 := by
  simp [maxPreKeyID, preKeyIDs, h]

theorem insertedIDs_self (s : SQLStore) : insertedIDs s s = [] := by
  simp [insertedIDs]

theorem generatedBy_declared (s : SQLStore) (op : PreKeyOp) :
    generatedBy preKeysPK s op = [] ∨
      maxPreKeyID s + (generatedBy preKeysPK s op).length < 2 ^ 32 := by
  cases op with
  | genOne priv =>
    simp only [generatedBy, PreKeyOp.run, GenOnePreKey]
    rw [getNextPreKeyID_eq]
    by_cases h31 : maxPreKeyID s < 2 ^ 31
    · simp only [if_pos h31]
      rcases genOnePreKey_declared s priv (maxPreKeyID s + 1) true with herr | ⟨hdev, hok⟩
      · left
        rw [herr]
        exact insertedIDs_self s
      · right
        rw [hok, insertedIDs_append, maxPreKeyID_of_no_rows s hdev]
        simp
    · left
      simp only [if_neg h31]
      exact insertedIDs_self s
  | getOrGen count rnd =>
    simp only [generatedBy, PreKeyOp.run, GetOrGenPreKeys]
    cases scanExistingPreKeys (getUnuploadedPreKeysQuery s.JID count s.preKeys) with
    | error e => left; exact insertedIDs_self s
    | ok existing =>
      simp only
      by_cases hlt : existing.length < count
      · rw [if_pos hlt, getNextPreKeyID_eq]
        by_cases h31 : maxPreKeyID s < 2 ^ 31
        · simp only [if_pos h31]
          have hloop := genPreKeysLoop_declared rnd (count - existing.length) existing.length
            (maxPreKeyID s + 1) s
          generalize genPreKeysLoop preKeysPK rnd (count - existing.length) existing.length
            (maxPreKeyID s + 1) s = res at hloop
          obtain ⟨s2, r2⟩ := res
          have hs2 : (match r2 with
              | .ok fresh => (s2, Except.ok (existing ++ fresh))
              | .error e => (s2, Except.error e)).1 = s2 := by
            cases r2 <;> rfl
          simp only at hloop
          rcases hloop with hsame | ⟨hdev, happ⟩
          · left
            cases r2 <;> simp only [hsame] <;> exact insertedIDs_self s
          · right
            have : insertedIDs s s2 = [maxPreKeyID s + 1] := by
              rw [happ, insertedIDs_append]
              rfl
            cases r2 <;> simp [this, maxPreKeyID_of_no_rows s hdev]
        · left
          simp only [if_neg h31]
          exact insertedIDs_self s
      · left
        rw [if_neg hlt]
        exact insertedIDs_self s
  | remove id => left; rfl
  | markUploaded upToID => left; rfl

theorem generatedBy_nil_max (pk : PreKeyRow → PreKeyRow → Bool) (s : SQLStore) (op : PreKeyOp)
    (hop : op.isRemove = false) (hnil : generatedBy pk s op = []) :
    maxPreKeyID (PreKeyOp.run pk s op) = maxPreKeyID s := by
  cases op with
  | genOne priv =>
    obtain ⟨rows, hst, _, _⟩ := GenOnePreKey_appends pk s priv
    simp only [PreKeyOp.run, generatedBy, hst, insertedIDs_append, List.map_eq_nil_iff] at hnil ⊢
    simp [hnil]
  | getOrGen count rnd =>
    obtain ⟨rows, hst, _, _⟩ := GetOrGenPreKeys_appends pk s count rnd
    simp only [PreKeyOp.run, generatedBy, hst, insertedIDs_append, List.map_eq_nil_iff] at hnil ⊢
    simp [hnil]
  | remove id => simp [PreKeyOp.isRemove] at hop
  | markUploaded upToID =>
    simp only [PreKeyOp.run]
    unfold maxPreKeyID
    rw [preKeyIDs_MarkPreKeysAsUploaded]

theorem generatedIDs_consecutive (pk : PreKeyRow → PreKeyRow → Bool) (ops : List PreKeyOp) :
    ∀ s : SQLStore, (∀ op ∈ ops, op.isRemove = false) →
      (pk = preKeysPK ∨ maxPreKeyID s + (generatedIDs pk s ops).length < 2 ^ 32) →
      generatedIDs pk s ops = List.range' (maxPreKeyID s + 1) (generatedIDs pk s ops).length := by
  induction ops with
  | nil => intro s _ _; rfl
  | cons op ops ih =>
    intro s hops hno
    have hop := hops op (List.mem_cons_self _ _)
    have hrest : ∀ o ∈ ops, o.isRemove = false := fun o ho => hops o (List.mem_cons_of_mem _ ho)
    simp only [generatedIDs, List.length_append] at hno ⊢
    by_cases hnil : generatedBy pk s op = []
    · have hmax := generatedBy_nil_max pk s op hop hnil
      have ih' := ih (PreKeyOp.run pk s op) hrest (by
        rcases hno with hpk | hlim
        · exact Or.inl hpk
        · right
          rw [hmax]
          simpa [hnil] using hlim)
      rw [hmax] at ih'
      rw [hnil, List.nil_append, List.length_nil, Nat.zero_add]
      exact ih'
    · have hlimop : maxPreKeyID s + (generatedBy pk s op).length < 2 ^ 32 := by
        rcases hno with hpk | hlim
        · subst hpk
          exact (generatedBy_declared s op).resolve_left hnil
        · omega
      obtain ⟨hgen, hmax⟩ := (generatedBy_step pk s op hop).2 hlimop
      have ih' := ih (PreKeyOp.run pk s op) hrest (by
        rcases hno with hpk | hlim
        · exact Or.inl hpk
        · right
          rw [hmax]
          omega)
      rw [hmax] at ih'
      generalize generatedBy pk s op = g1 at hgen ih' ⊢
      generalize generatedIDs pk (PreKeyOp.run pk s op) ops = g2 at ih' ⊢
      rw [hgen, ih']
      simp only [List.length_range']
      rw [show maxPreKeyID s + g1.length + 1 = (maxPreKeyID s + 1) + g1.length by omega,
        List.range'_append_1, Nat.add_comm g2.length]

theorem scanExistingPreKeys_ok (rows : List (Nat × Bytes)) :
    ∀ ks, scanExistingPreKeys rows = .ok ks →
      ks.map (fun k => (k.KeyID, k.Priv.val)) = rows := by
  induction rows with
  | nil =>
    intro ks h
    simp only [scanExistingPreKeys, Except.ok.injEq] at h
    subst h
    rfl
  | cons r rows ih =>
    intro ks h
    obtain ⟨id, priv⟩ := r
    by_cases hlen : priv.length = 32
    · simp only [scanExistingPreKeys, scanPreKey, dif_pos hlen] at h
      cases hrest : scanExistingPreKeys rows with
      | error e => simp [hrest] at h
      | ok ks2 =>
        simp only [hrest, Except.ok.injEq] at h
        subst h
        simp [ih ks2 hrest]
    · simp [scanExistingPreKeys, scanPreKey, dif_neg hlen] at h

theorem unuploaded_ids_pairwise_lt (jid : String) (t : List PreKeyRow)
    (hnodup : ((devicePreKeys jid t).map (fun r => r.key_id)).Nodup) :
    (((t.filter (fun r => r.jid == jid && r.uploaded == false)).insertionSort
      (fun a b => a.key_id ≤ b.key_id)).map (fun r => r.key_id)).Pairwise (· < ·) := by
  haveI : IsTotal PreKeyRow (fun a b => a.key_id ≤ b.key_id) := ⟨fun a b => Nat.le_total _ _⟩
  haveI : IsTrans PreKeyRow (fun a b => a.key_id ≤ b.key_id) :=
    ⟨fun _ _ _ h1 h2 => Nat.le_trans h1 h2⟩
  have hsorted := List.sorted_insertionSort (fun a b : PreKeyRow => a.key_id ≤ b.key_id)
    (t.filter (fun r => r.jid == jid && r.uploaded == false))
  have hle : (((t.filter (fun r => r.jid == jid && r.uploaded == false)).insertionSort
      (fun a b => a.key_id ≤ b.key_id)).map (fun r => r.key_id)).Pairwise (· ≤ ·) :=
    List.pairwise_map.mpr hsorted
  have hsub : List.Sublist (t.filter (fun r => r.jid == jid && r.uploaded == false))
      (devicePreKeys jid t) := by
    have : t.filter (fun r => r.jid == jid && r.uploaded == false) =
        (devicePreKeys jid t).filter (fun r => r.uploaded == false) := by
      simp [devicePreKeys, List.filter_filter, Bool.and_comm]
    rw [this]
    exact List.filter_sublist _
  have hnd : (((t.filter (fun r => r.jid == jid && r.uploaded == false)).insertionSort
      (fun a b => a.key_id ≤ b.key_id)).map (fun r => r.key_id)).Nodup := by
    have hperm := (List.perm_insertionSort (fun a b : PreKeyRow => a.key_id ≤ b.key_id)
      (t.filter (fun r => r.jid == jid && r.uploaded == false))).map (fun r => r.key_id)
    rw [hperm.nodup_iff]
    exact hnodup.sublist (hsub.map _)
  exact (hle.and hnd).imp (fun h => lt_of_le_of_ne h.1 h.2)

theorem getUnuploadedPreKeysQuery_length (jid : String) (limit : Nat) (t : List PreKeyRow) :
    (getUnuploadedPreKeysQuery jid limit t).length =
      min limit (t.filter (fun r => r.jid == jid && r.uploaded == false)).length := by
  simp [getUnuploadedPreKeysQuery, List.length_insertionSort]

theorem getUnuploadedPreKeysQuery_mem (jid : String) (limit : Nat) (t : List PreKeyRow) :
    ∀ p ∈ getUnuploadedPreKeysQuery jid limit t,
      ∃ r ∈ t, r.jid = jid ∧ r.uploaded = false ∧ p = (r.key_id, r.key) := by
  intro p hp
  simp only [getUnuploadedPreKeysQuery, List.mem_map] at hp
  obtain ⟨r, hr, rfl⟩ := hp
  have hr2 := (List.perm_insertionSort (fun a b : PreKeyRow => a.key_id ≤ b.key_id)
    (t.filter (fun r => r.jid == jid && r.uploaded == false))).subset (List.mem_of_mem_take hr)
  simp only [List.mem_filter, Bool.and_eq_true, beq_iff_eq] at hr2
  exact ⟨r, hr2.1, hr2.2.1, hr2.2.2, rfl⟩

theorem getUnuploadedPreKeysQuery_ids (jid : String) (limit : Nat) (t : List PreKeyRow)
    (hnodup : ((devicePreKeys jid t).map (fun r => r.key_id)).Nodup) :
    ((getUnuploadedPreKeysQuery jid limit t).map Prod.fst).Pairwise (· < ·) ∧
    ∀ r ∈ t, r.jid = jid → r.uploaded = false →
      r.key_id ∉ (getUnuploadedPreKeysQuery jid limit t).map Prod.fst →
      ∀ i ∈ (getUnuploadedPreKeysQuery jid limit t).map Prod.fst, i < r.key_id := by
  have hU := unuploaded_ids_pairwise_lt jid t hnodup
  have hperm := List.perm_insertionSort (fun a b : PreKeyRow => a.key_id ≤ b.key_id)
    (t.filter (fun r => r.jid == jid && r.uploaded == false))
  have hQ : (getUnuploadedPreKeysQuery jid limit t).map Prod.fst =
      (((t.filter (fun r => r.jid == jid && r.uploaded == false)).insertionSort
        (fun a b => a.key_id ≤ b.key_id)).take limit).map (fun r => r.key_id) := by
    simp only [getUnuploadedPreKeysQuery, List.map_map]
    rfl
  rw [hQ]
  generalize (t.filter (fun r => r.jid == jid && r.uploaded == false)).insertionSort
    (fun a b => a.key_id ≤ b.key_id) = U at hU hperm ⊢
  have hsplit : U.map (fun r => r.key_id) =
      (U.take limit).map (fun r => r.key_id) ++ (U.drop limit).map (fun r => r.key_id) := by
    rw [← List.map_append, List.take_append_drop]
  rw [hsplit, List.pairwise_append] at hU
  refine ⟨hU.1, ?_⟩
  intro r hr hj hu hnot i hi
  have hrU : r ∈ U := hperm.symm.subset (by simp [List.mem_filter, hr, hj, hu])
  rw [← List.take_append_drop limit U, List.mem_append] at hrU
  rcases hrU with hrt | hrd
  · exact absurd (List.mem_map_of_mem _ hrt) hnot
  · exact hU.2.2 i hi r.key_id (List.mem_map_of_mem _ hrd)

theorem getUnuploadedPreKeysQuery_le_max (s : SQLStore) (limit : Nat) :
    ∀ i ∈ (getUnuploadedPreKeysQuery s.JID limit s.preKeys).map Prod.fst,
      i ≤ maxPreKeyID s := by
  intro i hi
  obtain ⟨p, hp, rfl⟩ := List.mem_map.mp hi
  obtain ⟨r, hr, hj, _, rfl⟩ := getUnuploadedPreKeysQuery_mem s.JID limit s.preKeys p hp
  apply le_foldr_max
  simp only [preKeyIDs, devicePreKeys, List.mem_map, List.mem_filter, beq_iff_eq]
  exact ⟨r, ⟨hr, hj⟩, rfl⟩

/-- A prekey table that respects the primary key of `upgradeV1` holds at most
one prekey per device, so the prekey ids of a device are distinct. -/
theorem preKeyIDs_nodup_of_preKeysPK (s : SQLStore)
    (hpk : s.preKeys.Pairwise (fun a b => preKeysPK a b = false)) : (preKeyIDs s).Nodup := by
  unfold preKeyIDs devicePreKeys
  rw [List.Nodup, List.pairwise_map]
  apply (hpk.sublist (List.filter_sublist _)).imp_of_mem
  intro a b ha hb hab
  simp only [List.mem_filter, beq_iff_eq] at ha hb
  simp [preKeysPK, ha.2, hb.2] at hab

/-- A prekey table that respects a primary key on `(jid, key_id)` holds
distinct prekey ids per device. -/
theorem preKeyIDs_nodup_of_preKeysFullPK (s : SQLStore)
    (hpk : s.preKeys.Pairwise (fun a b => preKeysFullPK a b = false)) : (preKeyIDs s).Nodup := by
  unfold preKeyIDs devicePreKeys
  rw [List.Nodup, List.pairwise_map]
  apply (hpk.sublist (List.filter_sublist _)).imp_of_mem
  intro a b ha hb hab
  simp only [List.mem_filter, beq_iff_eq] at ha hb
  simpa [preKeysFullPK, ha.2, hb.2] using hab

theorem genOnePreKey_declared_eq (s : SQLStore) (priv : Bytes32) (id : Nat) (up : Bool) :
    genOnePreKey preKeysPK s priv id up =
      if devicePreKeys s.JID s.preKeys = [] then
        ({ s with preKeys := s.preKeys ++
            [{ jid := s.JID, key_id := id, key := priv.val, uploaded := up }] },
          NewPreKey priv id, none)
      else (s, NewPreKey priv id, some (.backend "Duplicate entry for key PRIMARY")) := by
  simp only [genOnePreKey, insertRow, NewPreKey]
  by_cases hdev : devicePreKeys s.JID s.preKeys = []
  · have h : ¬ s.preKeys.any
        (preKeysPK { jid := s.JID, key_id := id, key := priv.val, uploaded := up }) = true := by
      simp only [devicePreKeys, List.filter_eq_nil_iff, beq_iff_eq] at hdev
      simp only [List.any_eq_true, not_exists, not_and, preKeysPK, beq_iff_eq]
      intro r hr hj
      exact hdev r hr hj.symm
    rw [if_neg h, if_pos hdev]
  · have h : s.preKeys.any
        (preKeysPK { jid := s.JID, key_id := id, key := priv.val, uploaded := up }) = true := by
      obtain ⟨r, hr⟩ := List.exists_mem_of_ne_nil _ hdev
      simp only [devicePreKeys, List.mem_filter, beq_iff_eq] at hr
      simp only [List.any_eq_true, preKeysPK, beq_iff_eq]
      exact ⟨r, hr.1, hr.2.symm⟩
    rw [if_pos h, if_neg hdev]

theorem devicePreKeys_append_own (s : SQLStore) (r : PreKeyRow) (hr : r.jid = s.JID) :
    devicePreKeys s.JID (s.preKeys ++ [r]) ≠ [] := by
  simp [devicePreKeys, List.filter_append, hr]

theorem genPreKeysLoop_declared_rejected (rnd : Nat → Bytes32) (n i next : Nat) (s : SQLStore)
    (hdev : devicePreKeys s.JID s.preKeys ≠ []) :
    genPreKeysLoop preKeysPK rnd (n + 1) i next s =
      (s, .error (.wrapped "failed to generate prekey"
        (.backend "Duplicate entry for key PRIMARY"))) := by
  simp only [genPreKeysLoop, genOnePreKey_declared_eq, if_neg hdev]

theorem existing_nil_of_no_rows (s : SQLStore) (count : Nat) (existing : List PreKey)
    (hdev : devicePreKeys s.JID s.preKeys = [])
    (hscan : scanExistingPreKeys (getUnuploadedPreKeysQuery s.JID count s.preKeys) =
      .ok existing) : existing = [] := by
  have hQ : getUnuploadedPreKeysQuery s.JID count s.preKeys = [] := by
    rw [List.eq_nil_iff_forall_not_mem]
    intro p hp
    obtain ⟨r, hr, hj, _, _⟩ := getUnuploadedPreKeysQuery_mem s.JID count s.preKeys p hp
    have : r ∈ devicePreKeys s.JID s.preKeys := by
      simp [devicePreKeys, List.mem_filter, hr, hj]
    rw [hdev] at this
    exact absurd this (List.not_mem_nil r)
  have := scanExistingPreKeys_ok _ existing hscan
  rw [hQ] at this
  simpa using this

/-- C4. With the primary key `upgradeV1` declares for `whatsmeow_pre_keys`,
`PRIMARY KEY (jid)`, `GetOrGenPreKeys(count)` cannot store a second prekey for
a device.  For every store state whose not-yet-uploaded prekeys scan (32-byte
keys, `existing` of them within `count`) and whose ids are below `2^31`: the
call returns `count` keys only when the stored not-yet-uploaded keys suffice,
or when `count = 1` on a device without prekeys (the key of id `1` is
inserted).  In every other case it fails with the rejected `INSERT`: on a
device without prekeys after having inserted the key of id `1`, which stays
stored; on a device holding a prekey without inserting anything.  So no call
returns reused keys followed by generated ones, nor two generated keys. -/
theorem GetOrGenPreKeys_declared_key_rejects (s : SQLStore) (count : Nat)
    (rnd : Nat → Bytes32) (existing : List PreKey)
    (hscan : scanExistingPreKeys (getUnuploadedPreKeysQuery s.JID count s.preKeys) =
      .ok existing)
    (hlim : maxPreKeyID s < 2 ^ 31) :
    GetOrGenPreKeys preKeysPK s count rnd =
      if count ≤ existing.length then (s, .ok existing)
      else if devicePreKeys s.JID s.preKeys = [] then
        ({ s with preKeys := s.preKeys ++
            [{ jid := s.JID, key_id := 1, key := (rnd 0).val, uploaded := false }] },
          if count = 1 then .ok [{ KeyID := 1, Priv := rnd 0 }]
          else .error (.wrapped "failed to generate prekey"
            (.backend "Duplicate entry for key PRIMARY")))
      else (s, .error (.wrapped "failed to generate prekey"
        (.backend "Duplicate entry for key PRIMARY"))) := by
  unfold GetOrGenPreKeys
  rw [hscan]
  simp only
  by_cases hlt : existing.length < count
  · rw [if_pos hlt, if_neg (Nat.not_le.mpr hlt), getNextPreKeyID_eq, if_pos hlim]
    simp only
    by_cases hdev : devicePreKeys s.JID s.preKeys = []
    · have hex := existing_nil_of_no_rows s count existing hdev hscan
      subst hex
      rw [if_pos hdev, maxPreKeyID_of_no_rows s hdev]
      obtain ⟨n, rfl⟩ : ∃ n, count = n + 1 := ⟨count - 1, by simp at hlt; omega⟩
      simp only [List.length_nil, Nat.sub_zero, Nat.zero_add, genPreKeysLoop,
        genOnePreKey_declared_eq, if_pos hdev]
      cases n with
      | zero => simp [genPreKeysLoop, NewPreKey]
      | succ n =>
        rw [genPreKeysLoop_declared_rejected rnd n 1 ((1 + 1) % 2 ^ 32)
          { s with preKeys := s.preKeys ++
              [{ jid := s.JID, key_id := 1, key := (rnd 0).val, uploaded := false }] }
          (devicePreKeys_append_own s _ rfl)]
        simp
    · rw [if_neg hdev]
      obtain ⟨n, hn⟩ : ∃ n, count - existing.length = n + 1 :=
        ⟨count - existing.length - 1, by omega⟩
      rw [hn, genPreKeysLoop_declared_rejected rnd n existing.length (maxPreKeyID s + 1) s hdev]
  · rw [if_neg hlt, if_pos (Nat.not_lt.mp hlt)]

/-- Witness of `GetOrGenPreKeys_declared_key_rejects`: `GetOrGenPreKeys(2)` on
a device without prekeys inserts the key of id `1`, fails on the insert of the
key of id `2` and leaves the row of id `1`; `GetOrGenPreKeys(2)` on a device
whose only prekey (id `1`) is not yet uploaded, and `GetOrGenPreKeys(1)` once
that prekey is uploaded, fail without inserting. -/
theorem GetOrGenPreKeys_declared_key_rejects_witness :
    GetOrGenPreKeys preKeysPK { JID := "dev" } 2 (fun _ => bytes32 0) =
      ({ JID := "dev",
         preKeys := [{ jid := "dev", key_id := 1, key := (bytes32 0).val, uploaded := false }] },
        .error (.wrapped "failed to generate prekey"
          (.backend "Duplicate entry for key PRIMARY"))) ∧
    GetOrGenPreKeys preKeysPK storeWithUnuploadedPreKey 2 (fun _ => bytes32 0) =
      (storeWithUnuploadedPreKey, .error (.wrapped "failed to generate prekey"
        (.backend "Duplicate entry for key PRIMARY"))) ∧
    GetOrGenPreKeys preKeysPK (MarkPreKeysAsUploaded storeWithUnuploadedPreKey 1).1 1
        (fun _ => bytes32 0) =
      ((MarkPreKeysAsUploaded storeWithUnuploadedPreKey 1).1,
        .error (.wrapped "failed to generate prekey"
          (.backend "Duplicate entry for key PRIMARY"))) :=
  ⟨GetOrGenPreKeys_declared_key_rejects { JID := "dev" } 2 (fun _ => bytes32 0) [] rfl
      (by decide),
   GetOrGenPreKeys_declared_key_rejects storeWithUnuploadedPreKey 2 (fun _ => bytes32 0)
      [{ KeyID := 1, Priv := bytes32 5 }] rfl (by decide),
   GetOrGenPreKeys_declared_key_rejects (MarkPreKeysAsUploaded storeWithUnuploadedPreKey 1).1 1
      (fun _ => bytes32 0) [] rfl (by decide)⟩

/-- What `GetOrGenPreKeys(count)` returns under any primary key `pk` of the
prekey table, on a store whose prekey ids are distinct per device, when every
insert is accepted (the call returns keys) and the ids stay below `2^32`:
exactly `count` keys; the first `min(count, u)` are the rows of the
unuploaded-prekey query (`u` not-yet-uploaded prekeys of the device), which
are not-yet-uploaded prekeys of the device, have strictly ascending ids and ids
smaller than every not-yet-uploaded prekey left out; the remaining keys have
the ids `max + 1, max + 2, ...` (`max` the largest id of the device, `0`
without prekeys) and are exactly the rows appended to the table, each of the
device and not uploaded; the ids of the returned list are strictly
increasing. -/
theorem GetOrGenPreKeys_spec (pk : PreKeyRow → PreKeyRow → Bool) (s s1 : SQLStore)
    (count : Nat) (rnd : Nat → Bytes32) (keys : List PreKey)
    (hnodup : (preKeyIDs s).Nodup)
    (hok : GetOrGenPreKeys pk s count rnd = (s1, .ok keys))
    (hlim : maxPreKeyID s +
      (count - (getUnuploadedPreKeysQuery s.JID count s.preKeys).length) < 2 ^ 32) :
    keys.length = count ∧
    (getUnuploadedPreKeysQuery s.JID count s.preKeys).length =
      min count (s.preKeys.filter (fun r => r.jid == s.JID && r.uploaded == false)).length ∧
    (keys.take (getUnuploadedPreKeysQuery s.JID count s.preKeys).length).map
      (fun k => (k.KeyID, k.Priv.val)) = getUnuploadedPreKeysQuery s.JID count s.preKeys ∧
    (∀ p ∈ getUnuploadedPreKeysQuery s.JID count s.preKeys,
      ∃ r ∈ s.preKeys, r.jid = s.JID ∧ r.uploaded = false ∧ p = (r.key_id, r.key)) ∧
    (∀ r ∈ s.preKeys, r.jid = s.JID → r.uploaded = false →
      r.key_id ∉ (getUnuploadedPreKeysQuery s.JID count s.preKeys).map Prod.fst →
      ∀ i ∈ (getUnuploadedPreKeysQuery s.JID count s.preKeys).map Prod.fst, i < r.key_id) ∧
    keys.map (fun k => k.KeyID) =
      (getUnuploadedPreKeysQuery s.JID count s.preKeys).map Prod.fst ++
        List.range' (maxPreKeyID s + 1)
          (count - (getUnuploadedPreKeysQuery s.JID count s.preKeys).length) ∧
    s1 = { s with preKeys := s.preKeys ++ freshPreKeyRows s.JID rnd
                    (count - (getUnuploadedPreKeysQuery s.JID count s.preKeys).length)
                    (getUnuploadedPreKeysQuery s.JID count s.preKeys).length
                    (maxPreKeyID s + 1) } ∧
    (∀ r ∈ freshPreKeyRows s.JID rnd
        (count - (getUnuploadedPreKeysQuery s.JID count s.preKeys).length)
        (getUnuploadedPreKeysQuery s.JID count s.preKeys).length (maxPreKeyID s + 1),
      r.jid = s.JID ∧ r.uploaded = false) ∧
    (freshPreKeyRows s.JID rnd
        (count - (getUnuploadedPreKeysQuery s.JID count s.preKeys).length)
        (getUnuploadedPreKeysQuery s.JID count s.preKeys).length
        (maxPreKeyID s + 1)).map (fun r => r.key_id) =
      List.range' (maxPreKeyID s + 1)
        (count - (getUnuploadedPreKeysQuery s.JID count s.preKeys).length) ∧
    (keys.map (fun k => k.KeyID)).Pairwise (· < ·) := by
  have hlen := getUnuploadedPreKeysQuery_length s.JID count s.preKeys
  have hmem := getUnuploadedPreKeysQuery_mem s.JID count s.preKeys
  have hids := getUnuploadedPreKeysQuery_ids s.JID count s.preKeys hnodup
  have hmax := getUnuploadedPreKeysQuery_le_max s count
  have hfresh := freshPreKeyRows_ids s.JID rnd
    (count - (getUnuploadedPreKeysQuery s.JID count s.preKeys).length)
    (getUnuploadedPreKeysQuery s.JID count s.preKeys).length (maxPreKeyID s + 1) (by omega)
  have hscanok := scanExistingPreKeys_ok (getUnuploadedPreKeysQuery s.JID count s.preKeys)
  unfold GetOrGenPreKeys at hok
  generalize getUnuploadedPreKeysQuery s.JID count s.preKeys = Q at *
  have hkeys : keys.length = count ∧
      (keys.take Q.length).map (fun k => (k.KeyID, k.Priv.val)) = Q ∧
      keys.map (fun k => k.KeyID) =
        Q.map Prod.fst ++ List.range' (maxPreKeyID s + 1) (count - Q.length) ∧
      s1 = { s with preKeys := s.preKeys ++
                      freshPreKeyRows s.JID rnd (count - Q.length) Q.length
                        (maxPreKeyID s + 1) } := by
    cases hscan : scanExistingPreKeys Q with
    | error e => simp [hscan] at hok
    | ok existing =>
      have hex := hscanok existing hscan
      have hexlen : existing.length = Q.length := by rw [← hex, List.length_map]
      have hexids : existing.map (fun k => k.KeyID) = Q.map Prod.fst := by
        rw [← hex, List.map_map]
        rfl
      simp only [hscan] at hok
      by_cases hlt : existing.length < count
      · rw [if_pos hlt, getNextPreKeyID_eq] at hok
        by_cases h31 : maxPreKeyID s < 2 ^ 31
        · simp only [if_pos h31] at hok
          obtain ⟨k, _, hst, hres⟩ := genPreKeysLoop_spec pk rnd (count - existing.length)
            existing.length (maxPreKeyID s + 1) s
          generalize genPreKeysLoop pk rnd (count - existing.length) existing.length
            (maxPreKeyID s + 1) s = res at hok hst hres
          obtain ⟨s2, r2⟩ := res
          cases r2 with
          | error e => simp at hok
          | ok fresh =>
            simp only [Prod.mk.injEq, Except.ok.injEq] at hok
            obtain ⟨hs, hk⟩ := hok
            obtain ⟨hkn, hmap⟩ := hres fresh rfl
            subst hkn
            have hfl : fresh.length = count - existing.length := by
              have := congrArg List.length hmap
              simpa [freshPreKeyRows_length] using this
            have hfids : fresh.map (fun k => k.KeyID) =
                (freshPreKeyRows s.JID rnd (count - existing.length) existing.length
                  (maxPreKeyID s + 1)).map (fun r => r.key_id) := by
              have := congrArg (List.map Prod.fst) hmap
              simpa [List.map_map, Function.comp_def] using this
            rw [hexlen] at hfids hfl hst
            subst hk
            refine ⟨?_, ?_, ?_, ?_⟩
            · rw [List.length_append, hfl, hexlen]
              omega
            · rw [← hexlen, List.take_left', hex]
              rfl
            · rw [List.map_append, hexids, hfids, hfresh]
            · rw [← hs]
              exact hst
        · have h31n : ¬ maxPreKeyID s < 2147483648 := h31
          simp [if_neg h31n] at hok
      · rw [if_neg hlt] at hok
        simp only [Prod.mk.injEq, Except.ok.injEq] at hok
        obtain ⟨hs, hk⟩ := hok
        subst hk
        have hQc : Q.length = count := by
          rw [hlen] at hexlen ⊢
          omega
        have h0 : count - Q.length = 0 := by omega
        refine ⟨by omega, ?_, ?_, ?_⟩
        · rw [← hexlen, List.take_length, hex]
        · rw [h0, hexids]
          simp
        · rw [h0, ← hs]
          simp [freshPreKeyRows]
  obtain ⟨hk1, hk2, hk3, hk4⟩ := hkeys
  refine ⟨hk1, hlen, hk2, hmem, hids.2, hk3, hk4, ?_, hfresh, ?_⟩
  · exact freshPreKeyRows_mem _ _ _ _ _
  · rw [hk3, List.pairwise_append]
    refine ⟨hids.1, List.pairwise_lt_range' _ _, ?_⟩
    intro i hi j hj
    have h1 := hmax i hi
    rw [List.mem_range'_1] at hj
    omega

/-- `GetOrGenPreKeys(3)` under a primary key on `(jid, key_id)`, on a device
whose only prekey (id `1`) is not uploaded: the key of id `1` is reused and
the keys of ids `2` and `3` are inserted. -/
theorem GetOrGenPreKeys_reuse_then_generate :
    (GetOrGenPreKeys preKeysFullPK storeWithUnuploadedPreKey 3 (fun _ => bytes32 0)).2 =
      .ok [{ KeyID := 1, Priv := bytes32 5 }, { KeyID := 2, Priv := bytes32 0 },
        { KeyID := 3, Priv := bytes32 0 }] := by
  rfl

/-- C5, as stated, fails: with the primary key of `upgradeV1`, on a device
without prekeys, `GenOnePreKey`, `RemovePreKey(1)`, `GenOnePreKey` generates
the id `1` twice, so the generated ids are not strictly increasing. -/
theorem generatedIDs_repeat_after_remove :
    generatedIDs preKeysPK { JID := "dev" }
      [.genOne (bytes32 1), .remove 1, .genOne (bytes32 2)] = [1, 1] ∧
    ¬ (generatedIDs preKeysPK { JID := "dev" }
      [.genOne (bytes32 1), .remove 1, .genOne (bytes32 2)]).Pairwise (· < ·) := by
  decide

/-- C5, amended. With the primary key of `upgradeV1`, and for every primary
key `pk` as long as the ids stay below `2^32`: after any calls `pre` of the four
prekey methods, every prekey id a call generates is strictly greater than every
prekey id the device holds at that moment; and over calls `ops` without
`RemovePreKey`, every generated id is strictly greater than every id generated
earlier and every id held before the calls, so no id is allocated twice. -/
theorem generatedIDs_increasing_without_remove (pk : PreKeyRow → PreKeyRow → Bool)
    (s : SQLStore) (pre ops : List PreKeyOp) (op : PreKeyOp)
    (hops : ∀ o ∈ ops, o.isRemove = false)
    (hlim : pk = preKeysPK ∨
      (maxPreKeyID (runPreKeyOps pk s pre) +
          (generatedBy pk (runPreKeyOps pk s pre) op).length < 2 ^ 32 ∧
        maxPreKeyID s + (generatedIDs pk s ops).length < 2 ^ 32)) :
    (∀ i ∈ generatedBy pk (runPreKeyOps pk s pre) op,
      ∀ j ∈ preKeyIDs (runPreKeyOps pk s pre), j < i) ∧
    (generatedIDs pk s ops).Pairwise (· < ·) ∧
    (generatedIDs pk s ops).Nodup ∧
    (∀ i ∈ generatedIDs pk s ops, ∀ j ∈ preKeyIDs s, j < i) := by
  have hgen := generatedIDs_consecutive pk ops s hops (hlim.imp id (fun h => h.2))
  have hpw : (generatedIDs pk s ops).Pairwise (· < ·) := by
    rw [hgen]
    exact List.pairwise_lt_range' _ _
  refine ⟨?_, hpw, hpw.imp (fun h => Nat.ne_of_lt h), ?_⟩
  · intro i hi j hj
    have hj' := le_foldr_max _ j hj
    cases hop : op.isRemove with
    | true =>
      cases op <;> simp [PreKeyOp.isRemove] at hop
      simp [generatedBy] at hi
    | false =>
      have hlimop : maxPreKeyID (runPreKeyOps pk s pre) +
          (generatedBy pk (runPreKeyOps pk s pre) op).length < 2 ^ 32 := by
        rcases hlim with hpk | hl
        · subst hpk
          rcases generatedBy_declared (runPreKeyOps preKeysPK s pre) op with hnil | hl
          · rw [hnil] at hi
            simp at hi
          · exact hl
        · exact hl.1
      obtain ⟨_, hstep⟩ := generatedBy_step pk (runPreKeyOps pk s pre) op hop
      have h1 := (hstep hlimop).1
      rw [h1, List.mem_range'_1] at hi
      have : maxPreKeyID (runPreKeyOps pk s pre) =
          (preKeyIDs (runPreKeyOps pk s pre)).foldr max 0 := rfl
      omega
  · intro i hi j hj
    have hj' := le_foldr_max _ j hj
    rw [hgen, List.mem_range'_1] at hi
    have : maxPreKeyID s = (preKeyIDs s).foldr max 0 := rfl
    omega

/-- Witness of `generatedIDs_increasing_without_remove`.  With the primary key
of `upgradeV1`: after `GenOnePreKey` and `RemovePreKey(1)`, the id generated by
`GetOrGenPreKeys(1)` exceeds every id held.  Under a primary key on
`(jid, key_id)`: `GetOrGenPreKeys(3)`, `MarkPreKeysAsUploaded(2)`,
`GenOnePreKey`, on a device holding the prekey of id `1`, generate strictly
increasing ids. -/
theorem generatedIDs_increasing_without_remove_witness :
    (∀ i ∈ generatedBy preKeysPK
        (runPreKeyOps preKeysPK { JID := "dev" } [.genOne (bytes32 1), .remove 1])
        (.getOrGen 1 (fun _ => bytes32 0)),
      ∀ j ∈ preKeyIDs (runPreKeyOps preKeysPK { JID := "dev" }
        [.genOne (bytes32 1), .remove 1]), j < i) ∧
    (generatedIDs preKeysFullPK storeWithUnuploadedPreKey
      [.getOrGen 3 (fun _ => bytes32 0), .markUploaded 2, .genOne (bytes32 1)]).Pairwise
        (· < ·) :=
  ⟨(generatedIDs_increasing_without_remove preKeysPK { JID := "dev" }
      [.genOne (bytes32 1), .remove 1] [] (.getOrGen 1 (fun _ => bytes32 0))
      (by decide) (Or.inl rfl)).1,
   (generatedIDs_increasing_without_remove preKeysFullPK storeWithUnuploadedPreKey
      [] [.getOrGen 3 (fun _ => bytes32 0), .markUploaded 2, .genOne (bytes32 1)]
      (.remove 1) (by decide) (Or.inr (by decide))).2.1⟩

/-- C6. With the primary key of `upgradeV1`, and for every primary key `pk` as
long as the ids stay below `2^32`: for every store state and every sequence of
`GetOrGenPreKeys` calls on one device, the ids of the keys the calls insert
are, in order, exactly `m + 1, m + 2, ..., m + g`, where `m` is the largest id
of the device before the first call (`0` without prekeys) and `g` the number
of keys inserted; so they are strictly increasing, without gaps and without
repeats. -/
theorem GetOrGenPreKeys_sequence_ids (pk : PreKeyRow → PreKeyRow → Bool) (s : SQLStore)
    (calls : List (Nat × (Nat → Bytes32)))
    (hlim : pk = preKeysPK ∨ maxPreKeyID s +
      (generatedIDs pk s (calls.map (fun c => PreKeyOp.getOrGen c.1 c.2))).length < 2 ^ 32) :
    generatedIDs pk s (calls.map (fun c => PreKeyOp.getOrGen c.1 c.2)) =
      List.range' (maxPreKeyID s + 1)
        (generatedIDs pk s (calls.map (fun c => PreKeyOp.getOrGen c.1 c.2))).length ∧
    (generatedIDs pk s (calls.map (fun c => PreKeyOp.getOrGen c.1 c.2))).Pairwise (· < ·) ∧
    (generatedIDs pk s (calls.map (fun c => PreKeyOp.getOrGen c.1 c.2))).Nodup := by
  have hops : ∀ o ∈ calls.map (fun c => PreKeyOp.getOrGen c.1 c.2), o.isRemove = false := by
    intro o ho
    obtain ⟨c, _, rfl⟩ := List.mem_map.mp ho
    rfl
  have hgen := generatedIDs_consecutive pk _ s hops hlim
  have hpw : (generatedIDs pk s
      (calls.map (fun c => PreKeyOp.getOrGen c.1 c.2))).Pairwise (· < ·) := by
    rw [hgen]
    exact List.pairwise_lt_range' _ _
  exact ⟨hgen, hpw, hpw.imp (fun h => Nat.ne_of_lt h)⟩

/-- Witness of `GetOrGenPreKeys_sequence_ids`.  With the primary key of
`upgradeV1`, on a device without prekeys, `GetOrGenPreKeys(1)` twice inserts
one key, of id `1`; under a primary key on `(jid, key_id)`, on a device holding
the prekey of id `1`, the calls for 3, 2 and 5 keys insert the ids
`2, 3, 4, 5`. -/
theorem GetOrGenPreKeys_sequence_ids_witness :
    generatedIDs preKeysPK { JID := "dev" }
      ([(1, fun _ => bytes32 0), (1, fun _ => bytes32 1)].map
        (fun c => PreKeyOp.getOrGen c.1 c.2)) = List.range' 1 1 ∧
    generatedIDs preKeysFullPK storeWithUnuploadedPreKey
      ([(3, fun _ => bytes32 0), (2, fun _ => bytes32 0), (5, fun _ => bytes32 0)].map
        (fun c => PreKeyOp.getOrGen c.1 c.2)) = List.range' 2 4 :=
  ⟨(GetOrGenPreKeys_sequence_ids preKeysPK { JID := "dev" }
      [(1, fun _ => bytes32 0), (1, fun _ => bytes32 1)] (Or.inl rfl)).1,
   (GetOrGenPreKeys_sequence_ids preKeysFullPK storeWithUnuploadedPreKey
      [(3, fun _ => bytes32 0), (2, fun _ => bytes32 0), (5, fun _ => bytes32 0)]
      (Or.inr (by decide))).1⟩

/-- Three `GetOrGenPreKeys` calls under a primary key on `(jid, key_id)`, on a
device whose only prekey (id `1`) is not uploaded: the calls for 3, 2 and 5
keys insert the ids `2, 3` and then `4, 5`. -/
theorem GetOrGenPreKeys_sequence_example :
    generatedIDs preKeysFullPK storeWithUnuploadedPreKey
      [.getOrGen 3 (fun _ => bytes32 0), .getOrGen 2 (fun _ => bytes32 0),
        .getOrGen 5 (fun _ => bytes32 0)] = [2, 3, 4, 5] := by
  decide

/-- C7, as stated, fails: on a device whose only prekey (id `1`, generated by
`GetOrGenPreKeys(1)` on an empty database) is not uploaded,
`GetOrGenPreKeys(1)` returns the stored key of id `1`, while
`GenOnePreKey` returns a key of id `2`.  With the primary key of `upgradeV1`
the insert of that key is rejected; under a primary key on `(jid, key_id)` it
is stored, uploaded, with id `2`. -/
theorem GenOnePreKey_differs_from_GetOrGenPreKeys_one :
    storeWithUnuploadedPreKey.preKeys =
      [{ jid := "dev", key_id := 1, key := (bytes32 5).val, uploaded := false }] ∧
    (GetOrGenPreKeys preKeysPK storeWithUnuploadedPreKey 1 (fun _ => bytes32 6)).2 =
      .ok [{ KeyID := 1, Priv := bytes32 5 }] ∧
    (GenOnePreKey preKeysPK storeWithUnuploadedPreKey (bytes32 6)).2 =
      (some { KeyID := 2, Priv := bytes32 6 },
        some (.backend "Duplicate entry for key PRIMARY")) ∧
    (GenOnePreKey preKeysPK storeWithUnuploadedPreKey (bytes32 6)).1 =
      storeWithUnuploadedPreKey ∧
    (GetOrGenPreKeys preKeysFullPK storeWithUnuploadedPreKey 1 (fun _ => bytes32 6)).2 =
      .ok [{ KeyID := 1, Priv := bytes32 5 }] ∧
    GenOnePreKey preKeysFullPK storeWithUnuploadedPreKey (bytes32 6) =
      ({ JID := "dev",
         preKeys := [{ jid := "dev", key_id := 1, key := (bytes32 5).val, uploaded := false },
           { jid := "dev", key_id := 2, key := (bytes32 6).val, uploaded := true }] },
        some { KeyID := 2, Priv := bytes32 6 }, none) :=
  ⟨rfl, rfl, rfl, rfl, rfl, rfl⟩

theorem getUnuploadedPreKeysQuery_one (jid : String) (t : List PreKeyRow)
    (hex : ∃ r ∈ t, r.jid = jid ∧ r.uploaded = false) :
    ∃ r0 ∈ t, r0.jid = jid ∧ r0.uploaded = false ∧
      getUnuploadedPreKeysQuery jid 1 t = [(r0.key_id, r0.key)] ∧
      ∀ r ∈ t, r.jid = jid → r.uploaded = false → r0.key_id ≤ r.key_id := by
  haveI : IsTotal PreKeyRow (fun a b => a.key_id ≤ b.key_id) := ⟨fun a b => Nat.le_total _ _⟩
  haveI : IsTrans PreKeyRow (fun a b => a.key_id ≤ b.key_id) :=
    ⟨fun _ _ _ h1 h2 => Nat.le_trans h1 h2⟩
  have hsorted := List.sorted_insertionSort (fun a b : PreKeyRow => a.key_id ≤ b.key_id)
    (t.filter (fun r => r.jid == jid && r.uploaded == false))
  have hperm := List.perm_insertionSort (fun a b : PreKeyRow => a.key_id ≤ b.key_id)
    (t.filter (fun r => r.jid == jid && r.uploaded == false))
  unfold getUnuploadedPreKeysQuery
  generalize (t.filter (fun r => r.jid == jid && r.uploaded == false)).insertionSort
    (fun a b => a.key_id ≤ b.key_id) = U at hsorted hperm
  have hmemU : ∀ r, r ∈ U ↔ (r ∈ t ∧ r.jid = jid ∧ r.uploaded = false) := by
    intro r
    rw [hperm.mem_iff]
    simp [List.mem_filter, and_assoc]
  cases U with
  | nil =>
    obtain ⟨r, hr, hj, hu⟩ := hex
    exact absurd ((hmemU r).mpr ⟨hr, hj, hu⟩) (List.not_mem_nil r)
  | cons u0 rest =>
    obtain ⟨h0t, h0j, h0u⟩ := (hmemU u0).mp (List.mem_cons_self u0 rest)
    refine ⟨u0, h0t, h0j, h0u, by simp, ?_⟩
    intro r hr hj hu
    rcases List.mem_cons.mp ((hmemU r).mpr ⟨hr, hj, hu⟩) with rfl | hrest
    · exact Nat.le_refl _
    · exact List.rel_of_sorted_cons hsorted r hrest

theorem any_pk_congr (pk : PreKeyRow → PreKeyRow → Bool)
    (hpk : ∀ (a b : PreKeyRow) (key : Bytes) (up : Bool),
      pk { a with key := key, uploaded := up } b = pk a b)
    (t : List PreKeyRow) (jid : String) (id : Nat) (k1 : Bytes) (u1 : Bool) (k2 : Bytes)
    (u2 : Bool) :
    t.any (pk { jid := jid, key_id := id, key := k1, uploaded := u1 }) =
      t.any (pk { jid := jid, key_id := id, key := k2, uploaded := u2 }) := by
  have hfun : pk { jid := jid, key_id := id, key := k1, uploaded := u1 } =
      pk { jid := jid, key_id := id, key := k2, uploaded := u2 } := by
    funext b
    exact hpk { jid := jid, key_id := id, key := k2, uploaded := u2 } b k1 u1
  rw [hfun]

/-- C7, amended. `GenOnePreKey` never reuses a stored prekey.  For every
primary key `pk` over the columns `jid` and `key_id` (the one of `upgradeV1`
among them) and every store state with ids below `2^31`: the key `GenOnePreKey`
returns has the largest id of the device plus one (`1` without prekeys), and
when its insert is accepted that key is stored with `uploaded = true`.  When
the device has no not-yet-uploaded prekey, `GetOrGenPreKeys(1)` stores (with
`uploaded = false`) and returns a key of that same id exactly when the insert
of `GenOnePreKey` is accepted.  When the device has a not-yet-uploaded prekey,
`GetOrGenPreKeys(1)` inserts nothing and returns the stored not-yet-uploaded
prekey of smallest id, which is smaller than the id `GenOnePreKey` returns
(or `ErrInvalidLength`, when the stored key has not 32 bytes). -/
theorem GenOnePreKey_allocates_without_reuse (pk : PreKeyRow → PreKeyRow → Bool)
    (s : SQLStore) (priv : Bytes32) (rnd : Nat → Bytes32)
    (hpk : ∀ (a b : PreKeyRow) (key : Bytes) (up : Bool),
      pk { a with key := key, uploaded := up } b = pk a b)
    (hlim : maxPreKeyID s < 2 ^ 31) :
    (GenOnePreKey pk s priv).2.1 = some { KeyID := maxPreKeyID s + 1, Priv := priv } ∧
    ((GenOnePreKey pk s priv).2.2 = none →
      (GenOnePreKey pk s priv).1 = { s with preKeys := s.preKeys ++
        [{ jid := s.JID, key_id := maxPreKeyID s + 1, key := priv.val, uploaded := true }] }) ∧
    ((∀ r ∈ s.preKeys, r.jid = s.JID → r.uploaded = true) →
      ((GenOnePreKey pk s priv).2.2 = none ↔
        GetOrGenPreKeys pk s 1 rnd =
          ({ s with preKeys := s.preKeys ++
              [{ jid := s.JID, key_id := maxPreKeyID s + 1, key := (rnd 0).val,
                 uploaded := false }] },
            .ok [{ KeyID := maxPreKeyID s + 1, Priv := rnd 0 }]))) ∧
    ((∃ r ∈ s.preKeys, r.jid = s.JID ∧ r.uploaded = false) →
      ∃ r0 ∈ s.preKeys, r0.jid = s.JID ∧ r0.uploaded = false ∧
        (∀ r ∈ s.preKeys, r.jid = s.JID → r.uploaded = false → r0.key_id ≤ r.key_id) ∧
        r0.key_id < maxPreKeyID s + 1 ∧
        (∀ h : r0.key.length = 32,
          GetOrGenPreKeys pk s 1 rnd = (s, .ok [{ KeyID := r0.key_id, Priv := ⟨r0.key, h⟩ }])) ∧
        (r0.key.length ≠ 32 →
          GetOrGenPreKeys pk s 1 rnd = (s, .error .ErrInvalidLength))) := by
  have hany := any_pk_congr pk hpk s.preKeys s.JID (maxPreKeyID s + 1) (rnd 0).val false
    priv.val true
  refine ⟨?_, ?_, ?_, ?_⟩
  · unfold GenOnePreKey
    rw [getNextPreKeyID_eq, if_pos hlim]
    rcases genOnePreKey_cases pk s priv (maxPreKeyID s + 1) true with hok | ⟨e, herr⟩
    · simp [hok, NewPreKey]
    · simp [herr, NewPreKey]
  · intro hgen
    unfold GenOnePreKey at hgen ⊢
    rw [getNextPreKeyID_eq, if_pos hlim] at hgen ⊢
    rcases genOnePreKey_cases pk s priv (maxPreKeyID s + 1) true with hok | ⟨e, herr⟩
    · simp [hok]
    · simp [herr] at hgen
  · intro hnone
    have hQ : getUnuploadedPreKeysQuery s.JID 1 s.preKeys = [] := by
      have hf : s.preKeys.filter (fun r => r.jid == s.JID && r.uploaded == false) = [] := by
        rw [List.filter_eq_nil_iff]
        intro r hr
        simp only [Bool.and_eq_true, beq_iff_eq, not_and]
        intro hj
        simp [hnone r hr hj]
      unfold getUnuploadedPreKeysQuery
      rw [hf]
      rfl
    unfold GetOrGenPreKeys GenOnePreKey
    rw [hQ, getNextPreKeyID_eq, if_pos hlim]
    simp only [scanExistingPreKeys, List.length_nil, Nat.lt_one_iff, if_true, Nat.sub_zero,
      genPreKeysLoop, genOnePreKey, insertRow, NewPreKey, hany]
    generalize s.preKeys.any _ = c
    cases c <;> simp
  · intro hex
    obtain ⟨r0, h0t, h0j, h0u, hq, hmin⟩ := getUnuploadedPreKeysQuery_one s.JID s.preKeys hex
    have hle : r0.key_id ≤ maxPreKeyID s := by
      apply getUnuploadedPreKeysQuery_le_max s 1
      rw [hq]
      simp
    refine ⟨r0, h0t, h0j, h0u, hmin, by omega, ?_, ?_⟩
    · intro h
      unfold GetOrGenPreKeys
      rw [hq]
      simp [scanExistingPreKeys, scanPreKey, h]
    · intro h
      unfold GetOrGenPreKeys
      rw [hq]
      simp [scanExistingPreKeys, scanPreKey, h]

/-- Witness of `GenOnePreKey_allocates_without_reuse`, with the primary key of
`upgradeV1`.  On a device whose only prekey (id `1`) is not yet uploaded,
`GenOnePreKey` returns the key of id `2` while `GetOrGenPreKeys(1)` returns the
stored key of id `1`; on a device without prekeys `GenOnePreKey` stores the key
of id `1` with `uploaded = true` and `GetOrGenPreKeys(1)` stores and returns a
key of id `1`. -/
theorem GenOnePreKey_allocates_without_reuse_witness :
    (GenOnePreKey preKeysPK storeWithUnuploadedPreKey (bytes32 6)).2.1 =
      some { KeyID := 2, Priv := bytes32 6 } ∧
    GetOrGenPreKeys preKeysPK storeWithUnuploadedPreKey 1 (fun _ => bytes32 0) =
      (storeWithUnuploadedPreKey, .ok [{ KeyID := 1, Priv := bytes32 5 }]) ∧
    GenOnePreKey preKeysPK { JID := "dev" } (bytes32 6) =
      ({ JID := "dev",
         preKeys := [{ jid := "dev", key_id := 1, key := (bytes32 6).val, uploaded := true }] },
        some { KeyID := 1, Priv := bytes32 6 }, none) ∧
    GetOrGenPreKeys preKeysPK { JID := "dev" } 1 (fun _ => bytes32 0) =
      ({ JID := "dev",
         preKeys := [{ jid := "dev", key_id := 1, key := (bytes32 0).val, uploaded := false }] },
        .ok [{ KeyID := 1, Priv := bytes32 0 }]) :=
  ⟨(GenOnePreKey_allocates_without_reuse preKeysPK storeWithUnuploadedPreKey (bytes32 6)
      (fun _ => bytes32 0) (fun _ _ _ _ => rfl) (by decide)).1,
   rfl, rfl,
   ((GenOnePreKey_allocates_without_reuse preKeysPK { JID := "dev" } (bytes32 6)
      (fun _ => bytes32 0) (fun _ _ _ _ => rfl) (by decide)).2.2.1 (by decide)).mp rfl⟩

/-! ## Batches -/

theorem batchSlice_eq {α : Type} (size i : Nat) (items : List α) :
    batchSlice size i items = (items.drop i).take size := by
  unfold batchSlice
  split
  · rfl
  · rename_i h
    rw [List.take_of_length_le]
    rw [List.length_drop]
    omega

theorem batchSlicesFrom_join {α : Type} (size : Nat) (items : List α) (hsize : 0 < size)
    (fuel : Nat) : ∀ i, items.length - i ≤ fuel →
      (batchSlicesFrom size items fuel i).flatten = items.drop i := by
  induction fuel with
  | zero =>
    intro i h
    simp only [batchSlicesFrom, List.flatten_nil]
    rw [List.drop_of_length_le (by omega)]
  | succ fuel ih =>
    intro i h
    simp only [batchSlicesFrom]
    split
    · rw [List.flatten_cons, ih (i + size) (by omega), batchSlice_eq]
      rw [← List.drop_drop]
      exact List.take_append_drop size (items.drop i)
    · rw [List.flatten_nil, List.drop_of_length_le (by omega)]

theorem batchSlicesFrom_mem {α : Type} (size : Nat) (items : List α) (hsize : 0 < size)
    (fuel : Nat) : ∀ i, ∀ c ∈ batchSlicesFrom size items fuel i,
      c ≠ [] ∧ c.length ≤ size := by
  induction fuel with
  | zero => intro i c hc; simp [batchSlicesFrom] at hc
  | succ fuel ih =>
    intro i c hc
    simp only [batchSlicesFrom] at hc
    split at hc
    · rename_i hi
      rcases List.mem_cons.mp hc with rfl | hc
      · rw [batchSlice_eq]
        constructor
        · intro hnil
          have hl := congrArg List.length hnil
          simp only [List.length_take, List.length_drop, List.length_nil] at hl
          omega
        · simp only [List.length_take]
          exact Nat.min_le_left _ _
      · exact ih _ c hc
    · simp at hc

theorem batchSlicesFrom_length {α : Type} (size : Nat) (items : List α) (hsize : 0 < size)
    (fuel : Nat) : ∀ i, items.length - i ≤ fuel →
      (batchSlicesFrom size items fuel i).length = (items.length - i + size - 1) / size := by
  induction fuel with
  | zero =>
    intro i h
    have h0 : items.length - i = 0 := by omega
    simp only [batchSlicesFrom, List.length_nil, h0, Nat.zero_add]
    exact (Nat.div_eq_of_lt (by omega)).symm
  | succ fuel ih =>
    intro i h
    simp only [batchSlicesFrom]
    split
    · rename_i hi
      rw [List.length_cons, ih (i + size) (by omega)]
      by_cases hge : size ≤ items.length - i
      · have : items.length - i + size - 1 = (items.length - (i + size) + size - 1) + size := by
          omega
        rw [this, Nat.add_div_right _ hsize]
      · have h1 : items.length - (i + size) = 0 := by omega
        have h2 : (items.length - (i + size) + size - 1) / size = 0 := by
          rw [h1, Nat.zero_add]
          exact Nat.div_eq_of_lt (by omega)
        have h3 : (items.length - i + size - 1) / size = 1 := by
          apply Nat.div_eq_of_lt_le <;> omega
        rw [h2, h3]
    · have h0 : items.length - i = 0 := by omega
      simp only [List.length_nil, h0, Nat.zero_add]
      exact (Nat.div_eq_of_lt (by omega)).symm

theorem batchSlices_spec {α : Type} (size : Nat) (items : List α) (hsize : 0 < size) :
    (batchSlices size items).flatten = items ∧
    (∀ c ∈ batchSlices size items, c ≠ [] ∧ c.length ≤ size) ∧
    (batchSlices size items).length = (items.length + size - 1) / size := by
  refine ⟨?_, batchSlicesFrom_mem size items hsize _ 0, ?_⟩
  · have := batchSlicesFrom_join size items hsize items.length 0 (by omega)
    simpa [batchSlices] using this
  · have := batchSlicesFrom_length size items hsize items.length 0 (by omega)
    simpa [batchSlices] using this

theorem batchSlices_single {α : Type} (size : Nat) (items : List α)
    (hpos : 0 < items.length) (hle : items.length ≤ size) :
    batchSlices size items = [items] := by
  unfold batchSlices
  cases hlen : items.length with
  | zero => omega
  | succ n =>
    simp only [batchSlicesFrom, Nat.zero_add]
    rw [if_pos (by omega), batchSlice_eq, List.drop_zero, List.take_of_length_le hle]
    congr 1
    cases n with
    | zero => rfl
    | succ n =>
      simp only [batchSlicesFrom]
      rw [if_neg (by omega)]

theorem execBatches_eq_execAll {σ α : Type} (B : Backend σ) (mk : List α → Stmt) (size : Nat)
    (items : List α) (fuel : Nat) : ∀ i tx,
      execBatches B mk size items fuel i tx =
        execAll B ((batchSlicesFrom size items fuel i).map mk) tx := by
  induction fuel with
  | zero => intro i tx; rfl
  | succ fuel ih =>
    intro i tx
    simp only [execBatches, batchSlicesFrom]
    split
    · simp only [List.map_cons, execAll]
      cases B.exec tx (mk (batchSlice size i items)) with
      | error err => rfl
      | ok tx1 =>
        simp only
        rw [ih]
    · rfl

theorem execStmts_append (l1 l2 : List Call) :
    execStmts (l1 ++ l2) = execStmts l1 ++ execStmts l2 := by
  induction l1 with
  | nil => rfl
  | cons c l1 ih =>
    cases c <;> simp [execStmts, ih]

theorem execStmts_transaction (log : List Call) (last : Call)
    (hlast : last = .commit ∨ last = .rollback) :
    execStmts (.begin :: log ++ [last]) = execStmts log := by
  have h1 : execStmts (.begin :: (log ++ [last])) = execStmts (log ++ [last]) := rfl
  rw [List.cons_append, h1, execStmts_append]
  rcases hlast with rfl | rfl <;> simp [execStmts]

theorem execAll_log {σ : Type} (B : Backend σ) (stmts : List Stmt) : ∀ db : σ,
    List.IsPrefix (execStmts (execAll B stmts db).2) stmts ∧
    (∀ tx, (execAll B stmts db).1 = .ok tx → execStmts (execAll B stmts db).2 = stmts) := by
  induction stmts with
  | nil => intro db; simp [execAll, execStmts]
  | cons st rest ih =>
    intro db
    simp only [execAll]
    cases hst : B.exec db st with
    | error err =>
      refine ⟨?_, ?_⟩
      · simp [execStmts]
      · intro tx h
        simp at h
    | ok db1 =>
      simp only
      obtain ⟨hp, hall⟩ := ih db1
      refine ⟨?_, ?_⟩
      · simp only [execStmts]
        exact (List.prefix_cons_inj st).mpr hp
      · intro tx h
        simp only [execStmts]
        rw [hall tx h]

theorem execAll_error {σ : Type} (B : Backend σ) (stmts : List Stmt) : ∀ (db : σ) (e : Error),
    (execAll B stmts db).1 = .error e →
    ∃ pre st post tx, stmts = pre ++ st :: post ∧ (execAll B pre db).1 = .ok tx ∧
      B.exec tx st = .error e ∧ (execAll B stmts db).2 = pre.map Call.exec ++ [.exec st] := by
  induction stmts with
  | nil => intro db e h; simp [execAll] at h
  | cons st rest ih =>
    intro db e h
    simp only [execAll] at h ⊢
    cases hst : B.exec db st with
    | error err =>
      simp only [hst, Except.error.injEq] at h
      subst h
      exact ⟨[], st, rest, db, rfl, rfl, hst, rfl⟩
    | ok db1 =>
      simp only [hst] at h
      obtain ⟨pre, st2, post, tx, hsplit, hpre, hfail, hlog⟩ := ih db1 e h
      refine ⟨st :: pre, st2, post, tx, by rw [hsplit]; rfl, ?_, hfail, ?_⟩
      · simp only [execAll, hst]
        exact hpre
      · simp only [hlog]
        rfl

theorem mutationValues_length (jid name : String) (version : Nat)
    (mutations : List AppStateMutationMAC) :
    (mutationValues jid name version mutations).length = 3 + 2 * mutations.length := by
  unfold mutationValues
  induction mutations with
  | nil => rfl
  | cons m rest ih =>
    simp only [List.flatMap_cons, List.length_append, List.length_cons, List.length_nil] at ih ⊢
    omega

theorem contactBatch_values_length (IsEmpty : JID → Bool) (syn : String)
    (contacts : List ContactEntry) : ∀ b : ContactBatch,
    (contacts.foldl (contactBatchStep IsEmpty syn) b).values.length ≤
      b.values.length + 3 * contacts.length := by
  induction contacts with
  | nil => intro b; simp
  | cons c rest ih =>
    intro b
    simp only [List.foldl_cons, List.length_cons]
    have hstep : (contactBatchStep IsEmpty syn b c).values.length ≤ b.values.length + 3 := by
      unfold contactBatchStep
      split
      · simp
      · split <;> simp
    have := ih (contactBatchStep IsEmpty syn b c)
    omega

theorem putContactNamesBatch_args_length (IsEmpty : JID → Bool) (dialect jid : String)
    (contacts : List ContactEntry) :
    (putContactNamesBatch IsEmpty dialect jid contacts).args.length ≤
      1 + 3 * contacts.length := by
  have := contactBatch_values_length IsEmpty (contactPlaceholderSyntax dialect) contacts
    { i := 0, handledContacts := [], values := [.text jid], queryParts := [], warnings := [] }
  simpa [putContactNamesBatch, contactBatch] using this

theorem PutAppStateMutationMACs_stmts {σ : Type} (B : Backend σ) (dialect jid : String) (db : σ)
    (name : String) (version : Nat) (mutations : List AppStateMutationMAC) :
    List.IsPrefix (execStmts (PutAppStateMutationMACs B dialect jid db name version mutations).2.2)
      ((batchSlices mutationBatchSize mutations).map
        (putAppStateMutationMACs dialect jid name version)) ∧
    ((PutAppStateMutationMACs B dialect jid db name version mutations).2.1 = none →
      execStmts (PutAppStateMutationMACs B dialect jid db name version mutations).2.2 =
        (batchSlices mutationBatchSize mutations).map
          (putAppStateMutationMACs dialect jid name version)) := by
  unfold PutAppStateMutationMACs
  by_cases hbig : mutations.length > mutationBatchSize
  · rw [if_pos hbig]
    cases hb : B.beginErr db with
    | some err => simp [execStmts]
    | none =>
      simp only
      rw [execBatches_eq_execAll]
      obtain ⟨hp, hall⟩ := execAll_log B ((batchSlicesFrom mutationBatchSize mutations
        mutations.length 0).map (putAppStateMutationMACs dialect jid name version)) db
      generalize execAll B ((batchSlicesFrom mutationBatchSize mutations
        mutations.length 0).map (putAppStateMutationMACs dialect jid name version)) db = res
        at hp hall
      obtain ⟨r, log⟩ := res
      cases r with
      | error err =>
        simp only [execStmts_transaction log .rollback (Or.inr rfl)]
        exact ⟨hp, fun h => by simp at h⟩
      | ok tx =>
        simp only
        cases hc : B.commitErr tx with
        | some err =>
          simp only [execStmts_transaction log .commit (Or.inl rfl)]
          exact ⟨hp, fun h => by simp at h⟩
        | none =>
          simp only [execStmts_transaction log .commit (Or.inl rfl)]
          exact ⟨hp, fun _ => hall tx rfl⟩
  · rw [if_neg hbig]
    by_cases hpos : mutations.length > 0
    · rw [if_pos hpos, batchSlices_single _ _ hpos (by omega)]
      cases B.exec db (putAppStateMutationMACs dialect jid name version mutations) with
      | error err => simp [execStmts]
      | ok db1 => simp [execStmts]
    · rw [if_neg hpos]
      have hnil : mutations = [] := List.eq_nil_of_length_eq_zero (by omega)
      subst hnil
      simp [execStmts, batchSlices, batchSlicesFrom]

theorem PutAllContactNames_stmts {σ : Type} (B : Backend σ) (IsEmpty : JID → Bool)
    (dialect jid : String) (db : σ) (cache : List (JID × ContactInfo))
    (contacts : List ContactEntry) :
    List.IsPrefix (execStmts (PutAllContactNames B IsEmpty dialect jid db cache contacts).2.2.2)
      ((batchSlices contactBatchSize contacts).map (putContactNamesBatch IsEmpty dialect jid)) ∧
    ((PutAllContactNames B IsEmpty dialect jid db cache contacts).2.2.1 = none →
      execStmts (PutAllContactNames B IsEmpty dialect jid db cache contacts).2.2.2 =
        (batchSlices contactBatchSize contacts).map
          (putContactNamesBatch IsEmpty dialect jid)) := by
  unfold PutAllContactNames
  by_cases hbig : contacts.length > contactBatchSize
  · rw [if_pos hbig]
    cases hb : B.beginErr db with
    | some err => simp [execStmts]
    | none =>
      simp only
      rw [execBatches_eq_execAll]
      obtain ⟨hp, hall⟩ := execAll_log B ((batchSlicesFrom contactBatchSize contacts
        contacts.length 0).map (putContactNamesBatch IsEmpty dialect jid)) db
      generalize execAll B ((batchSlicesFrom contactBatchSize contacts
        contacts.length 0).map (putContactNamesBatch IsEmpty dialect jid)) db = res at hp hall
      obtain ⟨r, log⟩ := res
      cases r with
      | error err =>
        simp only [execStmts_transaction log .rollback (Or.inr rfl)]
        exact ⟨hp, fun h => by simp at h⟩
      | ok tx =>
        simp only
        cases hc : B.commitErr tx with
        | some err =>
          simp only [execStmts_transaction log .commit (Or.inl rfl)]
          exact ⟨hp, fun h => by simp at h⟩
        | none =>
          simp only [execStmts_transaction log .commit (Or.inl rfl)]
          exact ⟨hp, fun _ => hall tx rfl⟩
  · rw [if_neg hbig]
    by_cases hpos : contacts.length > 0
    · rw [if_pos hpos, batchSlices_single _ _ hpos (by omega)]
      cases B.exec db (putContactNamesBatch IsEmpty dialect jid contacts) with
      | error err => simp [execStmts]
      | ok db1 => simp [execStmts]
    · rw [if_neg hpos]
      have hnil : contacts = [] := List.eq_nil_of_length_eq_zero (by omega)
      subst hnil
      simp [execStmts, batchSlices, batchSlicesFrom]

/-- C13. Chunking respects the cap.  The slices of `PutAppStateMutationMACs`
(size 400) and of `PutAllContactNames` (size 300) are consecutive, non-empty
slices of at most `size` entries whose concatenation is the input, and there
are `ceil(N/size)` of them; the statements a call executes are the statements
of these slices, in order, up to the first that fails, and all of them when
the call returns no error; the statement of a slice binds at most
`3 + 2·400` (resp. `1 + 3·300`) values; an empty input issues no call of the
backend and returns nil. -/
theorem batches_respect_cap {σ : Type} (B : Backend σ) (IsEmpty : JID → Bool)
    (dialect jid : String) (db : σ) (cache : List (JID × ContactInfo)) (name : String)
    (version : Nat) (mutations : List AppStateMutationMAC) (contacts : List ContactEntry) :
    ((batchSlices mutationBatchSize mutations).flatten = mutations ∧
      (batchSlices mutationBatchSize mutations).length = (mutations.length + 400 - 1) / 400 ∧
      (∀ c ∈ batchSlices mutationBatchSize mutations, c ≠ [] ∧ c.length ≤ 400 ∧
        (putAppStateMutationMACs dialect jid name version c).args.length ≤ 3 + 2 * 400) ∧
      List.IsPrefix
        (execStmts (PutAppStateMutationMACs B dialect jid db name version mutations).2.2)
        ((batchSlices mutationBatchSize mutations).map
          (putAppStateMutationMACs dialect jid name version)) ∧
      ((PutAppStateMutationMACs B dialect jid db name version mutations).2.1 = none →
        execStmts (PutAppStateMutationMACs B dialect jid db name version mutations).2.2 =
          (batchSlices mutationBatchSize mutations).map
            (putAppStateMutationMACs dialect jid name version)) ∧
      PutAppStateMutationMACs B dialect jid db name version [] = (db, none, [])) ∧
    ((batchSlices contactBatchSize contacts).flatten = contacts ∧
      (batchSlices contactBatchSize contacts).length = (contacts.length + 300 - 1) / 300 ∧
      (∀ c ∈ batchSlices contactBatchSize contacts, c ≠ [] ∧ c.length ≤ 300 ∧
        (putContactNamesBatch IsEmpty dialect jid c).args.length ≤ 1 + 3 * 300) ∧
      List.IsPrefix
        (execStmts (PutAllContactNames B IsEmpty dialect jid db cache contacts).2.2.2)
        ((batchSlices contactBatchSize contacts).map
          (putContactNamesBatch IsEmpty dialect jid)) ∧
      ((PutAllContactNames B IsEmpty dialect jid db cache contacts).2.2.1 = none →
        execStmts (PutAllContactNames B IsEmpty dialect jid db cache contacts).2.2.2 =
          (batchSlices contactBatchSize contacts).map
            (putContactNamesBatch IsEmpty dialect jid)) ∧
      PutAllContactNames B IsEmpty dialect jid db cache [] = (db, cache, none, [])) := by
  obtain ⟨hm1, hm2, hm3⟩ := batchSlices_spec mutationBatchSize mutations (by decide)
  obtain ⟨hc1, hc2, hc3⟩ := batchSlices_spec contactBatchSize contacts (by decide)
  obtain ⟨hm4, hm5⟩ := PutAppStateMutationMACs_stmts B dialect jid db name version mutations
  obtain ⟨hc4, hc5⟩ := PutAllContactNames_stmts B IsEmpty dialect jid db cache contacts
  refine ⟨⟨hm1, hm3, ?_, hm4, hm5, rfl⟩, ⟨hc1, hc3, ?_, hc4, hc5, rfl⟩⟩
  · intro c hc
    obtain ⟨h1, h2⟩ := hm2 c hc
    have h2' : c.length ≤ 400 := h2
    refine ⟨h1, h2', ?_⟩
    simp only [putAppStateMutationMACs, mutationValues_length]
    omega
  · intro c hc
    obtain ⟨h1, h2⟩ := hc2 c hc
    have h2' : c.length ≤ 300 := h2
    refine ⟨h1, h2', ?_⟩
    have := putContactNamesBatch_args_length IsEmpty dialect jid c
    omega

theorem PutAppStateMutationMACs_small {σ : Type} (B : Backend σ) (dialect jid : String) (db : σ)
    (name : String) (version : Nat) (c : List AppStateMutationMAC)
    (hne : c ≠ []) (hle : c.length ≤ mutationBatchSize) :
    PutAppStateMutationMACs B dialect jid db name version c =
      match B.exec db (putAppStateMutationMACs dialect jid name version c) with
      | .error err =>
        (db, some err, [.exec (putAppStateMutationMACs dialect jid name version c)])
      | .ok db1 =>
        (db1, none, [.exec (putAppStateMutationMACs dialect jid name version c)]) := by
  have hpos : c.length > 0 := List.length_pos.mpr hne
  unfold PutAppStateMutationMACs
  rw [if_neg (by omega), if_pos hpos]

theorem putMutationMACsSeparately_of_execAll {σ : Type} (B : Backend σ)
    (dialect jid name : String) (version : Nat) :
    ∀ (chunks : List (List AppStateMutationMAC)) (db tx : σ) (log : List Call),
      (∀ c ∈ chunks, c ≠ [] ∧ c.length ≤ mutationBatchSize) →
      execAll B (chunks.map (putAppStateMutationMACs dialect jid name version)) db =
        (.ok tx, log) →
      putMutationMACsSeparately B dialect jid name version chunks db = (tx, none) := by
  intro chunks
  induction chunks with
  | nil =>
    intro db tx log _ h
    simp only [List.map_nil, execAll, Prod.mk.injEq, Except.ok.injEq] at h
    simp [putMutationMACsSeparately, h.1]
  | cons c rest ih =>
    intro db tx log hc h
    obtain ⟨hne, hle⟩ := hc c (List.mem_cons_self _ _)
    simp only [putMutationMACsSeparately]
    rw [PutAppStateMutationMACs_small B dialect jid db name version c hne hle]
    simp only [List.map_cons, execAll] at h
    cases hx : B.exec db (putAppStateMutationMACs dialect jid name version c) with
    | error err =>
      rw [hx] at h
      simp at h
    | ok db1 =>
      rw [hx] at h
      simp only at h
      generalize hr : execAll B (rest.map (putAppStateMutationMACs dialect jid name version))
        db1 = res at h
      obtain ⟨r, log1⟩ := res
      simp only [Prod.mk.injEq] at h
      obtain ⟨h1, _⟩ := h
      subst h1
      exact ih db1 tx log1 (fun c1 h1 => hc c1 (List.mem_cons_of_mem _ h1)) hr

/-- C12. Batching is transparent.  For every backend, state name, version and
mutation list `m` of more than 400 entries, when `PutAppStateMutationMACs(name,
version, m)` returns no error, calling `PutAppStateMutationMACs(name, version,
·)` on the consecutive slices `m[0:400]`, `m[400:800]`, ... one after the other
succeeds for every slice and ends in the database the single call ends in. -/
theorem PutAppStateMutationMACs_batching_transparent {σ : Type} (B : Backend σ)
    (dialect jid : String) (db : σ) (name : String) (version : Nat)
    (m : List AppStateMutationMAC)
    (hlen : mutationBatchSize < m.length)
    (hok : (PutAppStateMutationMACs B dialect jid db name version m).2.1 = none) :
    putMutationMACsSeparately B dialect jid name version (batchSlices mutationBatchSize m) db =
      ((PutAppStateMutationMACs B dialect jid db name version m).1, none) := by
  have hchunks := (batchSlices_spec mutationBatchSize m (by decide)).2.1
  unfold PutAppStateMutationMACs at hok ⊢
  rw [if_pos hlen] at hok ⊢
  cases hb : B.beginErr db with
  | some err => rw [hb] at hok; simp at hok
  | none =>
    rw [hb] at hok
    simp only at hok ⊢
    rw [execBatches_eq_execAll] at hok ⊢
    generalize hr : execAll B ((batchSlicesFrom mutationBatchSize m m.length 0).map
      (putAppStateMutationMACs dialect jid name version)) db = res at hok ⊢
    obtain ⟨r, log⟩ := res
    cases r with
    | error err => simp at hok
    | ok tx =>
      simp only at hok ⊢
      cases hc : B.commitErr tx with
      | some err => rw [hc] at hok; simp at hok
      | none =>
        rw [batchSlices]
        exact putMutationMACsSeparately_of_execAll B dialect jid name version _ db tx log
          hchunks hr

set_option maxRecDepth 100000 in
theorem PutAppStateMutationMACs_batching_transparent_witness :
    mutationBatchSize < (List.replicate 450 exampleMutation).length ∧
    (PutAppStateMutationMACs acceptingBackend "sqlite3" "dev" [] "regular" 1
      (List.replicate 450 exampleMutation)).2.1 = none ∧
    putMutationMACsSeparately acceptingBackend "sqlite3" "dev" "regular" 1
      (batchSlices mutationBatchSize (List.replicate 450 exampleMutation)) [] =
      ((PutAppStateMutationMACs acceptingBackend "sqlite3" "dev" [] "regular" 1
        (List.replicate 450 exampleMutation)).1, none) :=
  ⟨by decide, by decide,
    PutAppStateMutationMACs_batching_transparent acceptingBackend "sqlite3" "dev" [] "regular" 1
      (List.replicate 450 exampleMutation) (by decide) (by decide)⟩

theorem execAll_fails_at {σ : Type} (B : Backend σ) (st : Stmt) (post : List Stmt) (e : Error) :
    ∀ (pre : List Stmt) (db tx : σ), (execAll B pre db).1 = .ok tx → B.exec tx st = .error e →
      execAll B (pre ++ st :: post) db = (.error e, (pre ++ [st]).map Call.exec) := by
  intro pre
  induction pre with
  | nil =>
    intro db tx hpre hfail
    simp only [execAll, Except.ok.injEq] at hpre
    subst hpre
    simp [execAll, hfail]
  | cons s1 rest ih =>
    intro db tx hpre hfail
    simp only [execAll] at hpre
    simp only [List.cons_append, execAll]
    cases hx : B.exec db s1 with
    | error err => rw [hx] at hpre; simp at hpre
    | ok db1 =>
      rw [hx] at hpre
      simp only at hpre ⊢
      have h1 := ih db1 tx hpre hfail
      simp only [List.append_eq] at h1 ⊢
      rw [h1]
      simp

/-- C15. A failing chunk rolls the whole call back.  When `Begin` succeeds,
the statements of the chunks `pre` succeed one after the other and the
statement `st` of the next chunk fails with the error `e`, then
`PutAppStateMutationMACs` with more than 400 mutations (and `PutAllContactNames`
with more than 300 contacts) executes no further statement, rolls the
transaction back as its last call of the backend, leaves the database (and the
contact cache) as it was before the call and returns exactly `e`. -/
theorem batch_failure_rolls_back {σ : Type} (B : Backend σ) (IsEmpty : JID → Bool)
    (dialect jid : String) (db tx : σ) (cache : List (JID × ContactInfo)) (name : String)
    (version : Nat) (mutations : List AppStateMutationMAC) (contacts : List ContactEntry)
    (pre post : List Stmt) (st : Stmt) (e : Error)
    (hbegin : B.beginErr db = none)
    (hpre : (execAll B pre db).1 = .ok tx)
    (hfail : B.exec tx st = .error e) :
    (mutationBatchSize < mutations.length →
      (batchSlices mutationBatchSize mutations).map
        (putAppStateMutationMACs dialect jid name version) = pre ++ st :: post →
      PutAppStateMutationMACs B dialect jid db name version mutations =
        (db, some e, .begin :: (pre ++ [st]).map Call.exec ++ [.rollback])) ∧
    (contactBatchSize < contacts.length →
      (batchSlices contactBatchSize contacts).map (putContactNamesBatch IsEmpty dialect jid) =
        pre ++ st :: post →
      PutAllContactNames B IsEmpty dialect jid db cache contacts =
        (db, cache, some e, .begin :: (pre ++ [st]).map Call.exec ++ [.rollback])) := by
  have hrun := execAll_fails_at B st post e pre db tx hpre hfail
  constructor
  · intro hlen hchunks
    unfold PutAppStateMutationMACs
    rw [if_pos hlen, hbegin]
    simp only
    rw [execBatches_eq_execAll]
    rw [batchSlices] at hchunks
    rw [hchunks, hrun]
  · intro hlen hchunks
    unfold PutAllContactNames
    rw [if_pos hlen, hbegin]
    simp only
    rw [execBatches_eq_execAll]
    rw [batchSlices] at hchunks
    rw [hchunks, hrun]

set_option maxRecDepth 100000 in
theorem batch_failure_rolls_back_witness :
    PutAppStateMutationMACs rejectFiveValues "mysql" "dev" [] "regular" 1
        (List.replicate 401 exampleMutation) =
      ([], some (.backend "Lock wait timeout exceeded"),
        [.begin,
          .exec (putAppStateMutationMACs "mysql" "dev" "regular" 1
            (List.replicate 400 exampleMutation)),
          .exec (putAppStateMutationMACs "mysql" "dev" "regular" 1 [exampleMutation]),
          .rollback]) ∧
    PutAllContactNames rejectFourValues jidIsEmpty "mysql" "dev" []
        cacheWithBob (List.replicate 301 exampleContact) =
      ([], cacheWithBob, some (.backend "Lock wait timeout exceeded"),
        [.begin,
          .exec (putContactNamesBatch jidIsEmpty "mysql" "dev"
            (List.replicate 300 exampleContact)),
          .rollback]) :=
  ⟨(batch_failure_rolls_back rejectFiveValues jidIsEmpty "mysql" "dev" []
      [putAppStateMutationMACs "mysql" "dev" "regular" 1 (List.replicate 400 exampleMutation)]
      [] "regular" 1 (List.replicate 401 exampleMutation) []
      [putAppStateMutationMACs "mysql" "dev" "regular" 1 (List.replicate 400 exampleMutation)]
      [] (putAppStateMutationMACs "mysql" "dev" "regular" 1 [exampleMutation])
      (.backend "Lock wait timeout exceeded") rfl rfl rfl).1 (by decide) rfl,
    (batch_failure_rolls_back rejectFourValues jidIsEmpty "mysql" "dev" [] []
      cacheWithBob "regular" 1 [] (List.replicate 301 exampleContact) []
      [putContactNamesBatch jidIsEmpty "mysql" "dev" [exampleContact]]
      (putContactNamesBatch jidIsEmpty "mysql" "dev" (List.replicate 300 exampleContact))
      (.backend "Lock wait timeout exceeded") rfl rfl rfl).2 (by decide) rfl⟩

/-! ## The composed statements -/

set_option maxRecDepth 100000 in
/-- C14. The bulk inserts composed for a positional dialect.  For the dialect
`mysql`, the statement `putAppStateMutationMACs` composes for two mutations
holds, after each value tuple, the text `%!(EXTRA int=..., int=...)` that
`fmt.Sprintf` writes for arguments no verb consumes, and it has 10
placeholders for the 7 values it binds; the statement `putContactNamesBatch`
composes for two contacts holds `%!(EXTRA ...)` likewise and has 8
placeholders for 7 values.  For the dialect `sqlite3` the two statements are
value tuples only, whose numbered placeholders refer to the values bound. -/
theorem bulk_insert_positional_text :
    (putAppStateMutationMACs "mysql" "dev" "regular" 1 [exampleMutation, exampleMutation2] =
      { query := "INSERT INTO whatsmeow_app_state_mutation_macs (jid, name, version, index_mac, value_mac) VALUES (?, ?, ?, ?, ?)%!(EXTRA int=4, int=5),(?, ?, ?, ?, ?)%!(EXTRA int=6, int=7)",
        args := [.text "dev", .text "regular", .uint 1, .blob [1], .blob [2], .blob [3],
          .blob [4]] } ∧
      positionalPlaceholders (putAppStateMutationMACs "mysql" "dev" "regular" 1
        [exampleMutation, exampleMutation2]).query = 10 ∧
      (putAppStateMutationMACs "mysql" "dev" "regular" 1
        [exampleMutation, exampleMutation2]).args.length = 7) ∧
    (putContactNamesBatch jidIsEmpty "mysql" "dev" [exampleContact, exampleContact2] =
      { query := "\n\t\tINSERT INTO whatsmeow_contacts (our_jid, their_jid, first_name, full_name)\n\t\tVALUES (?, ?, ?, ?)%!(EXTRA int=2, int=3, int=4),(?, ?, ?, ?)%!(EXTRA int=5, int=6, int=7)\n\t\tON DUPLICATE KEY UPDATE\n\t\t\tfirst_name = VALUES(first_name),\n\t\t\tfull_name = VALUES(full_name)",
        args := [.text "dev", .text "alice@s.whatsapp.net", .text "Alice", .text "Alice A",
          .text "bob@s.whatsapp.net", .text "Bob", .text "Bob B"] } ∧
      positionalPlaceholders (putContactNamesBatch jidIsEmpty "mysql" "dev"
        [exampleContact, exampleContact2]).query = 8 ∧
      (putContactNamesBatch jidIsEmpty "mysql" "dev"
        [exampleContact, exampleContact2]).args.length = 7) ∧
    ((putAppStateMutationMACs "sqlite3" "dev" "regular" 1
        [exampleMutation, exampleMutation2]).query =
      "INSERT INTO whatsmeow_app_state_mutation_macs (jid, name, version, index_mac, value_mac) VALUES (?1, ?2, ?3, ?4, ?5),(?1, ?2, ?3, ?6, ?7)" ∧
      numberedPlaceholders (putContactNamesBatch jidIsEmpty "sqlite3" "dev"
        [exampleContact, exampleContact2]).query = [1, 2, 3, 4, 1, 5, 6, 7]) := by
  refine ⟨⟨?_, ?_, ?_⟩, ⟨?_, ?_, ?_⟩, ?_, ?_⟩ <;> decide

/-- C17. The statement of `DeleteAppStateMutationMACs` in the generic branch.
An empty list issues no statement and returns nil, and a non-empty list issues
one statement; but for the dialect `mysql` and two index MACs the text of that
statement ends in `IN ($3,$4)`: it has the two placeholders `?` of the device
JID and of the name only, while four values are bound to it. -/
theorem DeleteAppStateMutationMACs_generic_text :
    DeleteAppStateMutationMACs acceptingBackend "mysql" "dev" none [] "regular" [] =
      ([], none, []) ∧
    deleteAppStateMutationMACsStmt "mysql" "dev" none "regular" [[1], [3]] =
      { query := "DELETE FROM whatsmeow_app_state_mutation_macs WHERE jid=? AND name=? AND index_mac IN ($3,$4)",
        args := [.text "dev", .text "regular", .blob [1], .blob [3]] } ∧
    DeleteAppStateMutationMACs acceptingBackend "mysql" "dev" none [] "regular" [[1], [3]] =
      ([deleteAppStateMutationMACsStmt "mysql" "dev" none "regular" [[1], [3]]], none,
        [.exec (deleteAppStateMutationMACsStmt "mysql" "dev" none "regular" [[1], [3]])]) ∧
    positionalPlaceholders
      (deleteAppStateMutationMACsStmt "mysql" "dev" none "regular" [[1], [3]]).query = 2 ∧
    (deleteAppStateMutationMACsStmt "mysql" "dev" none "regular" [[1], [3]]).args.length = 4 := by
  decide

/-! ## Message secrets -/

/-- C16. `PutMessageSecrets` commits after a failed insert.  On a backend on
which the insert of the message `msg-1` fails, `PutMessageSecrets` of the
secrets of `msg-1` and `msg-2` goes on to the second insert, commits, stores
the secret of `msg-2` and returns nil; `Rollback` is not called. -/
theorem PutMessageSecrets_commits_after_failure :
    rejectFirstMessage.exec [] (putMsgSecretStmt id "dev" exampleSecret1) =
      .error (.backend "Lock wait timeout exceeded") ∧
    PutMessageSecrets rejectFirstMessage id "dev" [] [exampleSecret1, exampleSecret2] =
      ([putMsgSecretStmt id "dev" exampleSecret2], none,
        [.begin, .exec (putMsgSecretStmt id "dev" exampleSecret1),
          .exec (putMsgSecretStmt id "dev" exampleSecret2), .commit]) := by
  exact ⟨rfl, by decide⟩

/-! ## Lookups -/

theorem firstByDesc_filter_none {ρ : Type} (c : ρ → Int) (p : ρ → Bool) (t : List ρ)
    (h : ∀ r ∈ t, p r = false) : firstByDesc c (t.filter p) = none := by
  have : t.filter p = [] := by
    rw [List.filter_eq_nil_iff]
    intro r hr
    simp [h r hr]
  rw [this]
  rfl

/-- C11. A lookup that finds no row returns an absent result and no error.
When no row of the table matches the selection of the lookup, `GetSession`,
`GetSenderKey`, `GetPreKey`, `GetAppStateSyncKey`, `GetLatestAppStateSyncKeyID`,
`GetAppStateMutationMAC`, `GetMessageSecret` and `GetPrivacyToken` return a nil
value with a nil error, `HasSession` returns `(false, nil)`, and
`GetAppStateVersion` returns version `0` with the all-zero hash of 128 bytes
and a nil error. -/
theorem lookup_without_row_absent (s : SQLStore) (ToNonAD : JID → JID) :
    (∀ address : String,
      (∀ r ∈ s.sessions, ¬ (r.our_jid = s.JID ∧ r.their_id = address)) →
        GetSession s address = (none, none) ∧ HasSession s address = (false, none)) ∧
    (∀ group user : String,
      (∀ r ∈ s.senderKeys, ¬ (r.our_jid = s.JID ∧ r.chat_id = group ∧ r.sender_id = user)) →
        GetSenderKey s group user = (none, none)) ∧
    (∀ id : Nat, (∀ r ∈ s.preKeys, ¬ (r.jid = s.JID ∧ r.key_id = id)) →
      GetPreKey s id = (none, none)) ∧
    (∀ id : Bytes, (∀ r ∈ s.appStateSyncKeys, ¬ (r.jid = s.JID ∧ r.key_id = id)) →
      GetAppStateSyncKey s id = (none, none)) ∧
    ((∀ r ∈ s.appStateSyncKeys, r.jid ≠ s.JID) → GetLatestAppStateSyncKeyID s = (none, none)) ∧
    (∀ (name : String) (indexMAC : Bytes),
      (∀ r ∈ s.appStateMutationMACs,
        ¬ (r.jid = s.JID ∧ r.name = name ∧ r.index_mac = indexMAC)) →
        GetAppStateMutationMAC s name indexMAC = (none, none)) ∧
    (∀ (chat sender : JID) (id : String),
      (∀ r ∈ s.messageSecrets, ¬ (r.our_jid = s.JID ∧ r.chat_jid = ToNonAD chat ∧
        r.sender_jid = ToNonAD sender ∧ r.message_id = id)) →
        GetMessageSecret s ToNonAD chat sender id = (none, none)) ∧
    (∀ user : JID,
      (∀ r ∈ s.privacyTokens, ¬ (r.our_jid = s.JID ∧ r.their_jid = ToNonAD user)) →
        GetPrivacyToken s ToNonAD user = (none, none)) ∧
    (∀ name : String, (∀ r ∈ s.appStateVersion, ¬ (r.jid = s.JID ∧ r.name = name)) →
      GetAppStateVersion s name = (0, zeroHash, none)) ∧
    zeroHash.val = List.replicate 128 0 := by
  refine ⟨?_, ?_, ?_, ?_, ?_, ?_, ?_, ?_, ?_, rfl⟩
  · intro address h
    have hq : queryRow (fun r : SessionRow => r.our_jid == s.JID && r.their_id == address)
        s.sessions = .noRows :=
      queryRow_eq_noRows _ _ (fun r hr => by simpa using h r hr)
    simp [GetSession, HasSession, getSessionQuery, hasSessionQuery, hq, scanBytesOrNil]
  · intro group user h
    have hq : queryRow (fun r : SenderKeyRow => r.our_jid == s.JID && r.chat_id == group &&
        r.sender_id == user) s.senderKeys = .noRows :=
      queryRow_eq_noRows _ _ (fun r hr => by simpa [and_assoc] using h r hr)
    simp [GetSenderKey, getSenderKeyQuery, hq, scanBytesOrNil]
  · intro id h
    have hq : queryRow (fun r : PreKeyRow => r.jid == s.JID && r.key_id == id)
        s.preKeys = .noRows :=
      queryRow_eq_noRows _ _ (fun r hr => by simpa using h r hr)
    simp [GetPreKey, hq, scanPreKey]
  · intro id h
    have hq : queryRow (fun r : SyncKeyRow => r.jid == s.JID && r.key_id == id)
        s.appStateSyncKeys = .noRows :=
      queryRow_eq_noRows _ _ (fun r hr => by simpa using h r hr)
    simp [GetAppStateSyncKey, getAppStateSyncKeyQuery, hq]
  · intro h
    have hq := firstByDesc_filter_none (fun r : SyncKeyRow => r.timestamp)
      (fun r => r.jid == s.JID) s.appStateSyncKeys (fun r hr => by simpa using h r hr)
    simp [GetLatestAppStateSyncKeyID, getLatestAppStateSyncKeyIDQuery, hq]
  · intro name indexMAC h
    have hq := firstByDesc_filter_none (fun r : MutationMACRow => (r.version : Int))
      (fun r => r.jid == s.JID && r.name == name && r.index_mac == indexMAC)
      s.appStateMutationMACs (fun r hr => by simpa [and_assoc] using h r hr)
    simp [GetAppStateMutationMAC, getAppStateMutationMACQuery, hq, scanBytesOrNil]
  · intro chat sender id h
    have hq : queryRow (fun r : MessageSecretRow => r.our_jid == s.JID &&
        r.chat_jid == ToNonAD chat && r.sender_jid == ToNonAD sender && r.message_id == id)
        s.messageSecrets = .noRows :=
      queryRow_eq_noRows _ _ (fun r hr => by simpa [and_assoc] using h r hr)
    simp [GetMessageSecret, getMsgSecret, hq, scanBytesOrNil]
  · intro user h
    have hq : queryRow (fun r : PrivacyTokenRow => r.our_jid == s.JID &&
        r.their_jid == ToNonAD user) s.privacyTokens = .noRows :=
      queryRow_eq_noRows _ _ (fun r hr => by simpa using h r hr)
    simp [GetPrivacyToken, getPrivacyToken, hq]
  · intro name h
    have hq : queryRow (fun r : VersionRow => r.jid == s.JID && r.name == name)
        s.appStateVersion = .noRows :=
      queryRow_eq_noRows _ _ (fun r hr => by simpa using h r hr)
    simp [GetAppStateVersion, getAppStateVersionQuery, hq]

/-- Witness of `lookup_without_row_absent`: in a store that holds rows of
`bob:0` only, the lookups for `alice:0` (for the state `critical`, for the
message `msg-2`) are absent without error, while the session of `bob:0` is
found. -/
theorem lookup_without_row_absent_witness :
    (GetSession storeWithBobRows "alice:0" = (none, none) ∧
      HasSession storeWithBobRows "alice:0" = (false, none)) ∧
    GetSenderKey storeWithBobRows "group-1" "alice:0" = (none, none) ∧
    GetPreKey storeWithBobRows 2 = (none, none) ∧
    GetAppStateSyncKey storeWithBobRows [9] = (none, none) ∧
    GetAppStateMutationMAC storeWithBobRows "critical" [1] = (none, none) ∧
    GetMessageSecret storeWithBobRows id "chat@g.us" "bob@s.whatsapp.net" "msg-2" =
      (none, none) ∧
    GetPrivacyToken storeWithBobRows id "alice@s.whatsapp.net" = (none, none) ∧
    GetAppStateVersion storeWithBobRows "critical" = (0, zeroHash, none) ∧
    GetLatestAppStateSyncKeyID storeOfOtherDevice = (none, none) ∧
    GetSession storeWithBobRows "bob:0" = (some [1], none) ∧
    HasSession storeWithBobRows "bob:0" = (true, none) :=
  ⟨(lookup_without_row_absent storeWithBobRows id).1 "alice:0" (by decide),
    (lookup_without_row_absent storeWithBobRows id).2.1 "group-1" "alice:0" (by decide),
    (lookup_without_row_absent storeWithBobRows id).2.2.1 2 (by decide),
    (lookup_without_row_absent storeWithBobRows id).2.2.2.1 [9] (by decide),
    (lookup_without_row_absent storeWithBobRows id).2.2.2.2.2.1 "critical" [1] (by decide),
    (lookup_without_row_absent storeWithBobRows id).2.2.2.2.2.2.1 "chat@g.us"
      "bob@s.whatsapp.net" "msg-2" (by decide),
    (lookup_without_row_absent storeWithBobRows id).2.2.2.2.2.2.2.1 "alice@s.whatsapp.net"
      (by decide),
    (lookup_without_row_absent storeWithBobRows id).2.2.2.2.2.2.2.2.1 "critical" (by decide),
    (lookup_without_row_absent storeOfOtherDevice id).2.2.2.2.1 (by decide),
    by decide, by decide⟩

/-! ## Contacts -/

theorem lookup_cacheInsert_self (user : JID) (info : ContactInfo)
    (cache : List (JID × ContactInfo)) :
    (cacheInsert user info cache).lookup user = some info := by
  simp [cacheInsert, List.lookup]

theorem lookup_filter_ne (user j : JID) (hj : j ≠ user) :
    ∀ cache : List (JID × ContactInfo),
      (cache.filter (fun e => e.1 != user)).lookup j = cache.lookup j := by
  intro cache
  induction cache with
  | nil => rfl
  | cons e rest ih =>
    obtain ⟨k, v⟩ := e
    by_cases hk : k = user
    · subst hk
      have hne : (j == k) = false := by simpa using hj
      simp [List.filter, List.lookup, hne, ih]
    · have hk1 : (k != user) = true := by simpa using hk
      simp only [List.filter, hk1, List.lookup]
      cases hjk : j == k with
      | true => rfl
      | false => simpa using ih

theorem lookup_cacheInsert_ne (user j : JID) (info : ContactInfo)
    (cache : List (JID × ContactInfo)) (hj : j ≠ user) :
    (cacheInsert user info cache).lookup j = cache.lookup j := by
  have hne : (j == user) = false := by simpa using hj
  simp only [cacheInsert, List.lookup, hne]
  exact lookup_filter_ne user j hj cache

theorem getContact_cached (s : SQLStore) (qerr : Option Error) (user : JID) (c : ContactInfo)
    (h : s.contactCache.lookup user = some c) :
    getContact s qerr user = (s, .ok c, []) := by
  simp [getContact, h]

theorem getContact_uncached (s : SQLStore) (user : JID)
    (h : s.contactCache.lookup user = none) :
    getContact s none user =
      ({ s with contactCache := cacheInsert user (storedContact s user) s.contactCache },
        .ok (storedContact s user), [.query user]) := by
  simp [getContact, h, storedContact]

/-- C18, counterexample. The push name of Alice is `Alice` in the cache and in
the table; `PutPushName(alice, "Alice")` returns `changed = false` with the
previous name `""`, not `Alice`, and makes no call of the backing store. -/
theorem PutPushName_unchanged_previous_empty :
    (contactBefore storeWithAlicePushName aliceJID).PushName = "Alice" ∧
    (storedContact storeWithAlicePushName aliceJID).PushName = "Alice" ∧
    PutPushName storeWithAlicePushName none none aliceJID "Alice" =
      (storeWithAlicePushName, false, "", none, []) := by
  decide

/-- C18, amended. `PutPushName(J, n)` and `PutBusinessName(J, n)` whose query
and `Exec` succeed return nil as error, `changed = (n ≠ p)`, and as previous
name `p` when the name changed and the empty string when it did not, where `p`
is the push (resp. business) name of the record `getContact` yields for `J`
before the call: the cached record, else the stored one. -/
theorem PutPushName_PutBusinessName_result (s : SQLStore) (user : JID) (n : String) :
    ((PutPushName s none none user n).2.1 = decide (n ≠ (contactBefore s user).PushName) ∧
      (PutPushName s none none user n).2.2.1 =
        (if n ≠ (contactBefore s user).PushName then (contactBefore s user).PushName else "") ∧
      (PutPushName s none none user n).2.2.2.1 = none) ∧
    ((PutBusinessName s none none user n).2.1 =
        decide (n ≠ (contactBefore s user).BusinessName) ∧
      (PutBusinessName s none none user n).2.2.1 =
        (if n ≠ (contactBefore s user).BusinessName then (contactBefore s user).BusinessName
          else "") ∧
      (PutBusinessName s none none user n).2.2.2.1 = none) := by
  cases h : s.contactCache.lookup user with
  | some c =>
    have hb : contactBefore s user = c := by simp [contactBefore, h]
    rw [hb]
    constructor
    · simp only [PutPushName, getContact_cached s none user c h]
      by_cases hn : c.PushName = n
      · simp [hn]
      · have hn1 : ¬ n = c.PushName := fun e => hn e.symm
        simp [hn, hn1]
    · simp only [PutBusinessName, getContact_cached s none user c h]
      by_cases hn : c.BusinessName = n
      · simp [hn]
      · have hn1 : ¬ n = c.BusinessName := fun e => hn e.symm
        simp [hn, hn1]
  | none =>
    have hb : contactBefore s user = storedContact s user := by simp [contactBefore, h]
    rw [hb]
    constructor
    · simp only [PutPushName, getContact_uncached s user h]
      by_cases hn : (storedContact s user).PushName = n
      · simp [hn]
      · have hn1 : ¬ n = (storedContact s user).PushName := fun e => hn e.symm
        simp [hn, hn1]
    · simp only [PutBusinessName, getContact_uncached s user h]
      by_cases hn : (storedContact s user).BusinessName = n
      · simp [hn]
      · have hn1 : ¬ n = (storedContact s user).BusinessName := fun e => hn e.symm
        simp [hn, hn1]

/-- Witness of `PutPushName_PutBusinessName_result`: with the push name `Alice`
cached, `PutPushName(alice, "Alicia")` returns `(true, "Alice", nil)` and
`PutPushName(alice, "Alice")` returns `(false, "", nil)`. -/
theorem PutPushName_PutBusinessName_result_witness :
    ((PutPushName storeWithAlicePushName none none aliceJID "Alicia").2.1 = true ∧
      (PutPushName storeWithAlicePushName none none aliceJID "Alicia").2.2.1 = "Alice" ∧
      (PutPushName storeWithAlicePushName none none aliceJID "Alicia").2.2.2.1 = none) ∧
    ((PutPushName storeWithAlicePushName none none aliceJID "Alice").2.1 = false ∧
      (PutPushName storeWithAlicePushName none none aliceJID "Alice").2.2.1 = "" ∧
      (PutPushName storeWithAlicePushName none none aliceJID "Alice").2.2.2.1 = none) :=
  ⟨(PutPushName_PutBusinessName_result storeWithAlicePushName aliceJID "Alicia").1,
    (PutPushName_PutBusinessName_result storeWithAlicePushName aliceJID "Alice").1⟩

theorem PutPushName_write (s : SQLStore) (xerr : Option Error) (user : JID) (n : String) :
    ((PutPushName s none xerr user n).2.2.2.2.filter ContactCall.isWrite =
      if (contactBefore s user).PushName = n then [] else [.putPushName user n]) ∧
    ((contactBefore s user).PushName = n →
      (PutPushName s none xerr user n).1.contacts = s.contacts ∧
      (PutPushName s none xerr user n).1.contactCache.lookup user = some (contactBefore s user) ∧
      (∀ j, j ≠ user → (PutPushName s none xerr user n).1.contactCache.lookup j = s.contactCache.lookup j) ∧
      (s.contactCache.lookup user ≠ none → (PutPushName s none xerr user n).1 = s)) ∧
    (¬ ((contactBefore s user).PushName = n) → xerr = none →
      (PutPushName s none xerr user n).1.contacts = putPushNameQuery (pushNameRow s.JID user n) s.contacts ∧
      (PutPushName s none xerr user n).1.contactCache.lookup user =
        some { contactBefore s user with PushName := n, Found := true } ∧
      (∀ j, j ≠ user → (PutPushName s none xerr user n).1.contactCache.lookup j = s.contactCache.lookup j)) ∧
    (¬ ((contactBefore s user).PushName = n) → ∀ e, xerr = some e →
      (PutPushName s none xerr user n).2.2.2.1 = some e ∧
      (PutPushName s none xerr user n).1.contacts = s.contacts ∧
      (PutPushName s none xerr user n).1.contactCache.lookup user = some (contactBefore s user) ∧
      (∀ j, j ≠ user → (PutPushName s none xerr user n).1.contactCache.lookup j = s.contactCache.lookup j)) := by
  cases h : s.contactCache.lookup user with
  | some c =>
    have hb : contactBefore s user = c := by simp [contactBefore, h]
    rw [hb]
    simp only [PutPushName, getContact_cached s none user c h]
    by_cases hn : c.PushName = n
    · rw [if_neg (fun hf => hf hn)]
      exact ⟨by simp [hn], fun _ => ⟨rfl, h, fun _ _ => rfl, fun _ => rfl⟩,
        fun hf => absurd hn hf, fun hf => absurd hn hf⟩
    · rw [if_pos (hn)]
      cases xerr with
      | some e =>
        exact ⟨by simp [hn, ContactCall.isWrite], fun hf => absurd hf hn,
          fun _ hf => by simp at hf,
          fun _ e1 he => ⟨by simpa using he, rfl, h, fun _ _ => rfl⟩⟩
      | none =>
        exact ⟨by simp [hn, ContactCall.isWrite], fun hf => absurd hf hn,
          fun _ _ => ⟨rfl, lookup_cacheInsert_self _ _ _,
            fun j hj => lookup_cacheInsert_ne user j _ _ hj⟩,
          fun _ e1 he => by simp at he⟩
  | none =>
    have hb : contactBefore s user = storedContact s user := by simp [contactBefore, h]
    rw [hb]
    simp only [PutPushName, getContact_uncached s user h]
    by_cases hn : (storedContact s user).PushName = n
    · rw [if_neg (fun hf => hf hn)]
      exact ⟨by simp [hn, ContactCall.isWrite],
        fun _ => ⟨rfl, lookup_cacheInsert_self _ _ _,
          fun j hj => lookup_cacheInsert_ne user j _ _ hj, fun hf => absurd rfl hf⟩,
        fun hf => absurd hn hf, fun hf => absurd hn hf⟩
    · rw [if_pos (hn)]
      cases xerr with
      | some e =>
        exact ⟨by simp [hn, ContactCall.isWrite], fun hf => absurd hf hn,
          fun _ hf => by simp at hf,
          fun _ e1 he => ⟨by simpa using he, rfl, lookup_cacheInsert_self _ _ _,
            fun j hj => lookup_cacheInsert_ne user j _ _ hj⟩⟩
      | none =>
        exact ⟨by simp [hn, ContactCall.isWrite], fun hf => absurd hf hn,
          fun _ _ => ⟨rfl, lookup_cacheInsert_self _ _ _, fun j hj => by
            rw [lookup_cacheInsert_ne user j _ _ hj, lookup_cacheInsert_ne user j _ _ hj]⟩,
          fun _ e1 he => by simp at he⟩

theorem PutBusinessName_write (s : SQLStore) (xerr : Option Error) (user : JID) (n : String) :
    ((PutBusinessName s none xerr user n).2.2.2.2.filter ContactCall.isWrite =
      if (contactBefore s user).BusinessName = n then [] else [.putBusinessName user n]) ∧
    ((contactBefore s user).BusinessName = n →
      (PutBusinessName s none xerr user n).1.contacts = s.contacts ∧
      (PutBusinessName s none xerr user n).1.contactCache.lookup user = some (contactBefore s user) ∧
      (∀ j, j ≠ user → (PutBusinessName s none xerr user n).1.contactCache.lookup j = s.contactCache.lookup j) ∧
      (s.contactCache.lookup user ≠ none → (PutBusinessName s none xerr user n).1 = s)) ∧
    (¬ ((contactBefore s user).BusinessName = n) → xerr = none →
      (PutBusinessName s none xerr user n).1.contacts = putBusinessNameQuery (businessNameRow s.JID user n) s.contacts ∧
      (PutBusinessName s none xerr user n).1.contactCache.lookup user =
        some { contactBefore s user with BusinessName := n, Found := true } ∧
      (∀ j, j ≠ user → (PutBusinessName s none xerr user n).1.contactCache.lookup j = s.contactCache.lookup j)) ∧
    (¬ ((contactBefore s user).BusinessName = n) → ∀ e, xerr = some e →
      (PutBusinessName s none xerr user n).2.2.2.1 = some e ∧
      (PutBusinessName s none xerr user n).1.contacts = s.contacts ∧
      (PutBusinessName s none xerr user n).1.contactCache.lookup user = some (contactBefore s user) ∧
      (∀ j, j ≠ user → (PutBusinessName s none xerr user n).1.contactCache.lookup j = s.contactCache.lookup j)) := by
  cases h : s.contactCache.lookup user with
  | some c =>
    have hb : contactBefore s user = c := by simp [contactBefore, h]
    rw [hb]
    simp only [PutBusinessName, getContact_cached s none user c h]
    by_cases hn : c.BusinessName = n
    · rw [if_neg (fun hf => hf hn)]
      exact ⟨by simp [hn], fun _ => ⟨rfl, h, fun _ _ => rfl, fun _ => rfl⟩,
        fun hf => absurd hn hf, fun hf => absurd hn hf⟩
    · rw [if_pos (hn)]
      cases xerr with
      | some e =>
        exact ⟨by simp [hn, ContactCall.isWrite], fun hf => absurd hf hn,
          fun _ hf => by simp at hf,
          fun _ e1 he => ⟨by simpa using he, rfl, h, fun _ _ => rfl⟩⟩
      | none =>
        exact ⟨by simp [hn, ContactCall.isWrite], fun hf => absurd hf hn,
          fun _ _ => ⟨rfl, lookup_cacheInsert_self _ _ _,
            fun j hj => lookup_cacheInsert_ne user j _ _ hj⟩,
          fun _ e1 he => by simp at he⟩
  | none =>
    have hb : contactBefore s user = storedContact s user := by simp [contactBefore, h]
    rw [hb]
    simp only [PutBusinessName, getContact_uncached s user h]
    by_cases hn : (storedContact s user).BusinessName = n
    · rw [if_neg (fun hf => hf hn)]
      exact ⟨by simp [hn, ContactCall.isWrite],
        fun _ => ⟨rfl, lookup_cacheInsert_self _ _ _,
          fun j hj => lookup_cacheInsert_ne user j _ _ hj, fun hf => absurd rfl hf⟩,
        fun hf => absurd hn hf, fun hf => absurd hn hf⟩
    · rw [if_pos (hn)]
      cases xerr with
      | some e =>
        exact ⟨by simp [hn, ContactCall.isWrite], fun hf => absurd hf hn,
          fun _ hf => by simp at hf,
          fun _ e1 he => ⟨by simpa using he, rfl, lookup_cacheInsert_self _ _ _,
            fun j hj => lookup_cacheInsert_ne user j _ _ hj⟩⟩
      | none =>
        exact ⟨by simp [hn, ContactCall.isWrite], fun hf => absurd hf hn,
          fun _ _ => ⟨rfl, lookup_cacheInsert_self _ _ _, fun j hj => by
            rw [lookup_cacheInsert_ne user j _ _ hj, lookup_cacheInsert_ne user j _ _ hj]⟩,
          fun _ e1 he => by simp at he⟩

theorem PutContactName_write (s : SQLStore) (xerr : Option Error) (user : JID) (first full : String) :
    ((PutContactName s none xerr user first full).2.2.filter ContactCall.isWrite =
      if (contactBefore s user).FirstName = first ∧ (contactBefore s user).FullName = full then [] else [.putContactName user first full]) ∧
    ((contactBefore s user).FirstName = first ∧ (contactBefore s user).FullName = full →
      (PutContactName s none xerr user first full).1.contacts = s.contacts ∧
      (PutContactName s none xerr user first full).1.contactCache.lookup user = some (contactBefore s user) ∧
      (∀ j, j ≠ user → (PutContactName s none xerr user first full).1.contactCache.lookup j = s.contactCache.lookup j) ∧
      (s.contactCache.lookup user ≠ none → (PutContactName s none xerr user first full).1 = s)) ∧
    (¬ ((contactBefore s user).FirstName = first ∧ (contactBefore s user).FullName = full) → xerr = none →
      (PutContactName s none xerr user first full).1.contacts = putContactNameQuery (contactNameRow s.JID user first full) s.contacts ∧
      (PutContactName s none xerr user first full).1.contactCache.lookup user =
        some { contactBefore s user with FirstName := first, FullName := full, Found := true } ∧
      (∀ j, j ≠ user → (PutContactName s none xerr user first full).1.contactCache.lookup j = s.contactCache.lookup j)) ∧
    (¬ ((contactBefore s user).FirstName = first ∧ (contactBefore s user).FullName = full) → ∀ e, xerr = some e →
      (PutContactName s none xerr user first full).2.1 = some e ∧
      (PutContactName s none xerr user first full).1.contacts = s.contacts ∧
      (PutContactName s none xerr user first full).1.contactCache.lookup user = some (contactBefore s user) ∧
      (∀ j, j ≠ user → (PutContactName s none xerr user first full).1.contactCache.lookup j = s.contactCache.lookup j)) := by
  cases h : s.contactCache.lookup user with
  | some c =>
    have hb : contactBefore s user = c := by simp [contactBefore, h]
    rw [hb]
    simp only [PutContactName, getContact_cached s none user c h]
    by_cases hn : c.FirstName = first ∧ c.FullName = full
    · rw [if_neg (fun hf => hf.elim (fun h1 => h1 hn.1) (fun h1 => h1 hn.2))]
      exact ⟨by simp [hn], fun _ => ⟨rfl, h, fun _ _ => rfl, fun _ => rfl⟩,
        fun hf => absurd hn hf, fun hf => absurd hn hf⟩
    · rw [if_pos (not_and_or.mp hn)]
      cases xerr with
      | some e =>
        exact ⟨by simp [hn, ContactCall.isWrite], fun hf => absurd hf hn,
          fun _ hf => by simp at hf,
          fun _ e1 he => ⟨by simpa using he, rfl, h, fun _ _ => rfl⟩⟩
      | none =>
        exact ⟨by simp [hn, ContactCall.isWrite], fun hf => absurd hf hn,
          fun _ _ => ⟨rfl, lookup_cacheInsert_self _ _ _,
            fun j hj => lookup_cacheInsert_ne user j _ _ hj⟩,
          fun _ e1 he => by simp at he⟩
  | none =>
    have hb : contactBefore s user = storedContact s user := by simp [contactBefore, h]
    rw [hb]
    simp only [PutContactName, getContact_uncached s user h]
    by_cases hn : (storedContact s user).FirstName = first ∧ (storedContact s user).FullName = full
    · rw [if_neg (fun hf => hf.elim (fun h1 => h1 hn.1) (fun h1 => h1 hn.2))]
      exact ⟨by simp [hn, ContactCall.isWrite],
        fun _ => ⟨rfl, lookup_cacheInsert_self _ _ _,
          fun j hj => lookup_cacheInsert_ne user j _ _ hj, fun hf => absurd rfl hf⟩,
        fun hf => absurd hn hf, fun hf => absurd hn hf⟩
    · rw [if_pos (not_and_or.mp hn)]
      cases xerr with
      | some e =>
        exact ⟨by simp [hn, ContactCall.isWrite], fun hf => absurd hf hn,
          fun _ hf => by simp at hf,
          fun _ e1 he => ⟨by simpa using he, rfl, lookup_cacheInsert_self _ _ _,
            fun j hj => lookup_cacheInsert_ne user j _ _ hj⟩⟩
      | none =>
        exact ⟨by simp [hn, ContactCall.isWrite], fun hf => absurd hf hn,
          fun _ _ => ⟨rfl, lookup_cacheInsert_self _ _ _, fun j hj => by
            rw [lookup_cacheInsert_ne user j _ _ hj, lookup_cacheInsert_ne user j _ _ hj]⟩,
          fun _ e1 he => by simp at he⟩

/-- C19. The single-name methods write exactly when the value differs.  Let
`p` be the record `getContact` yields for the user (the cached record, else
the stored one, which `getContact` puts into the cache), the query having
succeeded.  `PutPushName`, `PutBusinessName` and `PutContactName` make no write
when the incoming name(s) equal those of `p`: the table is unchanged, the
cache holds `p` for the user and what it held for every other JID, and the
whole store is unchanged when the user was cached.  When a name differs they
make exactly one write, the upsert of the method: if it succeeds the table is
the upserted one and the cached record is `p` with the field(s) of the method
replaced and `Found = true`, the records of the other JIDs being unchanged; if
it fails its error is returned and neither the table nor `p` changes. -/
theorem contact_name_write_iff_differs (s : SQLStore) (xerr : Option Error) (user : JID)
    (n first full : String) :
    (((PutPushName s none xerr user n).2.2.2.2.filter ContactCall.isWrite =
        if (contactBefore s user).PushName = n then [] else [.putPushName user n]) ∧
      ((contactBefore s user).PushName = n →
        (PutPushName s none xerr user n).1.contacts = s.contacts ∧
        (PutPushName s none xerr user n).1.contactCache.lookup user = some (contactBefore s user) ∧
        (∀ j, j ≠ user → (PutPushName s none xerr user n).1.contactCache.lookup j = s.contactCache.lookup j) ∧
        (s.contactCache.lookup user ≠ none → (PutPushName s none xerr user n).1 = s)) ∧
      (¬ ((contactBefore s user).PushName = n) → xerr = none →
        (PutPushName s none xerr user n).1.contacts = putPushNameQuery (pushNameRow s.JID user n) s.contacts ∧
        (PutPushName s none xerr user n).1.contactCache.lookup user =
          some { contactBefore s user with PushName := n, Found := true } ∧
        (∀ j, j ≠ user → (PutPushName s none xerr user n).1.contactCache.lookup j = s.contactCache.lookup j)) ∧
      (¬ ((contactBefore s user).PushName = n) → ∀ e, xerr = some e →
        (PutPushName s none xerr user n).2.2.2.1 = some e ∧
        (PutPushName s none xerr user n).1.contacts = s.contacts ∧
        (PutPushName s none xerr user n).1.contactCache.lookup user = some (contactBefore s user) ∧
        (∀ j, j ≠ user → (PutPushName s none xerr user n).1.contactCache.lookup j = s.contactCache.lookup j))) ∧
    (((PutBusinessName s none xerr user n).2.2.2.2.filter ContactCall.isWrite =
        if (contactBefore s user).BusinessName = n then [] else [.putBusinessName user n]) ∧
      ((contactBefore s user).BusinessName = n →
        (PutBusinessName s none xerr user n).1.contacts = s.contacts ∧
        (PutBusinessName s none xerr user n).1.contactCache.lookup user = some (contactBefore s user) ∧
        (∀ j, j ≠ user → (PutBusinessName s none xerr user n).1.contactCache.lookup j = s.contactCache.lookup j) ∧
        (s.contactCache.lookup user ≠ none → (PutBusinessName s none xerr user n).1 = s)) ∧
      (¬ ((contactBefore s user).BusinessName = n) → xerr = none →
        (PutBusinessName s none xerr user n).1.contacts = putBusinessNameQuery (businessNameRow s.JID user n) s.contacts ∧
        (PutBusinessName s none xerr user n).1.contactCache.lookup user =
          some { contactBefore s user with BusinessName := n, Found := true } ∧
        (∀ j, j ≠ user → (PutBusinessName s none xerr user n).1.contactCache.lookup j = s.contactCache.lookup j)) ∧
      (¬ ((contactBefore s user).BusinessName = n) → ∀ e, xerr = some e →
        (PutBusinessName s none xerr user n).2.2.2.1 = some e ∧
        (PutBusinessName s none xerr user n).1.contacts = s.contacts ∧
        (PutBusinessName s none xerr user n).1.contactCache.lookup user = some (contactBefore s user) ∧
        (∀ j, j ≠ user → (PutBusinessName s none xerr user n).1.contactCache.lookup j = s.contactCache.lookup j))) ∧
    (((PutContactName s none xerr user first full).2.2.filter ContactCall.isWrite =
        if (contactBefore s user).FirstName = first ∧ (contactBefore s user).FullName = full then [] else [.putContactName user first full]) ∧
      ((contactBefore s user).FirstName = first ∧ (contactBefore s user).FullName = full →
        (PutContactName s none xerr user first full).1.contacts = s.contacts ∧
        (PutContactName s none xerr user first full).1.contactCache.lookup user = some (contactBefore s user) ∧
        (∀ j, j ≠ user → (PutContactName s none xerr user first full).1.contactCache.lookup j = s.contactCache.lookup j) ∧
        (s.contactCache.lookup user ≠ none → (PutContactName s none xerr user first full).1 = s)) ∧
      (¬ ((contactBefore s user).FirstName = first ∧ (contactBefore s user).FullName = full) → xerr = none →
        (PutContactName s none xerr user first full).1.contacts = putContactNameQuery (contactNameRow s.JID user first full) s.contacts ∧
        (PutContactName s none xerr user first full).1.contactCache.lookup user =
          some { contactBefore s user with FirstName := first, FullName := full, Found := true } ∧
        (∀ j, j ≠ user → (PutContactName s none xerr user first full).1.contactCache.lookup j = s.contactCache.lookup j)) ∧
      (¬ ((contactBefore s user).FirstName = first ∧ (contactBefore s user).FullName = full) → ∀ e, xerr = some e →
        (PutContactName s none xerr user first full).2.1 = some e ∧
        (PutContactName s none xerr user first full).1.contacts = s.contacts ∧
        (PutContactName s none xerr user first full).1.contactCache.lookup user = some (contactBefore s user) ∧
        (∀ j, j ≠ user → (PutContactName s none xerr user first full).1.contactCache.lookup j = s.contactCache.lookup j))) :=
  ⟨PutPushName_write s xerr user n, PutBusinessName_write s xerr user n,
    PutContactName_write s xerr user first full⟩

/-- Witness of `contact_name_write_iff_differs`: with the push name `Alice`
cached, `PutPushName(alice, "Alice")` makes no write and leaves the store as it
is, and `PutPushName(alice, "Alicia")` makes one upsert, after which the cache
holds `Alicia` for Alice. -/
theorem contact_name_write_iff_differs_witness :
    (PutPushName storeWithAlicePushName none none aliceJID "Alice").2.2.2.2.filter
        ContactCall.isWrite = [] ∧
    (PutPushName storeWithAlicePushName none none aliceJID "Alice").1 =
      storeWithAlicePushName ∧
    (PutPushName storeWithAlicePushName none none aliceJID "Alicia").2.2.2.2.filter
        ContactCall.isWrite = [.putPushName aliceJID "Alicia"] ∧
    (PutPushName storeWithAlicePushName none none aliceJID "Alicia").1.contactCache.lookup
        aliceJID = some (contactWithPushName "Alicia") :=
  ⟨(contact_name_write_iff_differs storeWithAlicePushName none aliceJID "Alice" "" "").1.1,
    ((contact_name_write_iff_differs storeWithAlicePushName none aliceJID "Alice" ""
      "").1.2.1 (by decide)).2.2.2 (by decide),
    (contact_name_write_iff_differs storeWithAlicePushName none aliceJID "Alicia" "" "").1.1,
    ((contact_name_write_iff_differs storeWithAlicePushName none aliceJID "Alicia" ""
      "").1.2.2.1 (by decide) rfl).2.1⟩

/-- C20. The contact cache after the push names of two contacts are put.  On
an empty database with an empty cache, `PutPushName(alice, "Alice")` and then
`PutPushName(bob, "Bob")` both return `changed = true`; the table, whose
primary key is `our_jid` alone, then holds the single row of Alice with the
push name `Bob`, while the cache holds `Alice` for Alice and a found record
`Bob` for Bob, who has no row: the cache is coherent before the second call
and not after it.  A `GetContact(alice)` right after the first call returns
`Alice` with `Found = true` and makes no query. -/
theorem contact_cache_incoherent_after_second_contact :
    cacheCoherent { JID := "dev" } = true ∧
    PutPushName { JID := "dev" } none none aliceJID "Alice" =
      (storeWithAlicePushName, true, "", none, [.query aliceJID, .putPushName aliceJID "Alice"]) ∧
    cacheCoherent storeWithAlicePushName = true ∧
    GetContact storeWithAlicePushName none aliceJID =
      (storeWithAlicePushName, contactWithPushName "Alice", none, []) ∧
    PutPushName storeWithAlicePushName none none bobJID "Bob" =
      (storeWithTwoPushNames, true, "", none, [.query bobJID, .putPushName bobJID "Bob"]) ∧
    storeWithTwoPushNames.contacts = [pushNameRow "dev" aliceJID "Bob"] ∧
    storeWithTwoPushNames.contactCache.lookup aliceJID = some (contactWithPushName "Alice") ∧
    storedContact storeWithTwoPushNames aliceJID = contactWithPushName "Bob" ∧
    storeWithTwoPushNames.contactCache.lookup bobJID = some (contactWithPushName "Bob") ∧
    storedContact storeWithTwoPushNames bobJID = contactNotFound ∧
    cacheCoherent storeWithTwoPushNames = false := by
  refine ⟨?_, ?_, ?_, ?_, ?_, ?_, ?_, ?_, ?_, ?_, ?_⟩ <;> decide

/-! ## The migrator -/

theorem execSchemaAll_ok_log {σ : Type} (B : SchemaBackend σ) (stmts : List SchemaStmt) :
    ∀ (db db1 : Database σ) (log : List SchemaCall),
      execSchemaAll B stmts db = (.ok db1, log) → log = stmts.map SchemaCall.exec := by
  induction stmts with
  | nil =>
    intro db db1 log h
    simp only [execSchemaAll, Prod.mk.injEq] at h
    simp [h.2.symm]
  | cons st rest ih =>
    intro db db1 log h
    simp only [execSchemaAll] at h
    cases hx : execStmt B db st with
    | error err => rw [hx] at h; simp at h
    | ok db2 =>
      rw [hx] at h
      simp only at h
      generalize hr : execSchemaAll B rest db2 = res at h
      obtain ⟨r, log1⟩ := res
      simp only [Prod.mk.injEq] at h
      obtain ⟨h1, h2⟩ := h
      subst h1
      rw [← h2, ih db2 db1 log1 hr]
      rfl

theorem setVersion_ok {σ : Type} (B : SchemaBackend σ) (tx tx2 : Database σ) (version : Nat)
    (log : List SchemaCall) (h : setVersion B tx version = (.ok tx2, log)) :
    tx2.version = some [version] ∧ tx2.schema = tx.schema ∧
      log = [.exec .deleteVersion, .exec (.insertVersion version)] := by
  have hlog := execSchemaAll_ok_log B _ tx tx2 log h
  refine ⟨?_, ?_, hlog⟩ <;>
  · simp only [setVersion, execSchemaAll, execStmt] at h
    cases hf : B.versionFault tx .deleteVersion with
    | some err => rw [hf] at h; simp at h
    | none =>
      rw [hf] at h
      cases hv : tx.version with
      | none => rw [hv] at h; simp at h
      | some rows =>
        rw [hv] at h
        simp only at h
        cases hf2 : B.versionFault { tx with version := some [] } (.insertVersion version) with
        | some err => rw [hf2] at h; simp at h
        | none =>
          rw [hf2] at h
          simp only [List.nil_append, Prod.mk.injEq, Except.ok.injEq] at h
          rw [← h.1]

theorem upgradeSteps_success {σ : Type} (B : SchemaBackend σ) :
    ∀ (fs : List (List SchemaStmt)) (version : Nat) (db db1 : Database σ)
      (log : List SchemaCall),
      upgradeSteps B fs version db = (db1, none, log) →
      log = upgradeCalls fs version ∧ (fs = [] → db1 = db) ∧
        (fs ≠ [] → db1.version = some [version + fs.length]) := by
  intro fs
  induction fs with
  | nil =>
    intro version db db1 log h
    simp only [upgradeSteps, Prod.mk.injEq] at h
    exact ⟨by simp [upgradeCalls, h.2.2.symm], fun _ => h.1.symm, fun hf => absurd rfl hf⟩
  | cons f rest ih =>
    intro version db db1 log h
    simp only [upgradeSteps] at h
    cases hb : B.beginErr db with
    | some err => rw [hb] at h; simp at h
    | none =>
      rw [hb] at h
      simp only at h
      generalize hr1 : execSchemaAll B f db = res1 at h
      obtain ⟨r1, log1⟩ := res1
      cases r1 with
      | error err => simp at h
      | ok tx1 =>
        simp only at h
        generalize hr2 : setVersion B tx1 (version + 1) = res2 at h
        obtain ⟨r2, log2⟩ := res2
        cases r2 with
        | error err => simp at h
        | ok tx2 =>
          simp only at h
          cases hc : B.commitErr tx2 with
          | some err => rw [hc] at h; simp at h
          | none =>
            rw [hc] at h
            simp only at h
            generalize hr3 : upgradeSteps B rest (version + 1) tx2 = res3 at h
            obtain ⟨db3, err3, log3⟩ := res3
            simp only [Prod.mk.injEq] at h
            obtain ⟨h1, h2, h3⟩ := h
            subst h1
            subst h2
            obtain ⟨hl3, hnil, hcons⟩ := ih (version + 1) tx2 db3 log3 hr3
            obtain ⟨hv2, _, hl2⟩ := setVersion_ok B tx1 tx2 (version + 1) log2 hr2
            have hl1 := execSchemaAll_ok_log B f db tx1 log1 hr1
            refine ⟨?_, fun hf => by simp at hf, fun _ => ?_⟩
            · rw [← h3, hl1, hl2, hl3]
              simp [upgradeCalls, transitionCalls]
            · by_cases hrest : rest = []
              · rw [hnil hrest, hv2, hrest]
                simp
              · rw [hcons hrest]
                simp only [List.length_cons]
                congr 2
                omega

theorem upgradeSteps_append {σ : Type} (B : SchemaBackend σ) (fs2 : List (List SchemaStmt)) :
    ∀ (fs1 : List (List SchemaStmt)) (version : Nat) (db : Database σ),
      upgradeSteps B (fs1 ++ fs2) version db =
        match upgradeSteps B fs1 version db with
        | (db1, none, log1) =>
          match upgradeSteps B fs2 (version + fs1.length) db1 with
          | (db2, err, log2) => (db2, err, log1 ++ log2)
        | (db1, some err, log1) => (db1, some err, log1) := by
  intro fs1
  induction fs1 with
  | nil =>
    intro version db
    simp [upgradeSteps]
  | cons f rest ih =>
    intro version db
    simp only [List.cons_append, upgradeSteps]
    cases hb : B.beginErr db with
    | some err => rfl
    | none =>
      simp only
      generalize execSchemaAll B f db = res1
      obtain ⟨r1, log1⟩ := res1
      cases r1 with
      | error err => rfl
      | ok tx1 =>
        simp only
        generalize setVersion B tx1 (version + 1) = res2
        obtain ⟨r2, log2⟩ := res2
        cases r2 with
        | error err => rfl
        | ok tx2 =>
          simp only
          cases hc : B.commitErr tx2 with
          | some err => rfl
          | none =>
            simp only [List.append_eq]
            rw [ih (version + 1) tx2]
            generalize upgradeSteps B rest (version + 1) tx2 = res3
            obtain ⟨db3, err3, log3⟩ := res3
            cases err3 with
            | some err => rfl
            | none =>
              simp only [List.length_cons]
              have hv : version + 1 + rest.length = version + (rest.length + 1) := by omega
              rw [hv]
              generalize upgradeSteps B fs2 (version + (rest.length + 1)) db3 = res4
              obtain ⟨db4, err4, log4⟩ := res4
              simp

theorem infoVersions_append (l1 l2 : List SchemaCall) :
    infoVersions (l1 ++ l2) = infoVersions l1 ++ infoVersions l2 := by
  induction l1 with
  | nil => rfl
  | cons c rest ih => cases c <;> simp [infoVersions, ih]

theorem infoVersions_map_exec (stmts : List SchemaStmt) :
    infoVersions (stmts.map SchemaCall.exec) = [] := by
  induction stmts with
  | nil => rfl
  | cons st rest ih => simp [infoVersions, ih]

theorem infoVersions_upgradeCalls :
    ∀ (fs : List (List SchemaStmt)) (version : Nat),
      infoVersions (upgradeCalls fs version) = List.range' (version + 1) fs.length := by
  intro fs
  induction fs with
  | nil => intro version; rfl
  | cons f rest ih =>
    intro version
    simp only [upgradeCalls, transitionCalls, List.cons_append, infoVersions, List.append_eq,
      infoVersions_append, infoVersions_map_exec, List.nil_append, ih, List.length_cons,
      List.range'_succ]

theorem getVersion_ok {σ : Type} (B : SchemaBackend σ) (db db1 : Database σ) (version : Int)
    (log : List SchemaCall) (h : getVersion B db = (db1, version, none, log)) :
    db1 = { db with version := some (db.version.getD []) } ∧ version = (scanVersion db : Nat) ∧
      scanVersion db1 = scanVersion db ∧ log = [.exec .createVersionTable, .queryVersion] := by
  simp only [getVersion, execStmt] at h
  cases hf : B.versionFault db .createVersionTable with
  | some err => rw [hf] at h; simp at h
  | none =>
    rw [hf] at h
    simp only [Prod.mk.injEq, true_and] at h
    obtain ⟨h1, h2, h3⟩ := h
    have hs : scanVersion ({ db with version := some (db.version.getD []) } : Database σ) =
        scanVersion db := by
      cases hv : db.version with
      | none => simp [scanVersion, hv]
      | some rows => simp [scanVersion, hv]
    rw [← h1]
    refine ⟨rfl, ?_, hs, h3.symm⟩
    rw [← h2, hs]

theorem Upgrades_length (dialect : String) : (Upgrades dialect).length = 6 := rfl

/-- C23. The migrator as a state machine over the versions `0..6`.  When
`Upgrade` returns nil on a database whose stored version `v` (the first row of
`whatsmeow_version`, `0` without one) is at most `6`, its calls are the check
of the foreign keys, the two calls of `getVersion` and then, for the upgrade
functions `Upgrades[v], ..., Upgrades[5]` in this order and no other, one
transition each: `Begin`, the log line, the statements of the function, the
`DELETE` and the `INSERT` of `setVersion` with the version plus one, `Commit`.
The functions started are those leading to the versions `v+1, ..., 6`, each
once; afterwards the stored version is `6`, and the version table holds the
single row `6` when a transition was made or when it held the single row `v`
before. -/
theorem Upgrade_applies_remaining_steps {σ : Type} (B : SchemaBackend σ) (dialect : String)
    (db db1 : Database σ) (log : List SchemaCall)
    (hv : scanVersion db ≤ 6)
    (hok : Upgrade B dialect db = (db1, none, log)) :
    log = (foreignKeysCheck B dialect).2 ++ [.exec .createVersionTable, .queryVersion] ++
        upgradeCalls ((Upgrades dialect).drop (scanVersion db)) (scanVersion db) ∧
      infoVersions log = List.range' (scanVersion db + 1) (6 - scanVersion db) ∧
      scanVersion db1 = 6 ∧
      (scanVersion db < 6 → db1.version = some [6]) ∧
      (db.version = some [scanVersion db] → db1.version = some [6]) := by
  simp only [Upgrade] at hok
  generalize hfk : foreignKeysCheck B dialect = fk at hok ⊢
  obtain ⟨fkErr, fkLog⟩ := fk
  have hfkInfo : infoVersions fkLog = [] := by
    simp only [foreignKeysCheck] at hfk
    split at hfk
    · split at hfk <;> simp only [Prod.mk.injEq] at hfk <;> rw [← hfk.2] <;> rfl
    · simp only [Prod.mk.injEq] at hfk
      rw [← hfk.2]
      rfl
  cases fkErr with
  | some err => simp at hok
  | none =>
    simp only at hok
    generalize hg : getVersion B db = g at hok
    obtain ⟨dbg, version, gErr, gLog⟩ := g
    cases gErr with
    | some err => simp at hok
    | none =>
      simp only at hok
      obtain ⟨hdbg, hversion, hscan, hgLog⟩ := getVersion_ok B db dbg version gLog hg
      rw [hversion] at hok
      simp only [Int.toNat_ofNat] at hok
      generalize hs : upgradeSteps B ((Upgrades dialect).drop (scanVersion db))
        (scanVersion db) dbg = st at hok
      obtain ⟨db2, err2, log2⟩ := st
      simp only [Prod.mk.injEq] at hok
      obtain ⟨h1, h2, h3⟩ := hok
      subst h1
      subst h2
      obtain ⟨hlog2, hnil, hcons⟩ := upgradeSteps_success B _ _ dbg db2 log2 hs
      have hlen : ((Upgrades dialect).drop (scanVersion db)).length = 6 - scanVersion db := by
        rw [List.length_drop, Upgrades_length]
      have hlog : log = fkLog ++ [.exec .createVersionTable, .queryVersion] ++
          upgradeCalls ((Upgrades dialect).drop (scanVersion db)) (scanVersion db) := by
        rw [← h3, hgLog, hlog2]
      have hfinal : scanVersion db < 6 → db2.version = some [6] := by
        intro hlt
        have hne : (Upgrades dialect).drop (scanVersion db) ≠ [] := by
          intro hnil1
          rw [hnil1] at hlen
          simp at hlen
          omega
        rw [hcons hne, hlen]
        congr 2
        omega
      have hkeep : ¬ scanVersion db < 6 → db2 = dbg := by
        intro hge
        apply hnil
        apply List.eq_nil_of_length_eq_zero
        rw [hlen]
        omega
      refine ⟨hlog, ?_, ?_, hfinal, ?_⟩
      · rw [hlog]
        simp only [infoVersions_append, hfkInfo, infoVersions_upgradeCalls, hlen]
        rfl
      · by_cases hlt : scanVersion db < 6
        · simp [scanVersion, hfinal hlt]
        · rw [hkeep hlt, hscan]
          omega
      · intro hsingle
        by_cases hlt : scanVersion db < 6
        · exact hfinal hlt
        · rw [hkeep hlt, hdbg]
          have h6 : scanVersion db = 6 := by omega
          simp [hsingle, h6]

/-- Witness of `Upgrade_applies_remaining_steps`: on the empty database and a
backend without faults, `Upgrade` returns nil, starts the upgrade functions
leading to the versions `1, ..., 6` in this order and leaves the single row `6`
in the version table. -/
theorem Upgrade_applies_remaining_steps_witness :
    (Upgrade soundBackend "mysql" emptyDatabase).2.1 = none ∧
    infoVersions (Upgrade soundBackend "mysql" emptyDatabase).2.2 = [1, 2, 3, 4, 5, 6] ∧
    (Upgrade soundBackend "mysql" emptyDatabase).1.version = some [6] :=
  ⟨by decide,
    (Upgrade_applies_remaining_steps soundBackend "mysql" emptyDatabase
      (Upgrade soundBackend "mysql" emptyDatabase).1
      (Upgrade soundBackend "mysql" emptyDatabase).2.2 (by decide) (by decide)).2.1,
    (Upgrade_applies_remaining_steps soundBackend "mysql" emptyDatabase
      (Upgrade soundBackend "mysql" emptyDatabase).1
      (Upgrade soundBackend "mysql" emptyDatabase).2.2 (by decide) (by decide)).2.2.2.1
      (by decide)⟩

theorem foreignKeysCheck_other_dialect {σ : Type} (B : SchemaBackend σ) (dialect : String)
    (h : dialect ≠ "sqlite") : foreignKeysCheck B dialect = (none, []) := by
  simp [foreignKeysCheck, h]

/-- C26. The migrator refuses to proceed on SQLite without foreign keys.  For a
container of the dialect `sqlite`, when the query `PRAGMA foreign_keys` does
not report that foreign keys are enabled, `Upgrade` returns an error (the
wrapped error of the query when it fails, `foreign keys are not enabled` when it
reports `false`), makes no other call than that query (the version table is
neither created nor read, no upgrade function is started) and leaves the
database as it is. -/
theorem Upgrade_requires_foreign_keys {σ : Type} (B : SchemaBackend σ) (db : Database σ)
    (hfk : B.foreignKeys ≠ .row true) :
    (Upgrade B "sqlite" db).1 = db ∧
    (Upgrade B "sqlite" db).2.1 ≠ none ∧
    (Upgrade B "sqlite" db).2.2 = [.pragmaForeignKeys] ∧
    (B.foreignKeys = .row false →
      (Upgrade B "sqlite" db).2.1 = some errForeignKeysNotEnabled) ∧
    (∀ err, B.foreignKeys = .failed err →
      (Upgrade B "sqlite" db).2.1 =
        some (.wrapped "failed to check if foreign keys are enabled" err)) := by
  cases hq : B.foreignKeys with
  | failed err => simp [Upgrade, foreignKeysCheck, hq]
  | noRows => simp [Upgrade, foreignKeysCheck, hq]
  | row enabled =>
    cases enabled with
    | false => simp [Upgrade, foreignKeysCheck, hq]
    | true => exact absurd hq hfk

/-- Witness of `Upgrade_requires_foreign_keys`: with foreign keys reported as
disabled, `Upgrade` on the empty database returns `foreign keys are not
enabled` after the single call of the query. -/
theorem Upgrade_requires_foreign_keys_witness :
    Upgrade (tableBackend (fun _ => none) (fun _ => none) (.row false)) "sqlite" emptyDatabase =
      (emptyDatabase, some errForeignKeysNotEnabled, [.pragmaForeignKeys]) :=
  have h := Upgrade_requires_foreign_keys
    (tableBackend (fun _ => none) (fun _ => none) (.row false)) emptyDatabase (by decide)
  Prod.ext h.1 (Prod.ext (h.2.2.2.1 rfl) h.2.2.1)

theorem upgradeSteps_failed {σ : Type} (B : SchemaBackend σ) :
    ∀ (fs : List (List SchemaStmt)) (version : Nat) (db db1 : Database σ) (err : Error)
      (log : List SchemaCall),
      upgradeSteps B fs version db = (db1, some err, log) →
      ∃ k, k < fs.length ∧ (upgradeSteps B (fs.take k) version db).1 = db1 ∧
        (upgradeSteps B (fs.take k) version db).2.1 = none := by
  intro fs
  induction fs with
  | nil =>
    intro version db db1 err log h
    simp [upgradeSteps] at h
  | cons f rest ih =>
    intro version db db1 err log h
    simp only [upgradeSteps] at h
    cases hb : B.beginErr db with
    | some e1 =>
      rw [hb] at h
      simp only [Prod.mk.injEq] at h
      exact ⟨0, by simp, by simp [upgradeSteps, h.1], by simp [upgradeSteps]⟩
    | none =>
      rw [hb] at h
      simp only at h
      generalize hr1 : execSchemaAll B f db = res1 at h
      obtain ⟨r1, log1⟩ := res1
      cases r1 with
      | error e1 =>
        simp only [Prod.mk.injEq] at h
        exact ⟨0, by simp, by simp [upgradeSteps, h.1], by simp [upgradeSteps]⟩
      | ok tx1 =>
        simp only at h
        generalize hr2 : setVersion B tx1 (version + 1) = res2 at h
        obtain ⟨r2, log2⟩ := res2
        cases r2 with
        | error e1 =>
          simp only [Prod.mk.injEq] at h
          exact ⟨0, by simp, by simp [upgradeSteps, h.1], by simp [upgradeSteps]⟩
        | ok tx2 =>
          simp only at h
          cases hc : B.commitErr tx2 with
          | some e1 =>
            rw [hc] at h
            simp only [Prod.mk.injEq] at h
            exact ⟨0, by simp, by simp [upgradeSteps, h.1], by simp [upgradeSteps]⟩
          | none =>
            rw [hc] at h
            simp only at h
            generalize hr3 : upgradeSteps B rest (version + 1) tx2 = res3 at h
            obtain ⟨db3, err3, log3⟩ := res3
            simp only [Prod.mk.injEq] at h
            obtain ⟨h1, h2, _⟩ := h
            subst h1
            subst h2
            obtain ⟨k, hk, hdb, hnone⟩ := ih (version + 1) tx2 db3 err log3 hr3
            refine ⟨k + 1, by simp [hk], ?_, ?_⟩
            · simp only [List.take_succ_cons, upgradeSteps, hb, hr1, hr2, hc]
              exact hdb
            · simp only [List.take_succ_cons, upgradeSteps, hb, hr1, hr2, hc]
              exact hnone

theorem infoVersions_foreignKeysCheck {σ : Type} (B : SchemaBackend σ) (dialect : String) :
    infoVersions (foreignKeysCheck B dialect).2 = [] := by
  simp only [foreignKeysCheck]
  split
  · split <;> rfl
  · rfl

theorem getVersion_of_no_fault {σ : Type} (B : SchemaBackend σ) (db : Database σ)
    (hf : B.versionFault db .createVersionTable = none) :
    getVersion B db = (({ db with version := some (db.version.getD []) } : Database σ),
      ((scanVersion db : Nat) : Int), (none : Option Error),
      [SchemaCall.exec .createVersionTable, SchemaCall.queryVersion]) := by
  have hs : scanVersion ({ db with version := some (db.version.getD []) } : Database σ) =
      scanVersion db := by
    cases hv : db.version with
    | none => simp [scanVersion, hv]
    | some rows => simp [scanVersion, hv]
  simp only [getVersion, execStmt, hf, hs]

theorem getVersion_of_table {σ : Type} (B : SchemaBackend σ) (db : Database σ)
    (rows : List Nat) (hv : db.version = some rows)
    (hf : B.versionFault db .createVersionTable = none) :
    getVersion B db = (db, ((scanVersion db : Nat) : Int), (none : Option Error),
      [SchemaCall.exec .createVersionTable, SchemaCall.queryVersion]) := by
  rw [getVersion_of_no_fault B db hf]
  obtain ⟨schema, version⟩ := db
  simp only at hv
  subst hv
  rfl

theorem Upgrade_of_getVersion {σ : Type} (B : SchemaBackend σ) (dialect : String)
    (db dbg : Database σ) (gLog : List SchemaCall)
    (hfk : (foreignKeysCheck B dialect).1 = none)
    (hg : getVersion B db = (dbg, ((scanVersion db : Nat) : Int), (none : Option Error), gLog)) :
    Upgrade B dialect db =
      ((upgradeSteps B ((Upgrades dialect).drop (scanVersion db)) (scanVersion db) dbg).1,
        (upgradeSteps B ((Upgrades dialect).drop (scanVersion db)) (scanVersion db) dbg).2.1,
        (foreignKeysCheck B dialect).2 ++ gLog ++
          (upgradeSteps B ((Upgrades dialect).drop (scanVersion db)) (scanVersion db)
            dbg).2.2) := by
  simp only [Upgrade]
  generalize hc : foreignKeysCheck B dialect = fk at hfk ⊢
  obtain ⟨fkErr, fkLog⟩ := fk
  simp only at hfk
  subst hfk
  simp only [hg, Int.toNat_ofNat]

theorem Upgrade_ok_inv {σ : Type} (B : SchemaBackend σ) (dialect : String)
    (db db1 : Database σ) (log : List SchemaCall)
    (hok : Upgrade B dialect db = (db1, none, log)) :
    (foreignKeysCheck B dialect).1 = none ∧
      B.versionFault db .createVersionTable = none ∧
      upgradeSteps B ((Upgrades dialect).drop (scanVersion db)) (scanVersion db)
          { db with version := some (db.version.getD []) } =
        (db1, none, (upgradeSteps B ((Upgrades dialect).drop (scanVersion db)) (scanVersion db)
          { db with version := some (db.version.getD []) }).2.2) := by
  have hfk : (foreignKeysCheck B dialect).1 = none := by
    simp only [Upgrade] at hok
    generalize foreignKeysCheck B dialect = fk at hok ⊢
    obtain ⟨fkErr, fkLog⟩ := fk
    cases fkErr with
    | some err => simp at hok
    | none => rfl
  have hf : B.versionFault db .createVersionTable = none := by
    cases hf : B.versionFault db .createVersionTable with
    | none => rfl
    | some err =>
      simp only [Upgrade] at hok
      generalize foreignKeysCheck B dialect = fk at hok hfk
      obtain ⟨fkErr, fkLog⟩ := fk
      simp only at hfk
      subst hfk
      simp [getVersion, execStmt, hf] at hok
  refine ⟨hfk, hf, ?_⟩
  rw [Upgrade_of_getVersion B dialect db _ _ hfk (getVersion_of_no_fault B db hf)] at hok
  simp only [Prod.mk.injEq] at hok
  exact Prod.ext hok.1 (Prod.ext hok.2.1 rfl)

theorem Upgrade_of_getVersion_fault {σ : Type} (B : SchemaBackend σ) (dialect : String)
    (db : Database σ) (err : Error)
    (hfk : (foreignKeysCheck B dialect).1 = none)
    (hf : B.versionFault db .createVersionTable = some err) :
    Upgrade B dialect db =
      (db, some err, (foreignKeysCheck B dialect).2 ++ [.exec .createVersionTable]) := by
  simp only [Upgrade]
  generalize foreignKeysCheck B dialect = fk at hfk ⊢
  obtain ⟨fkErr, fkLog⟩ := fk
  simp only at hfk
  subst hfk
  simp [getVersion, execStmt, hf]

theorem drop_Upgrades_eq_nil (dialect : String) (n : Nat) (h : 6 ≤ n) :
    (Upgrades dialect).drop n = [] := by
  apply List.eq_nil_of_length_eq_zero
  rw [List.length_drop, Upgrades_length]
  omega

theorem Upgrade_at_latest {σ : Type} (B : SchemaBackend σ) (dialect : String)
    (db : Database σ) (rows : List Nat) (hv : db.version = some rows)
    (h6 : 6 ≤ scanVersion db) (hfk : (foreignKeysCheck B dialect).1 = none) :
    (Upgrade B dialect db).1 = db ∧ infoVersions (Upgrade B dialect db).2.2 = [] ∧
      (B.versionFault db .createVersionTable = none →
        Upgrade B dialect db = (db, none,
          (foreignKeysCheck B dialect).2 ++ [.exec .createVersionTable, .queryVersion])) := by
  cases hf : B.versionFault db .createVersionTable with
  | some err =>
    rw [Upgrade_of_getVersion_fault B dialect db err hfk hf]
    refine ⟨rfl, ?_, fun h => by simp at h⟩
    simp only [infoVersions_append, infoVersions_foreignKeysCheck]
    rfl
  | none =>
    have hu := Upgrade_of_getVersion B dialect db db _ hfk (getVersion_of_table B db rows hv hf)
    rw [drop_Upgrades_eq_nil dialect _ h6] at hu
    simp only [upgradeSteps, List.append_nil] at hu
    rw [hu]
    refine ⟨rfl, ?_, fun _ => rfl⟩
    simp only [infoVersions_append, infoVersions_foreignKeysCheck]
    rfl

theorem upgradeSteps_success_version {σ : Type} (B : SchemaBackend σ)
    (fs : List (List SchemaStmt)) (version : Nat) (db db1 : Database σ) (log : List SchemaCall)
    (rows : List Nat) (hv : db.version = some rows) (hs : scanVersion db = version)
    (h : upgradeSteps B fs version db = (db1, none, log)) :
    (∃ rows1, db1.version = some rows1) ∧ scanVersion db1 = version + fs.length ∧
      infoVersions log = List.range' (version + 1) fs.length := by
  obtain ⟨hlog, hnil, hcons⟩ := upgradeSteps_success B fs version db db1 log h
  refine ⟨?_, ?_, by rw [hlog, infoVersions_upgradeCalls]⟩
  · by_cases hfs : fs = []
    · exact ⟨rows, by rw [hnil hfs, hv]⟩
    · exact ⟨_, hcons hfs⟩
  · by_cases hfs : fs = []
    · rw [hnil hfs, hs, hfs]
      rfl
    · simp [scanVersion, hcons hfs]

theorem scanVersion_created {σ : Type} (db : Database σ) :
    scanVersion ({ db with version := some (db.version.getD []) } : Database σ) =
      scanVersion db := by
  cases hv : db.version with
  | none => simp [scanVersion, hv]
  | some rows => simp [scanVersion, hv]

/-- C25. `Upgrade` is idempotent and restart-safe.  After an `Upgrade` that
returned nil, a second `Upgrade` starts no upgrade function and leaves the
database, the version table included, as it is; it returns nil after the calls
of the check and of `getVersion` unless the backend fails its `CREATE TABLE IF
NOT EXISTS`.  And when an `Upgrade` is stopped after `k` committed transitions,
`k` at most the number of functions left, an `Upgrade` run on the database so
reached ends in the same database and with the same result as the
uninterrupted `Upgrade`, and the functions committed before the stop followed
by the functions the second run starts are the functions the uninterrupted run
starts: those leading to the versions `v+1, ..., 6`, each once and in order,
when it returns nil. -/
theorem Upgrade_idempotent_and_restart_safe {σ : Type} (B : SchemaBackend σ)
    (dialect : String) (db : Database σ) :
    (∀ (db1 : Database σ) (log : List SchemaCall), Upgrade B dialect db = (db1, none, log) →
      (Upgrade B dialect db1).1 = db1 ∧
      infoVersions (Upgrade B dialect db1).2.2 = [] ∧
      (B.versionFault db1 .createVersionTable = none →
        Upgrade B dialect db1 = (db1, none,
          (foreignKeysCheck B dialect).2 ++ [.exec .createVersionTable, .queryVersion]))) ∧
    (∀ (k : Nat) (dbk : Database σ) (logk : List SchemaCall),
      k ≤ 6 - scanVersion db →
      (foreignKeysCheck B dialect).1 = none →
      B.versionFault db .createVersionTable = none →
      upgradeSteps B (((Upgrades dialect).drop (scanVersion db)).take k) (scanVersion db)
        { db with version := some (db.version.getD []) } = (dbk, none, logk) →
      B.versionFault dbk .createVersionTable = none →
      (Upgrade B dialect dbk).1 = (Upgrade B dialect db).1 ∧
      (Upgrade B dialect dbk).2.1 = (Upgrade B dialect db).2.1 ∧
      infoVersions logk ++ infoVersions (Upgrade B dialect dbk).2.2 =
        infoVersions (Upgrade B dialect db).2.2 ∧
      ((Upgrade B dialect db).2.1 = none →
        infoVersions (Upgrade B dialect db).2.2 =
          List.range' (scanVersion db + 1) (6 - scanVersion db))) := by
  constructor
  · intro db1 log hok
    obtain ⟨hfk, hf, hs⟩ := Upgrade_ok_inv B dialect db db1 log hok
    obtain ⟨⟨rows1, hrows1⟩, hscan1, _⟩ := upgradeSteps_success_version B _ _ _ db1 _
      (db.version.getD []) rfl (scanVersion_created db) hs
    have h6 : 6 ≤ scanVersion db1 := by
      rw [hscan1, List.length_drop, Upgrades_length]
      omega
    exact Upgrade_at_latest B dialect db1 rows1 hrows1 h6 hfk
  · intro k dbk logk hk hfk hf hstop hfk2
    have hlen : (((Upgrades dialect).drop (scanVersion db)).take k).length = k := by
      rw [List.length_take, List.length_drop, Upgrades_length]
      omega
    obtain ⟨⟨rowsk, hrowsk⟩, hscank, hinfok⟩ := upgradeSteps_success_version B _ _ _ dbk logk
      (db.version.getD []) rfl (scanVersion_created db) hstop
    rw [hlen] at hscank hinfok
    have hsplit : (Upgrades dialect).drop (scanVersion db) =
        ((Upgrades dialect).drop (scanVersion db)).take k ++
          (Upgrades dialect).drop (scanVersion dbk) := by
      rw [hscank, ← List.drop_drop, List.take_append_drop]
    have hu := Upgrade_of_getVersion B dialect db _ _ hfk (getVersion_of_no_fault B db hf)
    rw [hsplit, upgradeSteps_append, hstop, hlen, ← hscank] at hu
    have huk := Upgrade_of_getVersion B dialect dbk dbk _ hfk
      (getVersion_of_table B dbk rowsk hrowsk hfk2)
    generalize hr : upgradeSteps B ((Upgrades dialect).drop (scanVersion dbk))
      (scanVersion dbk) dbk = res at hu huk
    obtain ⟨db2, err2, log2⟩ := res
    simp only at hu
    rw [hr] at hu
    simp only at hu huk
    rw [hu, huk]
    refine ⟨rfl, rfl, ?_, ?_⟩
    · simp only [infoVersions_append, infoVersions_foreignKeysCheck, infoVersions,
        List.nil_append]
    · intro hnone
      simp only at hnone
      subst hnone
      obtain ⟨_, _, hinfo2⟩ := upgradeSteps_success_version B _ _ _ db2 log2 rowsk hrowsk rfl hr
      simp only [infoVersions_append, infoVersions_foreignKeysCheck, infoVersions,
        List.nil_append, hinfok, hinfo2, List.length_drop, Upgrades_length, hscank]
      have h1 : scanVersion db + k + 1 = scanVersion db + 1 + k := by omega
      rw [h1, List.range'_append_1]
      congr 1
      omega

/-- Witness of `Upgrade_idempotent_and_restart_safe`: on a backend without
faults, a second `Upgrade` after the `Upgrade` of the empty database starts no
function and changes nothing, and an `Upgrade` of the database reached after
two committed transitions ends in the database of the uninterrupted `Upgrade`,
the two runs together starting the functions `1, ..., 6`. -/
theorem Upgrade_idempotent_and_restart_safe_witness :
    ((Upgrade soundBackend "mysql" (Upgrade soundBackend "mysql" emptyDatabase).1).1 =
        (Upgrade soundBackend "mysql" emptyDatabase).1 ∧
      infoVersions
        (Upgrade soundBackend "mysql" (Upgrade soundBackend "mysql" emptyDatabase).1).2.2 =
          []) ∧
    ((Upgrade soundBackend "mysql" databaseAfterTwoSteps).1 =
        (Upgrade soundBackend "mysql" emptyDatabase).1 ∧
      (Upgrade soundBackend "mysql" databaseAfterTwoSteps).2.1 =
        (Upgrade soundBackend "mysql" emptyDatabase).2.1 ∧
      infoVersions (upgradeSteps soundBackend ((Upgrades "mysql").take 2) 0
          { schema := [], version := some [] }).2.2 ++
        infoVersions (Upgrade soundBackend "mysql" databaseAfterTwoSteps).2.2 =
          infoVersions (Upgrade soundBackend "mysql" emptyDatabase).2.2) ∧
    infoVersions (Upgrade soundBackend "mysql" databaseAfterTwoSteps).2.2 = [3, 4, 5, 6] :=
  ⟨⟨((Upgrade_idempotent_and_restart_safe soundBackend "mysql" emptyDatabase).1
        (Upgrade soundBackend "mysql" emptyDatabase).1
        (Upgrade soundBackend "mysql" emptyDatabase).2.2 (by decide)).1,
      ((Upgrade_idempotent_and_restart_safe soundBackend "mysql" emptyDatabase).1
        (Upgrade soundBackend "mysql" emptyDatabase).1
        (Upgrade soundBackend "mysql" emptyDatabase).2.2 (by decide)).2.1⟩,
    ⟨((Upgrade_idempotent_and_restart_safe soundBackend "mysql" emptyDatabase).2 2
        databaseAfterTwoSteps
        (upgradeSteps soundBackend ((Upgrades "mysql").take 2) 0
          { schema := [], version := some [] }).2.2
        (by decide) (by decide) (by decide) (by decide) (by decide)).1,
      ((Upgrade_idempotent_and_restart_safe soundBackend "mysql" emptyDatabase).2 2
        databaseAfterTwoSteps
        (upgradeSteps soundBackend ((Upgrades "mysql").take 2) 0
          { schema := [], version := some [] }).2.2
        (by decide) (by decide) (by decide) (by decide) (by decide)).2.1,
      ((Upgrade_idempotent_and_restart_safe soundBackend "mysql" emptyDatabase).2 2
        databaseAfterTwoSteps
        (upgradeSteps soundBackend ((Upgrades "mysql").take 2) 0
          { schema := [], version := some [] }).2.2
        (by decide) (by decide) (by decide) (by decide) (by decide)).2.2.1⟩,
    by decide⟩

/-- C24. A transition that fails in `setVersion` or at `Commit` is not rolled
back.  On the empty database, when the `INSERT` of the new version fails,
`Upgrade` returns the error of the statement and the version table stays
empty, but the last call is the failed `INSERT`: neither `Rollback` nor `Commit`
is called, the transaction is left open.  When `Commit` fails the last call is
that `Commit` and no `Rollback` follows.  Only when a statement of the upgrade
function fails is the last call `Rollback`.  In the three cases no later step is
started. -/
theorem Upgrade_failure_without_rollback :
    ((Upgrade insertVersionFails "mysql" emptyDatabase).1 = { schema := [], version := some [] } ∧
      (Upgrade insertVersionFails "mysql" emptyDatabase).2.1 = some errLockWait ∧
      (Upgrade insertVersionFails "mysql" emptyDatabase).2.2.getLast? =
        some (.exec (.insertVersion 1)) ∧
      SchemaCall.rollback ∉ (Upgrade insertVersionFails "mysql" emptyDatabase).2.2 ∧
      SchemaCall.commit ∉ (Upgrade insertVersionFails "mysql" emptyDatabase).2.2 ∧
      infoVersions (Upgrade insertVersionFails "mysql" emptyDatabase).2.2 = [1]) ∧
    ((Upgrade commitFails "mysql" emptyDatabase).1 = { schema := [], version := some [] } ∧
      (Upgrade commitFails "mysql" emptyDatabase).2.1 = some errLockWait ∧
      (Upgrade commitFails "mysql" emptyDatabase).2.2.getLast? = some .commit ∧
      SchemaCall.rollback ∉ (Upgrade commitFails "mysql" emptyDatabase).2.2 ∧
      infoVersions (Upgrade commitFails "mysql" emptyDatabase).2.2 = [1]) ∧
    ((Upgrade createContactsFails "mysql" emptyDatabase).1 =
        { schema := [], version := some [] } ∧
      (Upgrade createContactsFails "mysql" emptyDatabase).2.1 = some errLockWait ∧
      (Upgrade createContactsFails "mysql" emptyDatabase).2.2.getLast? = some .rollback ∧
      infoVersions (Upgrade createContactsFails "mysql" emptyDatabase).2.2 = [1]) := by
  refine ⟨⟨?_, ?_, ?_, ?_, ?_, ?_⟩, ⟨?_, ?_, ?_, ?_, ?_⟩, ⟨?_, ?_, ?_, ?_⟩⟩ <;> decide

/-! ## The declared keys -/

/-- C27. The primary keys the upgrade steps declare.  Of the eleven
device-scoped tables only `whatsmeow_sessions` and `whatsmeow_app_state_version`
declare a primary key that contains the columns of the record key of the data
model; the primary key of `whatsmeow_sender_keys` is `(our_jid, sender_id)`,
without `chat_id`, and the primary key of the other eight tables is the device
column alone.  So two contacts of one device, with different `their_jid`, have
the same primary key. -/
theorem declared_primary_keys :
    (childTables "mysql").map (fun t => (t.name, t.primaryKey)) =
      [("whatsmeow_identity_keys", ["our_jid"]),
        ("whatsmeow_pre_keys", ["jid"]),
        ("whatsmeow_sessions", ["our_jid", "their_id"]),
        ("whatsmeow_sender_keys", ["our_jid", "sender_id"]),
        ("whatsmeow_app_state_sync_keys", ["jid"]),
        ("whatsmeow_app_state_version", ["jid", "name"]),
        ("whatsmeow_app_state_mutation_macs", ["jid"]),
        ("whatsmeow_contacts", ["our_jid"]),
        ("whatsmeow_chat_settings", ["our_jid"]),
        ("whatsmeow_message_secrets", ["our_jid"]),
        ("whatsmeow_privacy_tokens", ["our_jid"])] ∧
    ((childTables "mysql").filter keyCoversDataModel).map (fun t => t.name) =
      ["whatsmeow_sessions", "whatsmeow_app_state_version"] ∧
    contactsPK (pushNameRow "dev" aliceJID "Alice") (pushNameRow "dev" bobJID "Bob") = true := by
  refine ⟨?_, ?_, ?_⟩ <;> decide

/-- C28. The foreign keys the upgrade steps declare.  Ten of the eleven child
tables declare a foreign key with `ON DELETE CASCADE` that leads to
`whatsmeow_device`, the mutation MACs through `whatsmeow_app_state_version`;
`whatsmeow_privacy_tokens` declares no foreign key at all, so deleting the row
of a device does not cascade to its privacy tokens. -/
theorem declared_foreign_keys :
    ((childTables "mysql").filter
        (cascadesFrom (schemaTables "mysql") "whatsmeow_device" 12)).map (fun t => t.name) =
      ["whatsmeow_identity_keys", "whatsmeow_pre_keys", "whatsmeow_sessions",
        "whatsmeow_sender_keys", "whatsmeow_app_state_sync_keys",
        "whatsmeow_app_state_version", "whatsmeow_app_state_mutation_macs",
        "whatsmeow_contacts", "whatsmeow_chat_settings", "whatsmeow_message_secrets"] ∧
    privacyTokensTable ∈ childTables "mysql" ∧
    privacyTokensTable.foreignKeys = [] ∧
    cascadesFrom (schemaTables "mysql") "whatsmeow_device" 12 privacyTokensTable = false ∧
    (appStateMutationMACsTable.foreignKeys.map (fun fk => fk.refTable)) =
      ["whatsmeow_app_state_version"] := by
  refine ⟨?_, ?_, ?_, ?_, ?_⟩ <;> decide

/-! ## Identity store: deletion -/

theorem likeMatch_literal :
    ∀ (pattern text : List Char),
      (∀ c ∈ pattern, c ≠ '%' ∧ c ≠ '_' ∧ c ≠ '\\') →
      likeMatch pattern text = decide (pattern = text) := by
  intro pattern
  induction pattern with
  | nil =>
    intro text _
    cases text <;> simp [likeMatch]
  | cons c rest ih =>
    intro text h
    obtain ⟨h1, h2, h3⟩ := h c (List.mem_cons_self _ _)
    have hrest : ∀ d ∈ rest, d ≠ '%' ∧ d ≠ '_' ∧ d ≠ '\\' :=
      fun d hd => h d (List.mem_cons_of_mem _ hd)
    cases text with
    | nil =>
      rw [likeMatch, if_neg h1, if_neg h2, if_neg h3]
      simp
    | cons d text1 =>
      rw [likeMatch.eq_def]
      simp only [h1, h2, h3, if_false, ih text1 hrest]
      by_cases hcd : c = d
      · subst hcd
        by_cases hrt : rest = text1 <;> simp [hrt]
      · simp [hcd]

theorem DeleteIdentity_literal (s : SQLStore) (address : String)
    (h : ∀ c ∈ address.toList, c ≠ '%' ∧ c ≠ '_' ∧ c ≠ '\\') :
    (DeleteIdentity s address).1.identityKeys =
      deleteIdentityQuery s.JID address s.identityKeys := by
  simp only [DeleteIdentity, deleteAllIdentitiesQuery, deleteIdentityQuery, deleteWhere]
  apply List.filter_congr
  intro r _
  rw [likeMatch_literal _ _ h]
  by_cases hr : r.their_id = address
  · simp [hr]
  · have hne : ¬ address.data = r.their_id.data := by
      intro he
      exact hr (String.ext he.symm)
    have hne2 : (r.their_id == address) = false := by simpa using hr
    simp [hne, hne2]

/-- C29. `DeleteIdentity` matches the address as a `LIKE` pattern.  On the store
that holds the identity of `bob:0`, `DeleteIdentity("b_b:0")` and
`DeleteIdentity("%")` remove the record of `bob:0`, whose address is not the
one given; the statement `deleteIdentityQuery`, which compares with `=` and
which `DeleteIdentity` does not use, removes nothing for these addresses.
`DeleteIdentity("bob:0")` removes the record, and `DeleteIdentity("alice:0")`
leaves it. -/
theorem DeleteIdentity_matches_pattern :
    storeWithBobIdentity.identityKeys =
      [{ our_jid := "dev", their_id := "bob:0", identity := List.replicate 32 1 }] ∧
    (DeleteIdentity storeWithBobIdentity "b_b:0").1.identityKeys = [] ∧
    (DeleteIdentity storeWithBobIdentity "%").1.identityKeys = [] ∧
    deleteIdentityQuery "dev" "b_b:0" storeWithBobIdentity.identityKeys =
      storeWithBobIdentity.identityKeys ∧
    deleteIdentityQuery "dev" "%" storeWithBobIdentity.identityKeys =
      storeWithBobIdentity.identityKeys ∧
    (DeleteIdentity storeWithBobIdentity "bob:0").1.identityKeys = [] ∧
    (DeleteIdentity storeWithBobIdentity "alice:0").1.identityKeys =
      storeWithBobIdentity.identityKeys := by
  refine ⟨?_, ?_, ?_, ?_, ?_, ?_, ?_⟩ <;> decide

/-! ## Chat settings -/

set_option maxRecDepth 100000 in
/-- C30. The statement of `PutMutedUntil`, `PutPinned` and `PutArchived`.  The
constant `putChatSettingQuery` has no verb: it names the column `column_name`
where the column of the call should stand.  So `fmt.Sprintf` leaves the text as
it is and appends the unused argument as `%!(EXTRA string=...)`: the three
methods execute the same `INSERT` into the column `column_name`, which
`whatsmeow_chat_settings` does not have, followed by that text, and none of
them names its column `muted_until`, `pinned` or `archived` in the statement
proper. -/
theorem putChatSetting_statement_text :
    ((PutMutedUntil acceptingBackend "dev" [] "chat@g.us" none).2.2 =
      [.exec { query := "INSERT INTO whatsmeow_chat_settings (our_jid, chat_jid, column_name)\n\tVALUES (?, ?, ?)\n\tON DUPLICATE KEY UPDATE\n\t\tcolumn_name = CASE\n\t\t\tWHEN VALUES(column_name) IS NOT NULL THEN VALUES(column_name)\n\t\t\tELSE column_name\n\t\tEND%!(EXTRA string=muted_until)",
               args := [.text "dev", .text "chat@g.us", .int 0] }] ∧
      (PutPinned acceptingBackend "dev" [] "chat@g.us" true).2.2 =
        [.exec { query := putChatSettingQuery ++ "%!(EXTRA string=pinned)",
                 args := [.text "dev", .text "chat@g.us", .bool true] }] ∧
      (PutArchived acceptingBackend "dev" [] "chat@g.us" true).2.2 =
        [.exec { query := putChatSettingQuery ++ "%!(EXTRA string=archived)",
                 args := [.text "dev", .text "chat@g.us", .bool true] }]) ∧
    chatSettingsTable.columns = ["our_jid", "chat_jid", "muted_until", "pinned", "archived"] ∧
    "column_name" ∉ chatSettingsTable.columns := by
  refine ⟨⟨?_, ?_, ?_⟩, ?_, ?_⟩ <;> decide

/-! ## Contacts: the bulk import -/

theorem contactBatch_foldl (IsEmpty : JID → Bool) (syn : String) :
    ∀ (contacts : List ContactEntry) (b : ContactBatch),
      (contacts.foldl (contactBatchStep IsEmpty syn) b).values =
          b.values ++ (keptContacts IsEmpty contacts b.handledContacts).flatMap contactValues ∧
        (contacts.foldl (contactBatchStep IsEmpty syn) b).queryParts.length =
          b.queryParts.length + (keptContacts IsEmpty contacts b.handledContacts).length := by
  intro contacts
  induction contacts with
  | nil => intro b; simp [keptContacts]
  | cons c rest ih =>
    intro b
    simp only [List.foldl_cons, keptContacts]
    by_cases he : IsEmpty c.JID = true
    · have hstep : contactBatchStep IsEmpty syn b c =
          { b with warnings := b.warnings ++ [.emptyContact c] } := by
        simp [contactBatchStep, he]
      rw [hstep]
      simpa [he] using ih { b with warnings := b.warnings ++ [.emptyContact c] }
    · by_cases hh : b.handledContacts.contains c.JID = true
      · have hstep : contactBatchStep IsEmpty syn b c =
            { b with warnings := b.warnings ++ [.duplicateContact c.JID] } := by
          simp only [contactBatchStep, he, hh]
          simp
        rw [hstep]
        have hmem : c.JID ∈ b.handledContacts := by simpa using hh
        simpa [he, hmem] using
          ih { b with warnings := b.warnings ++ [.duplicateContact c.JID] }
      · have hstep : (contactBatchStep IsEmpty syn b c).values = b.values ++ contactValues c ∧
            (contactBatchStep IsEmpty syn b c).handledContacts = c.JID :: b.handledContacts ∧
            (contactBatchStep IsEmpty syn b c).queryParts.length = b.queryParts.length + 1 := by
          simp only [contactBatchStep, he, hh]
          simp [contactValues]
        obtain ⟨h1, h2⟩ := ih (contactBatchStep IsEmpty syn b c)
        rw [h1, h2, hstep.1, hstep.2.1, hstep.2.2]
        simp only [he, hh, Bool.or_self, Bool.false_eq_true, if_false, List.flatMap_cons,
          List.length_cons, List.append_assoc, true_and]
        omega

theorem putContactNamesBatch_binds_kept (IsEmpty : JID → Bool) (dialect jid : String)
    (contacts : List ContactEntry) :
    (putContactNamesBatch IsEmpty dialect jid contacts).args =
        .text jid :: (keptContacts IsEmpty contacts []).flatMap contactValues ∧
      (contactBatch IsEmpty dialect jid contacts).queryParts.length =
        (keptContacts IsEmpty contacts []).length := by
  obtain ⟨h1, h2⟩ := contactBatch_foldl IsEmpty (contactPlaceholderSyntax dialect) contacts
    { i := 0, handledContacts := [], values := [.text jid], queryParts := [], warnings := [] }
  simp only [putContactNamesBatch, contactBatch]
  rw [h1, h2]
  simp

theorem keptContacts_spec (IsEmpty : JID → Bool) :
    ∀ (contacts : List ContactEntry) (handled : List JID),
      (∀ c ∈ keptContacts IsEmpty contacts handled,
        IsEmpty c.JID = false ∧ c.JID ∉ handled ∧
          contacts.find? (fun e => e.JID == c.JID) = some c) ∧
      ((keptContacts IsEmpty contacts handled).map (fun c => c.JID)).Nodup ∧
      (∀ e ∈ contacts, IsEmpty e.JID = false → e.JID ∉ handled →
        e.JID ∈ (keptContacts IsEmpty contacts handled).map (fun c => c.JID)) := by
  intro contacts
  induction contacts with
  | nil =>
    intro handled
    simp [keptContacts]
  | cons h rest ih =>
    intro handled
    by_cases hskip : (IsEmpty h.JID || handled.contains h.JID) = true
    · have hk : keptContacts IsEmpty (h :: rest) handled = keptContacts IsEmpty rest handled := by
        simp only [keptContacts, hskip, if_true]
      rw [hk]
      obtain ⟨ih1, ih2, ih3⟩ := ih handled
      refine ⟨?_, ih2, ?_⟩
      · intro c hc
        obtain ⟨hne, hnot, hfind⟩ := ih1 c hc
        refine ⟨hne, hnot, ?_⟩
        have hdiff : (h.JID == c.JID) = false := by
          rw [beq_eq_false_iff_ne]
          intro heq
          rw [heq] at hskip
          simp only [Bool.or_eq_true, hne, Bool.false_eq_true, false_or] at hskip
          exact hnot (by simpa using hskip)
        simp only [List.find?_cons, hdiff]
        exact hfind
      · intro e he hne hnot
        rcases List.mem_cons.mp he with rfl | he1
        · simp only [Bool.or_eq_true, hne, Bool.false_eq_true, false_or] at hskip
          exact absurd (by simpa using hskip) hnot
        · exact ih3 e he1 hne hnot
    · have hk : keptContacts IsEmpty (h :: rest) handled =
          h :: keptContacts IsEmpty rest (h.JID :: handled) := by
        simp only [keptContacts, hskip]
        rfl
      rw [hk]
      simp only [Bool.or_eq_true, not_or, Bool.not_eq_true] at hskip
      obtain ⟨hne0, hnot0⟩ := hskip
      have hnot0' : h.JID ∉ handled := by simpa using hnot0
      obtain ⟨ih1, ih2, ih3⟩ := ih (h.JID :: handled)
      refine ⟨?_, ?_, ?_⟩
      · intro c hc
        rcases List.mem_cons.mp hc with rfl | hc1
        · exact ⟨hne0, hnot0', by simp⟩
        · obtain ⟨hne, hnot, hfind⟩ := ih1 c hc1
          have hcj : c.JID ≠ h.JID := fun heq => hnot (by simp [heq])
          refine ⟨hne, fun hm => hnot (List.mem_cons_of_mem _ hm), ?_⟩
          have hdiff : (h.JID == c.JID) = false := by
            rw [beq_eq_false_iff_ne]
            exact fun heq => hcj heq.symm
          simp only [List.find?_cons, hdiff]
          exact hfind
      · simp only [List.map_cons, List.nodup_cons]
        refine ⟨?_, ih2⟩
        intro hm
        obtain ⟨c, hc, hcj⟩ := List.mem_map.mp hm
        exact (ih1 c hc).2.1 (by simp [hcj])
      · intro e he hne hnot
        simp only [List.map_cons, List.mem_cons]
        by_cases hej : e.JID = h.JID
        · exact Or.inl hej
        · rcases List.mem_cons.mp he with rfl | he1
          · exact absurd rfl hej
          · exact Or.inr (ih3 e he1 hne (by simp [hej, hnot]))

theorem contactBatch_foldl_parts (IsEmpty : JID → Bool) (syn : String) :
    ∀ (contacts : List ContactEntry) (b : ContactBatch),
      (contacts.foldl (contactBatchStep IsEmpty syn) b).queryParts =
          b.queryParts ++
            (List.range' b.i (keptContacts IsEmpty contacts b.handledContacts).length).map
              (fun k => Sprintf syn
                [.int (k * 3 + 1 + 1), .int (k * 3 + 1 + 2), .int (k * 3 + 1 + 3)]) := by
  intro contacts
  induction contacts with
  | nil => intro b; simp [keptContacts]
  | cons c rest ih =>
    intro b
    simp only [List.foldl_cons, keptContacts]
    by_cases he : IsEmpty c.JID = true
    · have hstep : contactBatchStep IsEmpty syn b c =
          { b with warnings := b.warnings ++ [.emptyContact c] } := by
        simp [contactBatchStep, he]
      rw [hstep]
      simpa [he] using ih { b with warnings := b.warnings ++ [.emptyContact c] }
    · by_cases hh : b.handledContacts.contains c.JID = true
      · have hstep : contactBatchStep IsEmpty syn b c =
            { b with warnings := b.warnings ++ [.duplicateContact c.JID] } := by
          simp only [contactBatchStep, he, hh]
          simp
        rw [hstep]
        have hmem : c.JID ∈ b.handledContacts := by simpa using hh
        simpa [he, hmem] using
          ih { b with warnings := b.warnings ++ [.duplicateContact c.JID] }
      · have hstep : (contactBatchStep IsEmpty syn b c).i = b.i + 1 ∧
            (contactBatchStep IsEmpty syn b c).handledContacts = c.JID :: b.handledContacts ∧
            (contactBatchStep IsEmpty syn b c).queryParts = b.queryParts ++
              [Sprintf syn
                [.int (b.i * 3 + 1 + 1), .int (b.i * 3 + 1 + 2), .int (b.i * 3 + 1 + 3)]] := by
          simp only [contactBatchStep, he, hh]
          simp
        rw [ih (contactBatchStep IsEmpty syn b c), hstep.1, hstep.2.1, hstep.2.2]
        simp only [he, hh, Bool.or_self, Bool.false_eq_true, if_false, List.length_cons,
          List.range'_succ, List.map_cons, List.append_assoc, List.singleton_append]

theorem keptContacts_idem (IsEmpty : JID → Bool) :
    ∀ (contacts : List ContactEntry) (handled : List JID),
      keptContacts IsEmpty (keptContacts IsEmpty contacts handled) handled =
        keptContacts IsEmpty contacts handled := by
  intro contacts
  induction contacts with
  | nil => intro handled; simp [keptContacts]
  | cons c rest ih =>
    intro handled
    by_cases hskip : (IsEmpty c.JID || handled.contains c.JID) = true
    · have hk : keptContacts IsEmpty (c :: rest) handled = keptContacts IsEmpty rest handled := by
        simp only [keptContacts, hskip, if_true]
      rw [hk]
      exact ih handled
    · have hk : ∀ l, keptContacts IsEmpty (c :: l) handled =
          c :: keptContacts IsEmpty l (c.JID :: handled) := by
        intro l
        simp only [keptContacts, hskip]
        rfl
      rw [hk rest, hk, ih (c.JID :: handled)]

theorem putContactNamesBatch_of_kept (IsEmpty : JID → Bool) (dialect jid : String)
    (contacts : List ContactEntry) :
    putContactNamesBatch IsEmpty dialect jid contacts =
      { query := Sprintf putManyContactNamesQuery
          [.str (Join ((List.range' 0 (keptContacts IsEmpty contacts []).length).map
            (fun k => Sprintf (contactPlaceholderSyntax dialect)
              [.int (k * 3 + 1 + 1), .int (k * 3 + 1 + 2), .int (k * 3 + 1 + 3)])) ",")],
        args := .text jid :: (keptContacts IsEmpty contacts []).flatMap contactValues } := by
  have h1 := (contactBatch_foldl IsEmpty (contactPlaceholderSyntax dialect) contacts
    { i := 0, handledContacts := [], values := [.text jid], queryParts := [],
      warnings := [] }).1
  have h2 := contactBatch_foldl_parts IsEmpty (contactPlaceholderSyntax dialect) contacts
    { i := 0, handledContacts := [], values := [.text jid], queryParts := [], warnings := [] }
  simp only [putContactNamesBatch, contactBatch]
  rw [h1, h2]
  simp

theorem putContactNamesBatch_keptContacts (IsEmpty : JID → Bool) (dialect jid : String)
    (contacts : List ContactEntry) :
    putContactNamesBatch IsEmpty dialect jid (keptContacts IsEmpty contacts []) =
      putContactNamesBatch IsEmpty dialect jid contacts := by
  rw [putContactNamesBatch_of_kept IsEmpty dialect jid contacts,
    putContactNamesBatch_of_kept IsEmpty dialect jid (keptContacts IsEmpty contacts []),
    keptContacts_idem]

theorem keptContacts_length_le (IsEmpty : JID → Bool) :
    ∀ (contacts : List ContactEntry) (handled : List JID),
      (keptContacts IsEmpty contacts handled).length ≤ contacts.length := by
  intro contacts
  induction contacts with
  | nil => intro handled; simp [keptContacts]
  | cons c rest ih =>
    intro handled
    simp only [keptContacts]
    split
    · exact Nat.le_succ_of_le (ih handled)
    · simpa using ih (c.JID :: handled)

theorem count_one_of_nodup (l : List ContactEntry) (j : JID)
    (hnodup : (l.map (fun c => c.JID)).Nodup) (hmem : j ∈ l.map (fun c => c.JID)) :
    (l.filter (fun c => c.JID == j)).length = 1 := by
  induction l with
  | nil => simp at hmem
  | cons c rest ih =>
    simp only [List.map_cons, List.nodup_cons] at hnodup
    by_cases hc : c.JID = j
    · have hnone : rest.filter (fun c => c.JID == j) = [] := by
        rw [List.filter_eq_nil_iff]
        intro e he hej
        exact hnodup.1 (List.mem_map.mpr ⟨e, he, by rw [hc]; simpa using hej⟩)
      simp [List.filter_cons, hc, hnone]
    · have hrest : j ∈ rest.map (fun c => c.JID) := by
        simp only [List.map_cons, List.mem_cons] at hmem
        rcases hmem with h | h
        · exact absurd h.symm hc
        · exact h
      simp [List.filter_cons, hc, ih hnodup.2 hrest]

/-- C21. Bulk contact import deduplicates by JID.  For every backend, dialect
and input list, the statements `PutAllContactNames` executes are, in order,
those of the chunks of the list with the empty JIDs and the later entries of a
JID removed (all of them when the import returns nil).  The statement of a
chunk binds the device JID followed by the three values of the kept entries
and has one value tuple in its text for each: the kept JIDs are distinct and
not empty, a kept entry is the first entry of its JID in the chunk, every
non-empty JID of the chunk has exactly one kept entry and an empty JID none.
The statement is the one composed for the kept entries alone, so the import of
a list within one batch is, on every backend, the import of its kept entries:
for a JID that occurs twice the store is handed exactly one record. -/
theorem PutAllContactNames_deduplicates {σ : Type} (B : Backend σ) (IsEmpty : JID → Bool)
    (dialect jid : String) (db : σ) (cache : List (JID × ContactInfo))
    (contacts : List ContactEntry) :
    List.IsPrefix (execStmts (PutAllContactNames B IsEmpty dialect jid db cache contacts).2.2.2)
      ((batchSlices contactBatchSize contacts).map
        (fun chunk => putContactNamesBatch IsEmpty dialect jid (keptContacts IsEmpty chunk []))) ∧
    ((PutAllContactNames B IsEmpty dialect jid db cache contacts).2.2.1 = none →
      execStmts (PutAllContactNames B IsEmpty dialect jid db cache contacts).2.2.2 =
        (batchSlices contactBatchSize contacts).map
          (fun chunk =>
            putContactNamesBatch IsEmpty dialect jid (keptContacts IsEmpty chunk []))) ∧
    (∀ chunk : List ContactEntry,
      (putContactNamesBatch IsEmpty dialect jid chunk).args =
        .text jid :: (keptContacts IsEmpty chunk []).flatMap contactValues ∧
      (contactBatch IsEmpty dialect jid chunk).queryParts.length =
        (keptContacts IsEmpty chunk []).length ∧
      ((keptContacts IsEmpty chunk []).map (fun c => c.JID)).Nodup ∧
      (∀ c ∈ keptContacts IsEmpty chunk [],
        IsEmpty c.JID = false ∧ chunk.find? (fun e => e.JID == c.JID) = some c) ∧
      (∀ e ∈ chunk, IsEmpty e.JID = false →
        ((keptContacts IsEmpty chunk []).filter (fun c => c.JID == e.JID)).length = 1) ∧
      (∀ e ∈ chunk, IsEmpty e.JID = true →
        (keptContacts IsEmpty chunk []).filter (fun c => c.JID == e.JID) = []) ∧
      putContactNamesBatch IsEmpty dialect jid (keptContacts IsEmpty chunk []) =
        putContactNamesBatch IsEmpty dialect jid chunk) ∧
    (contacts.length ≤ contactBatchSize → keptContacts IsEmpty contacts [] ≠ [] →
      PutAllContactNames B IsEmpty dialect jid db cache contacts =
        PutAllContactNames B IsEmpty dialect jid db cache (keptContacts IsEmpty contacts [])) ∧
    keptContacts jidIsEmpty
        [exampleContact2, exampleContactEmpty, exampleContact, exampleContactAgain] [] =
      [exampleContact2, exampleContact] ∧
    (putContactNamesBatch jidIsEmpty "mysql" "dev"
        [exampleContact2, exampleContactEmpty, exampleContact, exampleContactAgain]).args =
      [.text "dev", .text "bob@s.whatsapp.net", .text "Bob", .text "Bob B",
        .text "alice@s.whatsapp.net", .text "Alice", .text "Alice A"] := by
  have hfun : (fun chunk =>
      putContactNamesBatch IsEmpty dialect jid (keptContacts IsEmpty chunk [])) =
      putContactNamesBatch IsEmpty dialect jid := by
    funext chunk
    exact putContactNamesBatch_keptContacts IsEmpty dialect jid chunk
  obtain ⟨hp, hall⟩ := PutAllContactNames_stmts B IsEmpty dialect jid db cache contacts
  rw [hfun]
  refine ⟨hp, hall, ?_, ?_, by decide, by decide⟩
  · intro chunk
    obtain ⟨hargs, hparts⟩ := putContactNamesBatch_binds_kept IsEmpty dialect jid chunk
    obtain ⟨hk1, hk2, hk3⟩ := keptContacts_spec IsEmpty chunk []
    refine ⟨hargs, hparts, hk2, fun c hc => ⟨(hk1 c hc).1, (hk1 c hc).2.2⟩, ?_, ?_,
      putContactNamesBatch_keptContacts IsEmpty dialect jid chunk⟩
    · intro e he hne
      exact count_one_of_nodup _ e.JID hk2 (hk3 e he hne (by simp))
    · intro e _ hemp
      rw [List.filter_eq_nil_iff]
      intro c hc hcj
      have hcj1 : c.JID = e.JID := by simpa using hcj
      have := (hk1 c hc).1
      rw [hcj1, hemp] at this
      exact Bool.noConfusion this
  · intro hlen hkept
    have hklen := keptContacts_length_le IsEmpty contacts []
    have hkpos : 0 < (keptContacts IsEmpty contacts []).length :=
      List.length_pos.mpr hkept
    have h1 : ¬ contacts.length > contactBatchSize := by omega
    have h2 : ¬ (keptContacts IsEmpty contacts []).length > contactBatchSize := by omega
    have h3 : contacts.length > 0 := by omega
    have h4 : (keptContacts IsEmpty contacts []).length > 0 := hkpos
    unfold PutAllContactNames
    rw [if_neg h1, if_neg h2, if_pos h3, if_pos h4,
      putContactNamesBatch_keptContacts IsEmpty dialect jid contacts]

set_option maxRecDepth 100000 in
/-- C22. A chunk left without entry still sends a statement.  For a list that
holds only an entry with the empty JID, `putContactNamesBatch` composes an
`INSERT` whose `VALUES` list is empty, and `PutAllContactNames` sends it; on a
backend that rejects such a statement the call returns the error.  For 300
entries of Alice followed by the entry with the empty JID, the second chunk is
that statement: its failure rolls back the first chunk, so the whole import
fails. -/
theorem PutAllContactNames_sends_empty_statement :
    putContactNamesBatch jidIsEmpty "mysql" "dev" [exampleContactEmpty] =
      { query := "\n\t\tINSERT INTO whatsmeow_contacts (our_jid, their_jid, first_name, full_name)\n\t\tVALUES \n\t\tON DUPLICATE KEY UPDATE\n\t\t\tfirst_name = VALUES(first_name),\n\t\t\tfull_name = VALUES(full_name)",
        args := [.text "dev"] } ∧
    PutAllContactNames acceptingBackend jidIsEmpty "mysql" "dev" [] cacheWithBob
        [exampleContactEmpty] =
      ([putContactNamesBatch jidIsEmpty "mysql" "dev" [exampleContactEmpty]], [], none,
        [.exec (putContactNamesBatch jidIsEmpty "mysql" "dev" [exampleContactEmpty])]) ∧
    PutAllContactNames rejectOneValue jidIsEmpty "mysql" "dev" [] cacheWithBob
        [exampleContactEmpty] =
      ([], cacheWithBob, some (.backend "You have an error in your SQL syntax"),
        [.exec (putContactNamesBatch jidIsEmpty "mysql" "dev" [exampleContactEmpty])]) ∧
    PutAllContactNames rejectOneValue jidIsEmpty "mysql" "dev" [] cacheWithBob
        (List.replicate 300 exampleContact ++ [exampleContactEmpty]) =
      ([], cacheWithBob, some (.backend "You have an error in your SQL syntax"),
        [.begin,
          .exec (putContactNamesBatch jidIsEmpty "mysql" "dev"
            (List.replicate 300 exampleContact)),
          .exec (putContactNamesBatch jidIsEmpty "mysql" "dev" [exampleContactEmpty]),
          .rollback]) := by
  refine ⟨?_, ?_, ?_, ?_⟩ <;> decide

end Sqlstore
